import Mathlib

/-!
# Sonic Visualiser: the spectrogram layer's image cache and paint driver

A shallow embedding of `layer/SpectrogramLayer.cpp`, followed by one of the
file identifier of `framework/SVFileReader.cpp`.  C++ `int`/`long`
values are `Int`, `size_t` values are `Nat`; the maps keyed by `View *`
are association lists kept in key order (the iteration order of
`std::map`), a view pointer being a `ViewId`.  Floats are exact rationals.
A call that would end in undefined behaviour (a read outside an array, a
call through a null pointer) returns `none` or the `Fault` it ends in.
-/

namespace SpectrogramLayer

/-! ## Qt value types used by the layer -/

/-- Qt's QRect: the corners (x1, y1) and (x2, y2), both inclusive. -/
structure QRect where
  x1 : Int
  y1 : Int
  x2 : Int
  y2 : Int
  deriving DecidableEq

namespace QRect

/-- The default-constructed rectangle `QRect()`. -/
def null : QRect := ⟨0, 0, -1, -1⟩

/-- The constructor `QRect(left, top, width, height)`. -/
def ofSize (left top width height : Int) : QRect :=
  ⟨left, top, left + width - 1, top + height - 1⟩

def x (r : QRect) : Int := r.x1
def y (r : QRect) : Int := r.y1
def left (r : QRect) : Int := r.x1
def right (r : QRect) : Int := r.x2
def width (r : QRect) : Int := r.x2 - r.x1 + 1
def height (r : QRect) : Int := r.y2 - r.y1 + 1

def isNull (r : QRect) : Bool := r.x2 == r.x1 - 1 && r.y2 == r.y1 - 1

/-- The intersection `a & b` of Qt (`QRect::operator&`). -/
def intersected (a b : QRect) : QRect :=
  if a.isNull || b.isNull then null
  else
    let l1 := if a.x2 - a.x1 + 1 < 0 then a.x2 else a.x1
    let r1 := if a.x2 - a.x1 + 1 < 0 then a.x1 else a.x2
    let l2 := if b.x2 - b.x1 + 1 < 0 then b.x2 else b.x1
    let r2 := if b.x2 - b.x1 + 1 < 0 then b.x1 else b.x2
    if l1 > r2 || l2 > r1 then null
    else
      let t1 := if a.y2 - a.y1 + 1 < 0 then a.y2 else a.y1
      let b1 := if a.y2 - a.y1 + 1 < 0 then a.y1 else a.y2
      let t2 := if b.y2 - b.y1 + 1 < 0 then b.y2 else b.y1
      let b2 := if b.y2 - b.y1 + 1 < 0 then b.y1 else b.y2
      if t1 > b2 || t2 > b1 then null
      else ⟨max l1 l2, max t1 t2, min r1 r2, min b1 b2⟩

/-- Column `c` lies in the rectangle: `x() <= c < x() + width()`. -/
def hasColumn (r : QRect) (c : Int) : Prop := r.x ≤ c ∧ c < r.x + r.width

instance (r : QRect) (c : Int) : Decidable (r.hasColumn c) := by
  unfold hasColumn; exact inferInstance

end QRect

/-- A pixel value (QRgb, or a palette index in an indexed image). -/
abbrev QRgb := Nat

/-- A QImage: its size and its scan lines, `pixels y` being `scanLine(y)`. -/
structure QImage where
  width : Int
  height : Int
  pixels : Int → Int → QRgb

namespace QImage

/-- The null image `QImage()`. -/
def null : QImage := ⟨0, 0, fun _ _ => 0⟩

/-- A fresh image `QImage(w, h, format)`. -/
def ofSize (w h : Int) : QImage := ⟨w, h, fun _ _ => 0⟩

end QImage

/-- The C library's `memmove` on a scan line, counted in QRgb entries:
the `n` entries from `src` on are copied to `dst` on, the rest is kept. -/
def memmove (line : Int → QRgb) (dst src n : Int) : Int → QRgb :=
  fun i => if dst ≤ i ∧ i < dst + n then line (src + (i - dst)) else line i

/-! ## The viewport, as the layer sees it -/

/-- A view pointer (`View *`), the key of the per-view maps. -/
abbrev ViewId := Nat

/-- The methods of `View` that the layer calls. -/
structure View where
  getStartFrame : Int
  getEndFrame : Int
  getZoomLevel : Int
  width : Int
  height : Int
  getXForFrame : Int → Int
  getFrameForX : Int → Int

/-- A viewport of `width` by `height` pixels starting at frame `start` with
`zoom` frames per pixel column. -/
def View.ofGeometry (start zoom width height : Int) : View where
  getStartFrame := start
  getEndFrame := width * zoom + start - 1
  getZoomLevel := zoom
  width := width
  height := height
  getXForFrame := fun f => Int.tdiv (f - start) zoom
  getFrameForX := fun x => x * zoom + start

/-! ## The per-view image cache -/

/-- The struct `ImageCache` of the layer. -/
structure ImageCache where
  validArea : QRect
  image : QImage
  startFrame : Int
  zoomLevel : Nat

/-- A default-constructed cache entry, as `m_imageCaches[v]` inserts it. -/
def ImageCache.empty : ImageCache := ⟨QRect.null, QImage.null, 0, 0⟩

/-- The row-wise shift of the cached image by `dx` pixels (paint, the loop
over `scanLine(y)`). -/
def shiftScanLines (image : QImage) (cw ch dx : Int) : QImage :=
  let dxp := if dx < 0 then -dx else dx
  let copy := cw - dxp
  { image with
    pixels := fun y =>
      if 0 ≤ y ∧ y < ch then
        if dx < 0 then memmove (image.pixels y) 0 dxp copy
        else memmove (image.pixels y) dxp 0 copy
      else image.pixels y }

/-- The valid area and the strip to repaint after a shift by `dx` (paint,
from `int px = cache.validArea.x()` to the assignment of `cache.validArea`):
the result is the new valid area and the new `x0`, `x1`. -/
def shiftValidArea (validArea : QRect) (cw dx : Int) : QRect × Int × Int :=
  let px := validArea.x
  let pw := validArea.width
  if dx < 0 then
    let px := px + dx
    let pw := if px < 0 then (if pw + px < 0 then 0 else pw + px) else pw
    let px := if px < 0 then 0 else px
    (QRect.ofSize px validArea.y pw validArea.height, cw + dx, cw)
  else
    let px := px + dx
    let pw := if px + pw > cw then (if cw - px < 0 then 0 else cw - px) else pw
    (QRect.ofSize px validArea.y pw validArea.height, 0, dx)

/-- What the cache check at the head of paint decides. -/
inductive Reconciled where
  /-- the cache is good: paint draws from it and returns -/
  | cacheGood
  /-- paint carries on with this cache entry, range `[x0, x1)` and flag -/
  | carryOn (cache : ImageCache) (x0 x1 : Int) (recreateWholeImageCache : Bool)

/-- The cache check of paint: from `bool recreateWholeImageCache = true` to
the end of `if (cache.validArea.width() > 0)`. -/
def reconcileCache (v : View) (startFrame : Int) (rect : QRect)
    (cache : ImageCache) : Reconciled :=
  let zoomLevel := v.getZoomLevel
  let x0 := rect.left
  let x1 := rect.right + 1
  if cache.validArea.width > 0 then
    let cw := cache.image.width
    let ch := cache.image.height
    if (cache.zoomLevel : Int) = zoomLevel ∧ cw = v.width ∧ ch = v.height then
      if v.getXForFrame cache.startFrame = v.getXForFrame startFrame ∧
          cache.validArea.x ≤ x0 ∧
          cache.validArea.x + cache.validArea.width ≥ x1 then
        Reconciled.cacheGood
      else
        let dx := v.getXForFrame cache.startFrame - v.getXForFrame startFrame
        if dx ≠ 0 ∧ dx > -cw ∧ dx < cw then
          let r := shiftValidArea cache.validArea cw dx
          Reconciled.carryOn
            { cache with image := shiftScanLines cache.image cw ch dx,
                         validArea := r.1 }
            r.2.1 r.2.2 false
        else if dx ≠ 0 then
          Reconciled.carryOn { cache with validArea := QRect.null } x0 x1 true
        else
          Reconciled.carryOn cache x0 x1 false
    else
      Reconciled.carryOn { cache with validArea := QRect.null } x0 x1 true
  else
    Reconciled.carryOn cache x0 x1 true

/-! ## Machine-integer conversions (LP64) -/

/-- The conversion `long(n)` of a `size_t`. -/
def toLong (n : Nat) : Int :=
  if n % 2 ^ 64 < 2 ^ 63 then ((n % 2 ^ 64 : Nat) : Int)
  else ((n % 2 ^ 64 : Nat) : Int) - 2 ^ 64

/-- The conversion of a `long` to `size_t`, as in a mixed comparison. -/
def toSizeT (z : Int) : Nat := (z % 2 ^ 64).toNat

/-! ## Maps keyed by view -/

/-- A `std::map<const View *, T>`: its entries in key order. -/
abbrev ViewMap (α : Type) := List (ViewId × α)

/-- The lookup `m.find(v)`. -/
def mapFind {α : Type} (m : ViewMap α) (v : ViewId) : Option α := m.lookup v

/-- The assignment `m[v] = a`: replaces the entry of `v` or inserts one in
key order. -/
def mapSet {α : Type} : ViewMap α → ViewId → α → ViewMap α
  | [], v, a => [(v, a)]
  | (k, b) :: rest, v, a =>
    if v < k then (v, a) :: (k, b) :: rest
    else if v = k then (v, a) :: rest
    else (k, b) :: mapSet rest v a

/-- The removal `m.erase(v)`. -/
def mapErase {α : Type} (m : ViewMap α) (v : ViewId) : ViewMap α :=
  m.filter (fun p => p.1 != v)

/-- The access `m[v]`: the value of `v`, a default-constructed one being
inserted when `v` has no entry; the result is the value and the map. -/
def mapIndex {α : Type} (dflt : α) (m : ViewMap α) (v : ViewId) : α × ViewMap α :=
  match mapFind m v with
  | some a => (a, m)
  | none => (dflt, mapSet m v dflt)

/-! ## Magnitude ranges, models and transforms -/

/-- Modelled from the spec: the class `MagnitudeRange` of SpectrogramLayer.h
(the header is not among the sources), a (min, max) pair over sampled
magnitudes for which "unset" is a valid state: the default-constructed range
is (0, 0), and a range is set when either bound is non-zero. -/
structure MagnitudeRange where
  m_min : Nat
  m_max : Nat
  deriving DecidableEq

namespace MagnitudeRange

/-- The default-constructed range `MagnitudeRange()`, which is unset. -/
def unset : MagnitudeRange := ⟨0, 0⟩

def isSet (r : MagnitudeRange) : Bool := r.m_min != 0 || r.m_max != 0

/-- Modelled from the spec: the merge `sample(const MagnitudeRange &)` of
SpectrogramLayer.h: an unset range takes the sampled one, a set range is
widened to include it; the result says whether the range changed. -/
def sample (r s : MagnitudeRange) : MagnitudeRange × Bool :=
  if r.isSet then
    let mn := if s.m_min < r.m_min then s.m_min else r.m_min
    let mx := if s.m_max > r.m_max then s.m_max else r.m_max
    (⟨mn, mx⟩, decide (s.m_min < r.m_min) || decide (s.m_max > r.m_max))
  else (s, true)

end MagnitudeRange

/-- The source model (`DenseTimeValueModel`), as the layer queries it. -/
structure Model where
  isOK : Bool
  isReady : Bool
  getStartFrame : Nat
  getEndFrame : Nat
  getSampleRate : Nat
  deriving DecidableEq

/-- A transform (`FFTModel`), as the layer queries it. -/
structure FFTModel where
  getHeight : Nat
  getWidth : Nat
  getFillExtent : Nat
  getCompletion : Nat
  isOK : Bool
  deriving DecidableEq

/-- A peak cache `Dense3DModelPeakCache(source, columnsPerPeak)`. -/
structure PeakCache where
  source : FFTModel
  columnsPerPeak : Nat
  deriving DecidableEq

/-- The pair `FFTFillPair`: a transform pointer (null is `none`) and the
fill extent last seen for it. -/
abbrev FFTFillPair := Option FFTModel × Int

/-! ## The layer -/

inductive ColourScale where
  | LinearColourScale | MeterColourScale | dBSquaredColourScale
  | dBColourScale | PhaseColourScale
  deriving DecidableEq

inductive FrequencyScale where
  | LinearFrequencyScale | LogFrequencyScale
  deriving DecidableEq

inductive BinDisplay where
  | AllBins | PeakBins | PeakFrequencies
  deriving DecidableEq

/-- A window shape (the enum `WindowType` of base/Window.h), by its value. -/
abbrev WindowType := Nat

/-- A colour (`QColor`), by its ARGB value. -/
abbrev QColor := Nat

/-- The constants `Qt::white` and `Qt::black`. -/
def Qt.white : QColor := 0xffffffff
def Qt.black : QColor := 0xff000000

/-- The 256 entries of the layer's palette, by index. -/
abbrev Palette := Nat → QColor

/-- The time type `RealTime`, in nanoseconds. -/
abbrev RealTime := Int

/-- The members of `SpectrogramLayer` (with the dormancy map of its base
class `Layer`). -/
structure Layer where
  m_model : Option Model
  m_channel : Int
  m_windowSize : Nat
  m_windowType : WindowType
  m_windowHopLevel : Nat
  m_zeroPadLevel : Nat
  m_fftSize : Nat
  m_gain : ℚ
  m_threshold : ℚ
  m_colourRotation : Int
  m_minFrequency : Nat
  m_maxFrequency : Nat
  m_colourScale : ColourScale
  m_colourMap : Int
  m_crosshairColour : QColor
  m_frequencyScale : FrequencyScale
  m_binDisplay : BinDisplay
  m_normalizeColumns : Bool
  m_normalizeVisibleArea : Bool
  m_synchronous : Bool
  m_lastPaintBlockWidth : Int
  m_lastPaintTime : RealTime
  m_updateTimer : Bool
  m_candidateFillStartFrame : Nat
  m_sliceableModel : Option FFTModel
  m_palette : Palette
  m_drawBuffer : QImage
  m_imageCaches : ViewMap ImageCache
  m_fftModels : ViewMap FFTFillPair
  m_peakCaches : ViewMap (Option PeakCache)
  m_viewMags : ViewMap MagnitudeRange
  m_columnMags : List MagnitudeRange
  m_dormancy : ViewMap Bool

/-- The no-argument `invalidateImageCaches()`. -/
def invalidateImageCaches (s : Layer) : Layer :=
  { s with m_imageCaches :=
      s.m_imageCaches.map (fun p => (p.1, { p.2 with validArea := QRect.null })) }

/-- The loop of `invalidateImageCaches(startFrame, endFrame)` over the cache
map, `views` giving the view behind each key; a `return` in the loop body
leaves the remaining entries as they are. -/
def invalidateRange (views : ViewId → View) (startFrame endFrame : Nat) :
    ViewMap ImageCache → ViewMap ImageCache
  | [] => []
  | (k, c) :: rest =>
    let v := views k
    if toLong startFrame > v.getStartFrame then
      if startFrame ≥ toSizeT v.getEndFrame then (k, c) :: rest
      else
        let x := v.getXForFrame (toLong startFrame)
        let c1 : ImageCache :=
          if x > 1 then
            { c with validArea := c.validArea.intersected
                                    (QRect.ofSize 0 0 (x - 1) v.height) }
          else { c with validArea := QRect.null }
        (k, c1) :: invalidateRange views startFrame endFrame rest
    else
      if toLong endFrame < v.getStartFrame then (k, c) :: rest
      else
        let x := v.getXForFrame (toLong endFrame)
        let c1 : ImageCache :=
          if x < v.width then
            { c with validArea := c.validArea.intersected
                                    (QRect.ofSize (x + 1) 0 (v.width - (x + 1)) v.height) }
          else { c with validArea := QRect.null }
        (k, c1) :: invalidateRange views startFrame endFrame rest

/-- The two-argument `invalidateImageCaches(startFrame, endFrame)`. -/
def invalidateImageCachesIn (views : ViewId → View) (s : Layer)
    (startFrame endFrame : Nat) : Layer :=
  { s with m_imageCaches := invalidateRange views startFrame endFrame s.m_imageCaches }

/-- The method `invalidateFFTModels`: every transform and peak cache is
deleted and both maps are cleared. -/
def invalidateFFTModels (s : Layer) : Layer :=
  { s with m_fftModels := [], m_peakCaches := [], m_sliceableModel := none }

/-- The method `invalidateMagnitudes`. -/
def invalidateMagnitudes (s : Layer) : Layer :=
  { s with m_viewMags := [],
           m_columnMags := s.m_columnMags.map (fun _ => MagnitudeRange.unset) }

/-! ## The palette -/

/-- The class `ColourMapper` (ColourMapper.h is not among the sources), as
the layer uses it: the value of the enum constant `BlackOnWhite`, the
colour `ColourMapper(map, 1, 255).map(value)` and the contrasting colour of
a colour map. -/
structure ColourMapper where
  blackOnWhite : Int
  map : Int → Nat → QColor
  getContrastingColour : Int → QColor

/-- The loop `while (target < 1) target += 255`. -/
def raiseTarget (target : Int) : Int :=
  if target < 1 then raiseTarget (target + 255) else target
termination_by (1 - target).toNat
decreasing_by omega

/-- The loop `while (target > 255) target -= 255`. -/
def lowerTarget (target : Int) : Int :=
  if target > 255 then lowerTarget (target - 255) else target
termination_by (target - 255).toNat
decreasing_by omega

/-- The method `rotatePalette(distance)`, on the palette: `newPixels` is
filled entry by entry and then copied back over entries 0 to 255. -/
def rotatePalette (palette : Palette) (distance : Int) : Palette :=
  let newPixels0 : Nat → QColor := fun i => if i = 0 then palette 0 else 0
  let newPixels := (List.range' 1 255).foldl
    (fun (np : Nat → QColor) (pixel : Nat) =>
      let target := lowerTarget (raiseTarget (Int.ofNat pixel + distance))
      Function.update np target.toNat (palette pixel))
    newPixels0
  fun pixel => if pixel < 256 then newPixels pixel else palette pixel

/-- The method `initialisePalette`. -/
def initialisePalette (cm : ColourMapper) (s : Layer) : Layer :=
  let formerRotation := s.m_colourRotation
  let p0 : Palette := Function.update s.m_palette 0
    (if s.m_colourMap = cm.blackOnWhite then Qt.white else Qt.black)
  let p1 : Palette := fun pixel =>
    if 1 ≤ pixel ∧ pixel < 256 then cm.map s.m_colourMap pixel else p0 pixel
  { s with m_palette := rotatePalette p1 (0 - formerRotation),
           m_crosshairColour := cm.getContrastingColour s.m_colourMap,
           m_colourRotation := formerRotation,
           m_drawBuffer := QImage.null }

/-! ## The configuration setters -/

def setChannel (s : Layer) (ch : Int) : Layer :=
  if s.m_channel = ch then s
  else invalidateFFTModels { invalidateImageCaches s with m_channel := ch }

def setWindowSize (s : Layer) (ws : Nat) : Layer :=
  if s.m_windowSize = ws then s
  else invalidateFFTModels
    { invalidateImageCaches s with
      m_windowSize := ws, m_fftSize := ws * (s.m_zeroPadLevel + 1) % 2 ^ 64 }

def setWindowHopLevel (s : Layer) (v : Nat) : Layer :=
  if s.m_windowHopLevel = v then s
  else invalidateFFTModels { invalidateImageCaches s with m_windowHopLevel := v }

def setZeroPadLevel (s : Layer) (v : Nat) : Layer :=
  if s.m_zeroPadLevel = v then s
  else invalidateFFTModels
    { invalidateImageCaches s with
      m_zeroPadLevel := v, m_fftSize := s.m_windowSize * (v + 1) % 2 ^ 64 }

def setWindowType (s : Layer) (w : WindowType) : Layer :=
  if s.m_windowType = w then s
  else invalidateFFTModels { invalidateImageCaches s with m_windowType := w }

def setGain (s : Layer) (gain : ℚ) : Layer :=
  if s.m_gain = gain then s
  else { invalidateImageCaches s with m_gain := gain }

def setThreshold (s : Layer) (threshold : ℚ) : Layer :=
  if s.m_threshold = threshold then s
  else { invalidateImageCaches s with m_threshold := threshold }

def setMinFrequency (s : Layer) (mf : Nat) : Layer :=
  if s.m_minFrequency = mf then s
  else { invalidateMagnitudes (invalidateImageCaches s) with m_minFrequency := mf }

def setMaxFrequency (s : Layer) (mf : Nat) : Layer :=
  if s.m_maxFrequency = mf then s
  else { invalidateMagnitudes (invalidateImageCaches s) with m_maxFrequency := mf }

def setColourScale (s : Layer) (colourScale : ColourScale) : Layer :=
  if s.m_colourScale = colourScale then s
  else { invalidateImageCaches s with m_colourScale := colourScale }

def setColourMap (cm : ColourMapper) (s : Layer) (map : Int) : Layer :=
  if s.m_colourMap = map then s
  else initialisePalette cm { invalidateImageCaches s with m_colourMap := map }

def setFrequencyScale (s : Layer) (frequencyScale : FrequencyScale) : Layer :=
  if s.m_frequencyScale = frequencyScale then s
  else { invalidateImageCaches s with m_frequencyScale := frequencyScale }

def setBinDisplay (s : Layer) (binDisplay : BinDisplay) : Layer :=
  if s.m_binDisplay = binDisplay then s
  else { invalidateImageCaches s with m_binDisplay := binDisplay }

def setNormalizeColumns (s : Layer) (n : Bool) : Layer :=
  if s.m_normalizeColumns = n then s
  else { invalidateMagnitudes (invalidateImageCaches s) with m_normalizeColumns := n }

def setNormalizeVisibleArea (s : Layer) (n : Bool) : Layer :=
  if s.m_normalizeVisibleArea = n then s
  else { invalidateMagnitudes (invalidateImageCaches s) with m_normalizeVisibleArea := n }

/-- The method `getCompletion(v)`; `none` is the read through a null
transform pointer. -/
def getCompletion (s : Layer) (v : ViewId) : Option Int :=
  if s.m_updateTimer = false then some 100
  else
    match mapFind s.m_fftModels v with
    | none => some 100
    | some (some f, _) => some (f.getCompletion : Int)
    | some (none, _) => none

/-! ## Column ranges and view magnitudes -/

/-- The method `getXBinRange(v, x, s0, s1)`: `none` is the result false;
otherwise the frame offsets `(f0, f1)` are given, the outputs being
`s0 = f0 / windowIncrement` and `s1 = f1 / windowIncrement`. -/
def getXBinRange (m : Model) (v : View) (x : Int) : Option (Int × Int) :=
  let modelStart : Int := m.getStartFrame
  let modelEnd : Int := m.getEndFrame
  let f0 := v.getFrameForX x - modelStart
  let f1 := v.getFrameForX (x + 1) - modelStart - 1
  if f1 < modelStart ∨ f0 > modelEnd then none else some (f0, f1)

/-- The conversion `int(s + 0.0001)` of the value `s = num / increment`,
in exact arithmetic. -/
def truncBin (num : Int) (increment : Nat) : Int :=
  Int.tdiv (num * 10000 + increment) (increment * 10000)

/-- The element access `m_columnMags[s]`; an index outside the vector reads
as an unset range. -/
def columnMag (columnMags : List MagnitudeRange) (s : Int) : MagnitudeRange :=
  if 0 ≤ s then columnMags.getD s.toNat MagnitudeRange.unset else MagnitudeRange.unset

/-- The method `updateViewMagnitudes(v)` for a layer whose model is `m` and
whose window increment is `increment`: the result and the layer after it. -/
def updateViewMagnitudes (increment : Nat) (m : Model) (s : Layer) (vid : ViewId)
    (v : View) : Bool × Layer :=
  let x0 : Int := 0
  let x1 := v.width
  let s0x : Int × Int := match getXBinRange m v x0 with
    | some r => r
    | none => (((m.getStartFrame / increment * increment : Nat) : Int),
               ((m.getStartFrame / increment * increment : Nat) : Int))
  let s1x : Int × Int := match getXBinRange m v x1 with
    | some r => r
    | none => (((m.getEndFrame / increment * increment : Nat) : Int),
               ((m.getEndFrame / increment * increment : Nat) : Int))
  let s0 := truncBin (min s0x.1 s1x.1) increment
  let s1 := truncBin (max s0x.2 s1x.2) increment
  let columnMags :=
    if (s.m_columnMags.length : Int) ≤ s1 then
      s.m_columnMags ++
        List.replicate (s1 + 1 - s.m_columnMags.length).toNat MagnitudeRange.unset
    else s.m_columnMags
  let mag := (List.range (s1 - s0 + 1).toNat).foldl
    (fun (mag : MagnitudeRange) (i : Nat) =>
      if (columnMag columnMags (s0 + i)).isSet then
        (mag.sample (columnMag columnMags (s0 + i))).1
      else mag)
    MagnitudeRange.unset
  let s2 := { s with m_columnMags := columnMags }
  if !mag.isSet then (false, s2)
  else
    let cur := mapIndex MagnitudeRange.unset s2.m_viewMags vid
    if mag = cur.1 then (false, { s2 with m_viewMags := cur.2 })
    else (true, { s2 with m_viewMags := mapSet cur.2 vid mag })

/-! ## The collaborators of paint -/

/-- What a compositor call (`paintDrawBuffer` or
`paintDrawBufferPeakFrequencies`) leaves behind: its return value, the
members it may change, and its two output arguments. -/
structure Composed where
  ok : Bool
  m_fftModels : ViewMap FFTFillPair
  m_peakCaches : ViewMap (Option PeakCache)
  m_updateTimer : Bool
  m_sliceableModel : Option FFTModel
  m_columnMags : List MagnitudeRange
  m_drawBuffer : QImage
  overallMag : MagnitudeRange
  overallMagChanged : Bool

/-- What paint takes from outside this file: the inline
`getWindowIncrement()` of the header (a function of the window size and the
hop level), halving and doubling of a `RealTime`,
the wall-clock time the call takes, the compositor (called with the layer,
the view, the buffer width and height, `binforx`, `usePeaksCache` and
`overallMag`) and Qt's `QImage::scaled`. -/
structure Env where
  getWindowIncrement : Nat → Nat → Nat
  half : RealTime → RealTime
  twice : RealTime → RealTime
  elapsed : RealTime
  compose : Layer → ViewId → View → Int → Int → (Int → Int) → Bool →
    MagnitudeRange → Composed
  scaled : QImage → Int → Int → QImage

/-- What paint draws on the caller's painter. -/
inductive PaintOp where
  /-- the call `drawImage(target, image, source)` -/
  | drawImage (target : QRect) (image : QImage) (source : QRect)
  /-- the call `drawImage(x, y, image, sx, sy, sw, sh)` -/
  | drawImageAt (x y : Int) (image : QImage) (sx sy sw sh : Int)
  /-- whatever `illuminateLocalFeatures(v, paint)` draws -/
  | illuminateLocalFeatures

/-- A repaint request made to the view. -/
inductive ViewUpdate where
  /-- the call `v->update(x, y, w, h)` -/
  | region (x y w h : Int)
  /-- the call `v->update()` -/
  | all
  deriving DecidableEq

/-- The value of `getWindowIncrement()` for the layer. -/
def windowIncrement (env : Env) (s : Layer) : Nat :=
  env.getWindowIncrement s.m_windowSize s.m_windowHopLevel

/-- What a paint call leaves: the layer, the drawing done on the painter
and the repaints requested. -/
structure Painted where
  layer : Layer
  ops : List PaintOp
  updates : List ViewUpdate

/-! ## paint, stage by stage -/

/-- The state of paint once it knows what to repaint (after
`if (recreateWholeImageCache) { x0 = 0; x1 = v->width(); }`). -/
structure Request where
  layer : Layer
  cache : ImageCache
  x0 : Int
  x1 : Int
  recreateWholeImageCache : Bool

/-- The magnitude check of paint: from `if (updateViewMagnitudes(v))` to
`if (recreateWholeImageCache) { ... }`. -/
def checkMagnitudes (increment : Nat) (m : Model) (s : Layer) (vid : ViewId)
    (v : View) (cache : ImageCache) (x0 x1 : Int) (recreate : Bool) : Request :=
  let u := updateViewMagnitudes increment m s vid v
  let clear := u.1 && u.2.m_normalizeVisibleArea
  let cache1 := if clear then { cache with validArea := QRect.null } else cache
  let recreate1 := if clear then true else recreate
  { layer := u.2, cache := cache1,
    x0 := if recreate1 then 0 else x0,
    x1 := if recreate1 then v.width else x1,
    recreateWholeImageCache := recreate1 }

/-- The loop `while (lastTime > 200ms && paintBlockWidth > 50)` of paint,
run for at most `fuel` rounds; `none` when the fuel runs out. -/
def shrinkBlockWidth (env : Env) : Nat → RealTime → Int → Option (RealTime × Int)
  | 0, _, _ => none
  | fuel + 1, lastTime, paintBlockWidth =>
    if lastTime > 200000000 ∧ paintBlockWidth > 50 then
      shrinkBlockWidth env fuel (env.half lastTime) (Int.tdiv paintBlockWidth 2)
    else some (lastTime, paintBlockWidth)

/-- The loop `while (lastTime < 90ms && paintBlockWidth < 1500)` of paint,
run for at most `fuel` rounds; `none` when the fuel runs out. -/
def growBlockWidth (env : Env) : Nat → RealTime → Int → Option Int
  | 0, _, _ => none
  | fuel + 1, lastTime, paintBlockWidth =>
    if lastTime < 90000000 ∧ paintBlockWidth < 1500 then
      growBlockWidth env fuel (env.twice lastTime) (paintBlockWidth * 2)
    else some paintBlockWidth

/-- The choice of `paintBlockWidth` in paint, for the range `[x0, x1)`.
Each loop is given 64 rounds, more than an `int` can be halved or doubled;
`none` is a division by a zero zoom level or a loop that does not end. -/
def choosePaintBlockWidth (env : Env) (synchronous : Bool)
    (lastPaintBlockWidth : Int) (lastPaintTime : RealTime) (zoomLevel : Int)
    (x0 x1 : Int) : Option Int :=
  if synchronous then
    some (if lastPaintBlockWidth < x1 - x0 then x1 - x0 else lastPaintBlockWidth)
  else
    let chosen : Option Int :=
      if lastPaintBlockWidth = 0 then
        if zoomLevel = 0 then none else some (Int.tdiv 300000 zoomLevel)
      else
        match shrinkBlockWidth env 64 lastPaintTime lastPaintBlockWidth with
        | none => none
        | some (lastTime, w) => growBlockWidth env 64 lastTime w
    chosen.map (fun w => if w < 20 then 20 else w)

/-- The span selection of paint: from `int h = v->height()` to the end of
the `if (cache.validArea.width() > 0) ... else ...`; the result is the cache
entry with its new valid area and the span `[x0, x1)` to recompute. -/
def selectSpan (v : View) (startFrame : Int) (cache : ImageCache)
    (x0 x1 paintBlockWidth : Int) : ImageCache × Int × Int :=
  let h := v.height
  if cache.validArea.width > 0 then
    let vx0 := cache.validArea.x
    let vx1 := cache.validArea.x + cache.validArea.width
    let span : Int × Int :=
      if x0 < vx0 then
        (if x0 + paintBlockWidth < vx0 then vx0 - paintBlockWidth else x0, vx0)
      else if x0 ≥ vx1 then
        (vx1, if x1 > vx1 + paintBlockWidth then vx1 + paintBlockWidth else x1)
      else if x1 > vx1 then
        (vx1, if vx1 + paintBlockWidth < x1 then vx1 + paintBlockWidth else x1)
      else (x0, x0)
    let area := QRect.ofSize (min vx0 span.1) cache.validArea.y
      (max (vx1 - min vx0 span.1) (span.2 - min vx0 span.1)) cache.validArea.height
    ({ cache with validArea := area }, span.1, span.2)
  else
    let span : Int × Int :=
      if x1 > x0 + paintBlockWidth then
        let sfx := if startFrame < 0 then v.getXForFrame 0 else x1
        if sfx ≥ x0 ∧ sfx + paintBlockWidth ≤ x1 then (sfx, sfx + paintBlockWidth)
        else
          let mid := Int.tdiv (x1 + x0) 2
          (mid - Int.tdiv paintBlockWidth 2,
           mid - Int.tdiv paintBlockWidth 2 + paintBlockWidth)
      else (x0, x1)
    ({ cache with validArea := QRect.ofSize span.1 0 (span.2 - span.1) h },
     span.1, span.2)

/-- The search `for (int x = x0; ; --x)` (step -1) or `for (int x = x0 + w;
; ++x)` (step 1) of paint for the crop and boundary frames, run for at most
`fuel` columns: `far x` is the test `x < x0 - 2` or `x > x0 + w + 2`. -/
def findBoundary (v : View) (increment : Int) (step : Int) (far : Int → Bool) :
    Nat → Int → Int → Option (Int × Int)
  | 0, _, _ => none
  | fuel + 1, x, cropFrame =>
    let f := v.getFrameForX x
    if Int.tdiv f increment * increment = f then
      if cropFrame = -1 then findBoundary v increment step far fuel (x + step) f
      else if far x then some (cropFrame, f)
      else findBoundary v increment step far fuel (x + step) cropFrame
    else findBoundary v increment step far fuel (x + step) cropFrame

/-- The drawing `drawImage(QRect(tx, ty, w, h), source, QRect(sx, sy, w, h))`
of a painter opened on `target`, `source y x` being the colour drawn from
the source image. -/
def blit (target : QImage) (tx ty w h : Int) (source : Int → Int → QRgb)
    (sx sy : Int) : QImage :=
  { target with
    pixels := fun y x =>
      if tx ≤ x ∧ x < tx + w ∧ ty ≤ y ∧ y < ty + h ∧
          0 ≤ x ∧ x < target.width ∧ 0 ≤ y ∧ y < target.height then
        source (y - ty + sy) (x - tx + sx)
      else target.pixels y x }

/-- What the head of paint comes to: it has returned, or it goes on to
repaint with the model `m` and a request. -/
inductive Head where
  | returned (p : Painted)
  | request (m : Model) (r : Request)

/-- The head of paint, up to `if (recreateWholeImageCache) { ... }`.  In a
request, `cache` is the entry that the reference `cache` of paint stands
for; paint stores it in the map of the layer when it ends. -/
def paintHead (env : Env) (s : Layer) (vid : ViewId) (v : View) (rect : QRect) :
    Head :=
  let startFrame := v.getStartFrame
  let s1 := { s with m_candidateFillStartFrame :=
                if startFrame < 0 then 0 else startFrame.toNat }
  match s1.m_model with
  | none => Head.returned ⟨s1, [], []⟩
  | some m =>
    if !m.isOK || !m.isReady then Head.returned ⟨s1, [], []⟩
    else
      let s2 := { s1 with m_dormancy := mapSet s1.m_dormancy vid false }
      let c := mapIndex ImageCache.empty s2.m_imageCaches vid
      let s3 := { s2 with m_imageCaches := c.2 }
      match reconcileCache v startFrame rect c.1 with
      | Reconciled.cacheGood =>
        Head.returned
          ⟨s3, [PaintOp.drawImage rect c.1.image rect, PaintOp.illuminateLocalFeatures], []⟩
      | Reconciled.carryOn cache x0 x1 recreate =>
        Head.request m
          (checkMagnitudes (windowIncrement env s3) m s3 vid v cache x0 x1 recreate)

/-- The crop and boundary frames of paint when the draw buffer is at bin
resolution: `(leftCropFrame, leftBoundaryFrame, rightCropFrame,
rightBoundaryFrame)`, each side searched over at most `fuel` columns. -/
def findBounds (v : View) (increment x0 w : Int) (fuel : Nat) :
    Option (Int × Int × Int × Int) :=
  match findBoundary v increment (-1) (fun x => decide (x < x0 - 2)) fuel x0 (-1),
        findBoundary v increment 1 (fun x => decide (x > x0 + w + 2)) fuel (x0 + w) (-1) with
  | some l, some r => some (l.1, l.2, r.1, r.2)
  | _, _ => none

/-- The requests `v->update(...)` at the end of a non-synchronous paint that
keeps its valid area. -/
def staleStrips (cache : ImageCache) (h : Int) : List ViewUpdate :=
  (if cache.validArea.x > 0 then [ViewUpdate.region 0 0 cache.validArea.x h] else []) ++
  (if cache.validArea.x + cache.validArea.width < cache.image.width then
     [ViewUpdate.region (cache.validArea.x + cache.validArea.width) 0
        (cache.image.width - (cache.validArea.x + cache.validArea.width)) h]
   else [])

/-- The rest of paint, from `int paintBlockWidth = m_lastPaintBlockWidth` to
the end, for the request `r`.  `none` is a paint that does not return. -/
def paintTail (env : Env) (fuel : Nat) (m : Model) (r : Request) (vid : ViewId)
    (v : View) (rect : QRect) : Option Painted :=
  let s := r.layer
  let startFrame := v.getStartFrame
  let zoomLevel := v.getZoomLevel
  match choosePaintBlockWidth env s.m_synchronous s.m_lastPaintBlockWidth
      s.m_lastPaintTime zoomLevel r.x0 r.x1 with
  | none => none
  | some paintBlockWidth =>
    let sel := selectSpan v startFrame r.cache r.x0 r.x1 paintBlockWidth
    let x0 := sel.2.1
    let w := sel.2.2 - sel.2.1
    let h := v.height
    let increment : Int := windowIncrement env s
    let overall := mapIndex MagnitudeRange.unset s.m_viewMags vid
    let bufferBinResolution : Bool := decide (increment > zoomLevel)
    let bounds : Option (Int × Int × Int × Int) :=
      if bufferBinResolution then findBounds v increment x0 w fuel
      else some (-1, -1, -1, -1)
    match bounds with
    | none => none
    | some (leftCropFrame, leftBoundaryFrame, rightCropFrame, rightBoundaryFrame) =>
      let bufwid :=
        if bufferBinResolution then
          Int.tdiv (rightBoundaryFrame - leftBoundaryFrame) increment
        else w
      let binforx : Int → Int :=
        if bufferBinResolution then fun x => Int.tdiv leftBoundaryFrame increment + x
        else fun x =>
          match getXBinRange m v (x + x0) with
          | some f => truncBin f.1 (windowIncrement env s)
          | none => -1
      let sized : QImage :=
        if bufferBinResolution then QImage.ofSize bufwid h
        else if s.m_drawBuffer.width < bufwid ∨ s.m_drawBuffer.height < h then
          QImage.ofSize bufwid h
        else s.m_drawBuffer
      let usePeaksCache : Bool :=
        !bufferBinResolution && decide (increment * 8 < zoomLevel) &&
          decide (s.m_colourScale ≠ ColourScale.PhaseColourScale)
      let s1 := { s with m_viewMags := overall.2,
                         m_drawBuffer := { sized with pixels := fun _ _ => 0 } }
      let c := env.compose s1 vid v bufwid h binforx usePeaksCache overall.1
      let s2 := { s1 with m_fftModels := c.m_fftModels, m_peakCaches := c.m_peakCaches,
                          m_updateTimer := c.m_updateTimer,
                          m_sliceableModel := c.m_sliceableModel,
                          m_columnMags := c.m_columnMags, m_drawBuffer := c.m_drawBuffer }
      let s3 := if c.overallMagChanged then
          { s2 with m_viewMags := mapSet s2.m_viewMags vid c.overallMag }
        else s2
      let image0 := if r.recreateWholeImageCache then QImage.ofSize v.width h
        else sel.1.image
      let image1 :=
        if w > 0 then
          if bufferBinResolution then
            let scaledLeft := v.getXForFrame leftBoundaryFrame
            let scaledRight := v.getXForFrame rightBoundaryFrame
            let scaledLeftCrop := v.getXForFrame leftCropFrame
            let scaledRightCrop := v.getXForFrame rightCropFrame
            blit image0 scaledLeftCrop 0 (scaledRightCrop - scaledLeftCrop) h
              (env.scaled c.m_drawBuffer (scaledRight - scaledLeft) h).pixels
              (scaledLeftCrop - scaledLeft) 0
          else
            blit image0 x0 0 w h (fun y x => s.m_palette (c.m_drawBuffer.pixels y x)) 0 0
        else image0
      let pr := rect.intersected sel.1.validArea
      let cache1 : ImageCache :=
        { sel.1 with image := image1, startFrame := startFrame,
                     zoomLevel := toSizeT zoomLevel }
      let clear : Bool :=
        !s.m_synchronous && s.m_normalizeVisibleArea && c.overallMagChanged
      let cache2 := if clear then { cache1 with validArea := QRect.null } else cache1
      let updates : List ViewUpdate :=
        if s.m_synchronous then []
        else if clear then [ViewUpdate.all]
        else staleStrips cache1 h
      let s4 := { s3 with m_imageCaches := mapSet s3.m_imageCaches vid cache2 }
      let s5 := if s.m_synchronous then s4
        else { s4 with m_lastPaintBlockWidth := paintBlockWidth,
                       m_lastPaintTime := env.elapsed }
      some ⟨s5, [PaintOp.drawImageAt pr.x pr.y image1 pr.x pr.y pr.width pr.height,
                 PaintOp.illuminateLocalFeatures], updates⟩

/-- The method `paint(v, paint, rect)` on the view `v` whose pointer is
`vid`. -/
def paint (env : Env) (fuel : Nat) (s : Layer) (vid : ViewId) (v : View)
    (rect : QRect) : Option Painted :=
  match paintHead env s vid v rect with
  | Head.returned p => some p
  | Head.request m r => paintTail env fuel m r vid v rect

/-! ## Fixtures -/

/-- The members as the constructor's initialiser list leaves them, with
empty maps and a blank palette. -/
def Layer.initial : Layer where
  m_model := none
  m_channel := 0
  m_windowSize := 1024
  m_windowType := 3
  m_windowHopLevel := 2
  m_zeroPadLevel := 0
  m_fftSize := 1024
  m_gain := 1
  m_threshold := 0
  m_colourRotation := 0
  m_minFrequency := 10
  m_maxFrequency := 8000
  m_colourScale := ColourScale.dBColourScale
  m_colourMap := 0
  m_crosshairColour := 0
  m_frequencyScale := FrequencyScale.LinearFrequencyScale
  m_binDisplay := BinDisplay.AllBins
  m_normalizeColumns := false
  m_normalizeVisibleArea := false
  m_synchronous := false
  m_lastPaintBlockWidth := 0
  m_lastPaintTime := 0
  m_updateTimer := false
  m_candidateFillStartFrame := 0
  m_sliceableModel := none
  m_palette := fun _ => 0
  m_drawBuffer := QImage.null
  m_imageCaches := []
  m_fftModels := []
  m_peakCaches := []
  m_viewMags := []
  m_columnMags := []
  m_dormancy := []

/-- A compositor that draws nothing and changes nothing. -/
def composeNothing (s : Layer) (_ : ViewId) (_ : View) (_ _ : Int) (_ : Int → Int)
    (_ : Bool) (overallMag : MagnitudeRange) : Composed where
  ok := true
  m_fftModels := s.m_fftModels
  m_peakCaches := s.m_peakCaches
  m_updateTimer := s.m_updateTimer
  m_sliceableModel := s.m_sliceableModel
  m_columnMags := s.m_columnMags
  m_drawBuffer := s.m_drawBuffer
  overallMag := overallMag
  overallMagChanged := false

/-- An environment for the worked examples: the window increment is the
window size divided by `2 ^ (hop level - 1)` (hop level 2 of a 1024-sample
window is 512), time is halved and doubled exactly, and a paint call takes
100 ms. -/
def Env.sample : Env where
  getWindowIncrement := fun ws hop =>
    if hop = 0 then ws else if hop = 1 then ws * 3 / 4 else ws / 2 ^ (hop - 1)
  half := fun t => t / 2
  twice := fun t => t * 2
  elapsed := 100000000
  compose := composeNothing
  scaled := fun image w h => { image with width := w, height := h }

/-- A model of 100000 frames at 44100 Hz that is ready. -/
def Model.sample : Model where
  isOK := true
  isReady := true
  getStartFrame := 0
  getEndFrame := 100000
  getSampleRate := 44100

/-- An image of the given size whose pixel at column x of row y is
`1000 * y + x`. -/
def QImage.sample (w h : Int) : QImage :=
  ⟨w, h, fun y x => (1000 * y + x).toNat⟩

/-- A cache entry for a view of 4 by 2 pixels at zoom level 1, painted in
full when the view started at frame 0. -/
def ImageCache.sample : ImageCache where
  validArea := QRect.ofSize 0 0 4 2
  image := QImage.sample 4 2
  startFrame := 0
  zoomLevel := 1

/-- A layer with a ready model and the sample cache entry for view 1. -/
def Layer.warm : Layer :=
  { Layer.initial with
    m_model := some Model.sample, m_imageCaches := [(1, ImageCache.sample)] }

/-- A view of 256 by 10 pixels starting at frame 0 with 64 frames per pixel
column (frames 0 to 16383). -/
def View.wide : View := View.ofGeometry 0 64 256 10

/-- A cache entry for the wide view, valid over all of its 256 columns. -/
def ImageCache.wide : ImageCache where
  validArea := QRect.ofSize 0 0 256 10
  image := QImage.ofSize 256 10
  startFrame := 0
  zoomLevel := 64

/-- A layer with a ready model and the wide cache entry for view 1. -/
def Layer.wide : Layer :=
  { Layer.initial with
    m_model := some Model.sample, m_imageCaches := [(1, ImageCache.wide)] }

/-- A layer whose model is not ready, with the sample cache entry and a
running transform for view 1. -/
def Layer.notReady : Layer :=
  { Layer.warm with
    m_model := some { Model.sample with isReady := false },
    m_updateTimer := true,
    m_fftModels := [(1, (some ⟨513, 196, 4096, 40, true⟩, 0))] }

/-- A colour mapper for the worked examples: each colour map sends a value
to itself, and colour map 2 is black on white. -/
def ColourMapper.sample : ColourMapper where
  blackOnWhite := 2
  map := fun _ value => value
  getContrastingColour := fun _ => Qt.white

/-- A layer with the sample cache entry, a transform with its peak cache and
set magnitude ranges for view 1. -/
def Layer.busy : Layer :=
  { Layer.warm with
    m_updateTimer := true,
    m_fftModels := [(1, (some ⟨513, 196, 4096, 40, true⟩, 4096))],
    m_peakCaches := [(1, some ⟨⟨513, 196, 4096, 40, true⟩, 8⟩)],
    m_viewMags := [(1, ⟨3, 9⟩)],
    m_columnMags := [⟨3, 9⟩, ⟨4, 8⟩] }

/-- The warm layer with visible-area normalisation on and a set magnitude
range for column 0, not yet taken into the range of view 1. -/
def Layer.normalised : Layer :=
  { Layer.warm with m_normalizeVisibleArea := true, m_columnMags := [⟨3, 9⟩] }

/-- A view of 4 by 2 pixels starting at frame 0 with 1024 frames per pixel
column, coarser than the window increment of the sample environment. -/
def View.coarse : View := View.ofGeometry 0 1024 4 2

/-- A cache entry for the coarse view in which only columns 1 and 2 are
valid. -/
def ImageCache.middle : ImageCache where
  validArea := QRect.ofSize 1 0 2 2
  image := QImage.sample 4 2
  startFrame := 0
  zoomLevel := 1024

/-- A layer in synchronous mode with a ready model and the middle cache
entry for view 1. -/
def Layer.syncMiddle : Layer :=
  { Layer.initial with
    m_model := some Model.sample, m_synchronous := true,
    m_imageCaches := [(1, ImageCache.middle)] }

/-- A cache entry for the coarse view, valid over all of its 4 columns. -/
def ImageCache.coarse : ImageCache where
  validArea := QRect.ofSize 0 0 4 2
  image := QImage.sample 4 2
  startFrame := 0
  zoomLevel := 1024

/-- A layer with a ready model and the coarse cache entry for view 1. -/
def Layer.coarse : Layer :=
  { Layer.initial with
    m_model := some Model.sample, m_imageCaches := [(1, ImageCache.coarse)] }

/-- The column ranges that `updateViewMagnitudes(v)` samples, in the order of
its loop `for (int s = s0; s <= s1; ++s)`. -/
def sampledColumns (increment : Nat) (m : Model) (s : Layer) (v : View) :
    List MagnitudeRange :=
  let x0 : Int := 0
  let x1 := v.width
  let s0x : Int × Int := match getXBinRange m v x0 with
    | some r => r
    | none => (((m.getStartFrame / increment * increment : Nat) : Int),
               ((m.getStartFrame / increment * increment : Nat) : Int))
  let s1x : Int × Int := match getXBinRange m v x1 with
    | some r => r
    | none => (((m.getEndFrame / increment * increment : Nat) : Int),
               ((m.getEndFrame / increment * increment : Nat) : Int))
  let s0 := truncBin (min s0x.1 s1x.1) increment
  let s1 := truncBin (max s0x.2 s1x.2) increment
  let columnMags :=
    if (s.m_columnMags.length : Int) ≤ s1 then
      s.m_columnMags ++
        List.replicate (s1 + 1 - s.m_columnMags.length).toNat MagnitudeRange.unset
    else s.m_columnMags
  (List.range (s1 - s0 + 1).toNat).map
    (fun (i : Nat) => columnMag columnMags (s0 + i))

/-! ## Transforms and peak caches -/

/-- The method `setModel`. -/
def setModel (s : Layer) (model : Option Model) : Layer :=
  if model = s.m_model then s
  else invalidateFFTModels { s with m_model := model }

/-- The method `setColourRotation`. -/
def setColourRotation (s : Layer) (r : Int) : Layer :=
  let s1 := invalidateImageCaches s
  let r1 := if r < 0 then 0 else r
  let r2 := if r1 > 256 then 256 else r1
  let distance := r2 - s1.m_colourRotation
  if distance ≠ 0 then
    { s1 with m_palette := rotatePalette s1.m_palette (-distance), m_colourRotation := r2 }
  else s1

/-- Modelled from the spec: `Layer::isLayerDormant(v)` of the base class
(Layer.cpp is not among the sources): the entry of the view in the dormancy
map, false for a view that has none. -/
def isLayerDormant (s : Layer) (vid : ViewId) : Bool :=
  match mapFind s.m_dormancy vid with
  | some d => d
  | none => false

/-- The method `setLayerDormant(v, dormant)`. -/
def setLayerDormant (s : Layer) (vid : ViewId) (dormant : Bool) : Layer :=
  if dormant then
    if isLayerDormant s vid then s
    else
      let s1 := { s with m_dormancy := mapSet s.m_dormancy vid true }
      let s2 := invalidateImageCaches s1
      let s3 := { s2 with m_imageCaches := mapErase s2.m_imageCaches vid }
      match mapFind s3.m_fftModels vid with
      | some _ =>
        { s3 with m_fftModels := mapErase s3.m_fftModels vid,
                  m_peakCaches := mapErase s3.m_peakCaches vid }
      | none => s3
  else { s with m_dormancy := mapSet s.m_dormancy vid false }

/-- The enum `Preferences::SpectrogramSmoothing` (Preferences.h is not among
the sources): the three constants the layer names and the remaining one. -/
inductive SpectrogramSmoothing where
  | NoSpectrogramSmoothing | SpectrogramInterpolated | SpectrogramZeroPadded
  | SpectrogramZeroPaddedAndInterpolated
  deriving DecidableEq

/-- What the transform code and the compositor take from outside this file:
the smoothing preference `Preferences::getInstance()->getSpectrogramSmoothing()`;
the constructor `new FFTModel(m_model, m_channel, m_windowType, m_windowSize,
getWindowIncrement(), fftSize, true, StorageAdviser::SpeedCritical,
m_candidateFillStartFrame)`, by its varying arguments; what a transform
answers for a column (`isColumnAvailable(x)`, and the value at bin `y` that
`getMagnitudesAt`, `getNormalizedMagnitudesAt` and `getPhasesAt` copy out);
what a peak cache answers (`getWidth()`, `getHeight()`,
`isColumnAvailable(x)`, `getColumn(x)`); the unsigned value that
`MagnitudeRange::sample(float)` records for a magnitude; and the palette
index `getDisplayValue(v, input)`, whose logarithms are not computed here. -/
structure Host where
  getSpectrogramSmoothing : SpectrogramSmoothing
  newFFTModel : Model → Int → WindowType → Nat → Nat → Nat → Nat → FFTModel
  isColumnAvailable : FFTModel → Int → Bool
  getMagnitudeAt : FFTModel → Int → Int → ℚ
  getNormalizedMagnitudeAt : FFTModel → Int → Int → ℚ
  getPhaseAt : FFTModel → Int → Int → ℚ
  peakWidth : PeakCache → Nat
  peakHeight : PeakCache → Nat
  isPeakColumnAvailable : PeakCache → Int → Bool
  getPeakColumn : PeakCache → Int → List ℚ
  toMagnitude : ℚ → Nat
  displayValue : Layer → ViewId → ℚ → Nat

/-- The expression `int((double(freq) * m_fftSize) / sr + 0.1)`, its
arithmetic taken as exact. -/
def frequencyBin (freq fftSize sr : Nat) : Nat :=
  (10 * (freq * fftSize) + sr) / (10 * sr)

/-- The method `getZeroPadLevel(v)`, for a layer whose model is `m`.  The
quotient `perPixel` is compared as an exact fraction; a zero divisor with a
positive height is the infinite quotient, which exceeds both thresholds. -/
def getZeroPadLevel (host : Host) (m : Model) (s : Layer) (v : View) : Nat :=
  if s.m_binDisplay ≠ BinDisplay.AllBins then 0
  else if host.getSpectrogramSmoothing = SpectrogramSmoothing.NoSpectrogramSmoothing ∨
      host.getSpectrogramSmoothing = SpectrogramSmoothing.SpectrogramInterpolated then 0
  else if s.m_frequencyScale = FrequencyScale.LogFrequencyScale then 3
  else
    let sr := m.getSampleRate
    let maxbin : Nat :=
      if s.m_maxFrequency > 0 then
        let b := frequencyBin s.m_maxFrequency s.m_fftSize sr
        if b > s.m_fftSize / 2 then s.m_fftSize / 2 else b
      else s.m_fftSize / 2
    let minbin : Nat :=
      if s.m_minFrequency > 0 then
        let b := frequencyBin s.m_minFrequency s.m_fftSize sr
        let b1 := if b < 1 then 1 else b
        if b1 ≥ maxbin then toSizeT ((maxbin : Int) - 1) else b1
      else 1
    let bins : Nat := toSizeT ((maxbin : Int) - (minbin : Int)) / (s.m_zeroPadLevel + 1)
    if bins = 0 then (if v.height > 0 then 3 else 0)
    else if 10 * v.height > 28 * (bins : Int) then 3
    else if 10 * v.height > 15 * (bins : Int) then 1
    else 0

/-- The method `getFFTSize(v)`. -/
def getFFTSize (host : Host) (m : Model) (s : Layer) (v : View) : Nat :=
  s.m_fftSize * (getZeroPadLevel host m s v + 1)

/-- The tail of `getFFTModel(v)`, from `if (m_fftModels.find(v) ==
m_fftModels.end())`: a transform is built when the view has no entry, and the
entry is returned. -/
def buildFFTModel (env : Env) (host : Host) (m : Model) (s : Layer) (vid : ViewId)
    (fftSize : Nat) : Option FFTModel × Layer :=
  match mapFind s.m_fftModels vid with
  | none =>
    let model := host.newFFTModel m s.m_channel s.m_windowType s.m_windowSize
      (windowIncrement env s) fftSize s.m_candidateFillStartFrame
    if !model.isOK then
      (none, { s with m_fftModels := mapSet s.m_fftModels vid (none, 0) })
    else
      let s1 :=
        if s.m_sliceableModel = none then { s with m_sliceableModel := some model } else s
      (some model, { s1 with m_fftModels := mapSet s1.m_fftModels vid (some model, 0),
                             m_updateTimer := true })
  | some p => (p.1, s)

/-- The method `getFFTModel(v)`: the transform returned (null is `none`) and
the layer it leaves. -/
def getFFTModel (env : Env) (host : Host) (s : Layer) (vid : ViewId) (v : View) :
    Option FFTModel × Layer :=
  match s.m_model with
  | none => (none, s)
  | some m =>
    let fftSize := getFFTSize host m s v
    match mapFind s.m_fftModels vid with
    | some (none, _) => (none, s)
    | some (some t, _) =>
      if t.getHeight ≠ fftSize / 2 + 1 then
        buildFFTModel env host m
          { s with m_fftModels := mapErase s.m_fftModels vid,
                   m_peakCaches := mapErase s.m_peakCaches vid } vid fftSize
      else (some t, s)
    | none => buildFFTModel env host m s vid fftSize

/-- The method `getPeakCache(v)`: the peak cache returned (null is `none`)
and the layer it leaves; the test `!m_peakCaches[v]` gives a view without an
entry a null one. -/
def getPeakCache (env : Env) (host : Host) (s : Layer) (vid : ViewId) (v : View) :
    Option PeakCache × Layer :=
  let cur := mapIndex none s.m_peakCaches vid
  let s0 := { s with m_peakCaches := cur.2 }
  match cur.1 with
  | some pc => (some pc, s0)
  | none =>
    match getFFTModel env host s0 vid v with
    | (none, s1) => (none, s1)
    | (some f, s1) =>
      (some ⟨f, 8⟩, { s1 with m_peakCaches := mapSet s1.m_peakCaches vid (some ⟨f, 8⟩) })

/-- The liveness of peak caches: every view that has a non-null peak cache has
a non-null transform stored, the one the peak cache was built from. -/
def peakCachesLive (s : Layer) : Prop :=
  ∀ (vid : ViewId) (pc : PeakCache), mapFind s.m_peakCaches vid = some (some pc) →
    ∃ fill, mapFind s.m_fftModels vid = some (some pc.source, fill)

/-- The states a layer reaches from a newly constructed one, whose transform
and peak-cache maps are empty, through `getFFTModel`, `getPeakCache`,
`invalidateFFTModels`, `setLayerDormant`, `setModel` and the parameter
setters. -/
inductive Reachable (env : Env) (host : Host) (cm : ColourMapper) : Layer → Prop
  | constructed (s : Layer) :
      s.m_fftModels = [] → s.m_peakCaches = [] → Reachable env host cm s
  | afterGetFFTModel (s : Layer) (vid : ViewId) (v : View) :
      Reachable env host cm s → Reachable env host cm (getFFTModel env host s vid v).2
  | afterGetPeakCache (s : Layer) (vid : ViewId) (v : View) :
      Reachable env host cm s → Reachable env host cm (getPeakCache env host s vid v).2
  | afterInvalidateFFTModels (s : Layer) :
      Reachable env host cm s → Reachable env host cm (invalidateFFTModels s)
  | afterSetLayerDormant (s : Layer) (vid : ViewId) (dormant : Bool) :
      Reachable env host cm s → Reachable env host cm (setLayerDormant s vid dormant)
  | afterSetModel (s : Layer) (model : Option Model) :
      Reachable env host cm s → Reachable env host cm (setModel s model)
  | afterSetChannel (s : Layer) (ch : Int) :
      Reachable env host cm s → Reachable env host cm (setChannel s ch)
  | afterSetWindowSize (s : Layer) (ws : Nat) :
      Reachable env host cm s → Reachable env host cm (setWindowSize s ws)
  | afterSetWindowHopLevel (s : Layer) (hop : Nat) :
      Reachable env host cm s → Reachable env host cm (setWindowHopLevel s hop)
  | afterSetZeroPadLevel (s : Layer) (z : Nat) :
      Reachable env host cm s → Reachable env host cm (setZeroPadLevel s z)
  | afterSetWindowType (s : Layer) (w : WindowType) :
      Reachable env host cm s → Reachable env host cm (setWindowType s w)
  | afterSetGain (s : Layer) (gain : ℚ) :
      Reachable env host cm s → Reachable env host cm (setGain s gain)
  | afterSetThreshold (s : Layer) (threshold : ℚ) :
      Reachable env host cm s → Reachable env host cm (setThreshold s threshold)
  | afterSetMinFrequency (s : Layer) (mf : Nat) :
      Reachable env host cm s → Reachable env host cm (setMinFrequency s mf)
  | afterSetMaxFrequency (s : Layer) (mf : Nat) :
      Reachable env host cm s → Reachable env host cm (setMaxFrequency s mf)
  | afterSetColourRotation (s : Layer) (r : Int) :
      Reachable env host cm s → Reachable env host cm (setColourRotation s r)
  | afterSetColourScale (s : Layer) (colourScale : ColourScale) :
      Reachable env host cm s → Reachable env host cm (setColourScale s colourScale)
  | afterSetColourMap (s : Layer) (map : Int) :
      Reachable env host cm s → Reachable env host cm (setColourMap cm s map)
  | afterSetFrequencyScale (s : Layer) (frequencyScale : FrequencyScale) :
      Reachable env host cm s → Reachable env host cm (setFrequencyScale s frequencyScale)
  | afterSetBinDisplay (s : Layer) (binDisplay : BinDisplay) :
      Reachable env host cm s → Reachable env host cm (setBinDisplay s binDisplay)
  | afterSetNormalizeColumns (s : Layer) (n : Bool) :
      Reachable env host cm s → Reachable env host cm (setNormalizeColumns s n)
  | afterSetNormalizeVisibleArea (s : Layer) (n : Bool) :
      Reachable env host cm s → Reachable env host cm (setNormalizeVisibleArea s n)

/-- A host whose preference is zero-padded smoothing and whose transforms have
`fftSize / 2 + 1` bins and are filled: every column is available, every
magnitude is 1/2 and every phase 0; a peak cache has as many bins as its
source and an eighth of its columns; every pixel drawn has palette index
200. -/
def Host.sample : Host where
  getSpectrogramSmoothing := SpectrogramSmoothing.SpectrogramZeroPadded
  newFFTModel := fun _ _ _ _ _ fftSize _ => ⟨fftSize / 2 + 1, 0, 0, 100, true⟩
  isColumnAvailable := fun _ _ => true
  getMagnitudeAt := fun _ _ _ => 1 / 2
  getNormalizedMagnitudeAt := fun _ _ _ => 1 / 2
  getPhaseAt := fun _ _ _ => 0
  peakWidth := fun pc => pc.source.getWidth / 8
  peakHeight := fun pc => pc.source.getHeight
  isPeakColumnAvailable := fun _ _ => true
  getPeakColumn := fun pc _ => List.replicate pc.source.getHeight (1 / 2)
  toMagnitude := fun _ => 1
  displayValue := fun _ _ _ => 200

/-- A view of 256 by 600 pixels starting at frame 0 with 64 frames per pixel
column: tall enough for the layer to zero-pad its transform four times. -/
def View.tall : View := View.ofGeometry 0 64 256 600

/-- A layer that holds, for view 1, a transform of 513 bins (fft size 1024)
and a peak cache built from it. -/
def Layer.stale : Layer :=
  { Layer.initial with
    m_model := some Model.sample,
    m_fftModels := [(1, (some ⟨513, 196, 4096, 40, true⟩, 4096))],
    m_peakCaches := [(1, some ⟨⟨513, 196, 4096, 40, true⟩, 8⟩)] }

/-! ## The compositor -/

/-- The conversion `int(f)` of a float: truncation towards zero. -/
def truncQ (q : ℚ) : Int := Int.tdiv q.num q.den

/-- The function `lrintf`: the nearest integer, a tie going to the even
one. -/
def lrintQ (q : ℚ) : Int :=
  let f := Int.fdiv q.num q.den
  if q - f < 1 / 2 then f
  else if q - f > 1 / 2 then f + 1
  else if f % 2 = 0 then f else f + 1

/-- What ends a call of `paintDrawBuffer` in undefined behaviour: the call
`sourceModel->getHeight()` through a null peak cache, and a read `values[index]`
or `c[index]` where only `size` elements are there to read. -/
inductive Fault where
  | nullSource
  | outOfRange (index size : Int)
  deriving DecidableEq

/-- The read `values[i]` (or `c[i]`) of an array holding `values`. -/
def readAt (values : List ℚ) (i : Int) : Except Fault ℚ :=
  if 0 ≤ i ∧ i < values.length then Except.ok (values.getD i.toNat 0)
  else Except.error (Fault.outOfRange i values.length)

/-- The pointer `sourceModel` of `paintDrawBuffer`, `fft` being null for a
peak cache. -/
inductive Source where
  | fft (t : FFTModel)
  | peaks (pc : PeakCache)

/-- The call `sourceModel->getWidth()`. -/
def Source.getWidth (host : Host) : Source → Nat
  | Source.fft t => t.getWidth
  | Source.peaks pc => host.peakWidth pc

/-- The call `sourceModel->isColumnAvailable(sx)`. -/
def Source.isColumnAvailable (host : Host) : Source → Int → Bool
  | Source.fft t, sx => host.isColumnAvailable t sx
  | Source.peaks pc, sx => host.isPeakColumnAvailable pc sx

/-- Modelled from the spec: the merge `sample(float)` of SpectrogramLayer.h,
which records one magnitude in a range. -/
def MagnitudeRange.sampleValue (host : Host) (r : MagnitudeRange) (value : ℚ) :
    MagnitudeRange :=
  (r.sample ⟨host.toMagnitude value, host.toMagnitude value⟩).1

/-- The call `QImage::setPixel(x, y, index)`. -/
def QImage.setPixel (image : QImage) (x y : Int) (index : Nat) : QImage :=
  { image with pixels := fun r c => if r = y ∧ c = x then index else image.pixels r c }

/-- The variables of `paintDrawBuffer` that live across source columns:
`psx`, the array `values` points at, `columnMax`, and the magnitudes. -/
structure Fetched where
  psx : Int
  values : List ℚ
  columnMax : ℚ
  m_columnMags : List MagnitudeRange
  overallMag : MagnitudeRange
  overallMagChanged : Bool

/-- The test `bin == minbin || bin == maxbin || value < values[bin-minbin-1] ||
value < values[bin-minbin+1]` made for `PeakBins`, evaluated left to
right. -/
def notPeak (values : List ℚ) (minbin maxbin bin : Int) (value : ℚ) :
    Except Fault Bool :=
  if bin = minbin ∨ bin = maxbin then Except.ok true
  else
    match readAt values (bin - minbin - 1) with
    | Except.error f => Except.error f
    | Except.ok below =>
      if value < below then Except.ok true
      else
        match readAt values (bin - minbin + 1) with
        | Except.error f => Except.error f
        | Except.ok above => Except.ok (decide (value < above))

/-- The block `if (m_colourScale != PhaseColourScale) { if (!m_normalizeColumns)
value /= (m_fftSize/2.f); mag.sample(value); value *= m_gain; }`: the range
`mag` and the value it leaves. -/
def scaleValue (host : Host) (s : Layer) (mag : MagnitudeRange) (value : ℚ) :
    MagnitudeRange × ℚ :=
  if s.m_colourScale ≠ ColourScale.PhaseColourScale then
    let v1 := if !s.m_normalizeColumns then value / ((s.m_fftSize : ℚ) / 2) else value
    (mag.sampleValue host v1, v1 * s.m_gain)
  else (mag, value)

/-- One round of the loop `for (int bin = by0; bin < by1; ++bin)` for row
`y`, on the array `peaks` and the range `mag`. -/
def paintBin (host : Host) (s : Layer) (minbin maxbin : Int) (values : List ℚ)
    (y bin : Int) (st : (Int → ℚ) × MagnitudeRange) :
    Except Fault ((Int → ℚ) × MagnitudeRange) :=
  match readAt values (bin - minbin) with
  | Except.error f => Except.error f
  | Except.ok value =>
    let skip : Except Fault Bool :=
      if s.m_binDisplay = BinDisplay.PeakBins then notPeak values minbin maxbin bin value
      else Except.ok false
    match skip with
    | Except.error f => Except.error f
    | Except.ok true => Except.ok st
    | Except.ok false =>
      let scaled := scaleValue host s st.2 value
      Except.ok
        (if scaled.2 > st.1 y then Function.update st.1 y scaled.2 else st.1, scaled.1)

/-- The loop `for (int bin = by0; bin < by1; ++bin)`, over the bins listed. -/
def paintBins (host : Host) (s : Layer) (minbin maxbin : Int) (values : List ℚ)
    (y : Int) : List Int → (Int → ℚ) × MagnitudeRange →
    Except Fault ((Int → ℚ) × MagnitudeRange)
  | [], st => Except.ok st
  | bin :: rest, st =>
    match paintBin host s minbin maxbin values y bin st with
    | Except.error f => Except.error f
    | Except.ok st1 => paintBins host s minbin maxbin values y rest st1

/-- The interpolating branch of the row loop, for row `y`. -/
def paintInterpolated (host : Host) (s : Layer) (minbin maxbin : Int) (values : List ℚ)
    (y : Int) (sy0 sy1 : ℚ) (st : (Int → ℚ) × MagnitudeRange) :
    Except Fault ((Int → ℚ) × MagnitudeRange) :=
  let centre := (sy0 + sy1) / 2
  let dist := (centre - 1 / 2) - lrintQ (centre - 1 / 2)
  let bin0 := truncQ centre
  let other0 := if dist < 0 then bin0 - 1 else bin0 + 1
  let bin1 := if bin0 < minbin then minbin else bin0
  let bin := if bin1 > maxbin then maxbin else bin1
  let other := if other0 < minbin ∨ other0 > maxbin then bin else other0
  let prop := 1 - |dist|
  match readAt values (bin - minbin), readAt values (other - minbin) with
  | Except.error f, _ => Except.error f
  | Except.ok _, Except.error f => Except.error f
  | Except.ok v0, Except.ok v1 =>
    let peaked : Except Fault (ℚ × ℚ) :=
      if s.m_binDisplay = BinDisplay.PeakBins then
        match notPeak values minbin maxbin bin v0 with
        | Except.error f => Except.error f
        | Except.ok n0 =>
          match notPeak values minbin maxbin other v1 with
          | Except.error f => Except.error f
          | Except.ok n1 => Except.ok (if n0 then 0 else v0, if n1 then 0 else v1)
      else Except.ok (v0, v1)
    match peaked with
    | Except.error f => Except.error f
    | Except.ok (w0, w1) =>
      if w0 = 0 ∧ w1 = 0 then Except.ok st
      else
        let scaled := scaleValue host s st.2 (prop * w0 + (1 - prop) * w1)
        Except.ok (Function.update st.1 y scaled.2, scaled.1)

/-- One round of the loop `for (int y = 0; y < h; ++y)` over the rows, for
the source column fetched. -/
def paintRow (host : Host) (s : Layer) (interpolate : Bool) (binfory : Int → ℚ)
    (h minbin maxbin : Int) (values : List ℚ) (y : Int)
    (st : (Int → ℚ) × MagnitudeRange) : Except Fault ((Int → ℚ) × MagnitudeRange) :=
  let sy0 := binfory y
  let sy1 := if y + 1 < h then binfory (y + 1) else sy0 + 1
  if interpolate = true ∧ |sy1 - sy0| < 1 then
    paintInterpolated host s minbin maxbin values y sy0 sy1 st
  else
    let by0 := truncQ (sy0 + 1 / 10000)
    let by1 := truncQ (sy1 + 1 / 10000)
    let by2 := if by1 < by0 + 1 then by0 + 1 else by1
    paintBins host s minbin maxbin values y
      ((List.range (by2 - by0).toNat).map (fun (i : Nat) => by0 + (i : Int))) st

/-- The loop `for (int y = 0; y < h; ++y)` over the rows listed. -/
def paintRows (host : Host) (s : Layer) (interpolate : Bool) (binfory : Int → ℚ)
    (h minbin maxbin : Int) (values : List ℚ) : List Int →
    (Int → ℚ) × MagnitudeRange → Except Fault ((Int → ℚ) × MagnitudeRange)
  | [], st => Except.ok st
  | y :: rest, st =>
    match paintRow host s interpolate binfory h minbin maxbin values y st with
    | Except.error f => Except.error f
    | Except.ok st1 => paintRows host s interpolate binfory h minbin maxbin values rest st1

/-- The loop `for (int y = 0; y < h; ++y) { if (c[y] > columnMax) columnMax =
c[y]; }` over the rows listed. -/
def scanColumnMax (c : List ℚ) : List Int → ℚ → Except Fault ℚ
  | [], columnMax => Except.ok columnMax
  | y :: rest, columnMax =>
    match readAt c y with
    | Except.error f => Except.error f
    | Except.ok cy => scanColumnMax c rest (if cy > columnMax then cy else columnMax)

/-- The rows `0, ..., h - 1`. -/
def rowsOf (h : Int) : List Int := (List.range h.toNat).map (fun (y : Nat) => (y : Int))

/-- The block `if (sx != psx) { ... psx = sx; }`: the fetch of source column
`sx`. -/
def fetchColumn (host : Host) (s : Layer) (source : Source) (h minbin maxbin sx : Int)
    (f : Fetched) : Except Fault Fetched :=
  if sx ≠ f.psx then
    match source with
    | Source.fft t =>
      let value : Int → ℚ :=
        if s.m_colourScale = ColourScale.PhaseColourScale then host.getPhaseAt t sx
        else if s.m_normalizeColumns then host.getNormalizedMagnitudeAt t sx
        else host.getMagnitudeAt t sx
      Except.ok
        { f with psx := sx,
                 values := (List.range (maxbin - minbin + 1).toNat).map
                   (fun (i : Nat) => value (minbin + (i : Int))) }
    | Source.peaks pc =>
      let c := host.getPeakColumn pc sx
      let scanned : Except Fault ℚ :=
        if s.m_normalizeColumns then scanColumnMax c (rowsOf h) f.columnMax
        else Except.ok f.columnMax
      match scanned with
      | Except.error e => Except.error e
      | Except.ok columnMax =>
        Except.ok { f with psx := sx, values := c.drop minbin.toNat, columnMax := columnMax }
  else Except.ok f

/-- The block `if (mag.isSet()) { ... }` that ends the work on source column
`sx`. -/
def recordMagnitudes (sx : Int) (mag : MagnitudeRange) (f : Fetched) : Fetched :=
  if mag.isSet then
    if sx ≥ (f.m_columnMags.length : Int) then f
    else
      let merged := f.overallMag.sample mag
      { f with
        m_columnMags := f.m_columnMags.modify (fun r => (r.sample mag).1) sx.toNat,
        overallMag := merged.1,
        overallMagChanged := f.overallMagChanged || merged.2 }
  else f

/-- The loop `for (int sx = sx0; sx < sx1; ++sx)` over the source columns
listed, on the variables fetched and the array `peaks`.  The result is false
when the loop has left the function by `return false`. -/
def paintSources (host : Host) (s : Layer) (source : Source) (interpolate : Bool)
    (binfory : Int → ℚ) (h minbin maxbin : Int) : List Int → Fetched × (Int → ℚ) →
    Except Fault (Bool × Fetched × (Int → ℚ))
  | [], st => Except.ok (true, st)
  | sx :: rest, st =>
    if sx < 0 ∨ sx ≥ (source.getWidth host : Int) then
      paintSources host s source interpolate binfory h minbin maxbin rest st
    else if s.m_synchronous = false ∧ source.isColumnAvailable host sx = false then
      Except.ok (false, st)
    else
      match fetchColumn host s source h minbin maxbin sx st.1 with
      | Except.error e => Except.error e
      | Except.ok f1 =>
        match paintRows host s interpolate binfory h minbin maxbin f1.values (rowsOf h)
            (st.2, MagnitudeRange.unset) with
        | Except.error e => Except.error e
        | Except.ok (peaks, mag) =>
          paintSources host s source interpolate binfory h minbin maxbin rest
            (recordMagnitudes sx mag f1, peaks)

/-- The loop `for (int y = 0; y < h; ++y) { ... m_drawBuffer.setPixel(x,
h-y-1, peakpix); }` that ends the work on output column `x`, over the rows
listed. -/
def writeColumn (host : Host) (s : Layer) (vid : ViewId) (h x : Int) (peaks : Int → ℚ)
    (columnMax : ℚ) : List Int → QImage → QImage
  | [], image => image
  | y :: rest, image =>
    let peak :=
      if s.m_colourScale ≠ ColourScale.PhaseColourScale ∧ s.m_normalizeColumns = true ∧
          columnMax > 0 then peaks y / columnMax
      else peaks y
    writeColumn host s vid h x peaks columnMax rest
      (image.setPixel x (h - y - 1) (host.displayValue s vid peak))

/-- The source columns `sx0, ..., sx1 - 1` of output column `x`; `none` when
the column is skipped by `continue`. -/
def sourceColumns (w : Int) (binforx : Int → Int) (divisor x : Int) : Option (List Int) :=
  if binforx x < 0 then none
  else
    let sx0 := Int.tdiv (binforx x) divisor
    let sx1 := if x + 1 < w then Int.tdiv (binforx (x + 1)) divisor else sx0
    let sx2 := if sx0 < 0 then sx1 - 1 else sx0
    if sx2 < 0 then none
    else
      let sx3 := if sx1 ≤ sx2 then sx2 + 1 else sx1
      some ((List.range (sx3 - sx2).toNat).map (fun (i : Nat) => sx2 + (i : Int)))

/-- One round of the loop `for (int x = 0; x < w; ++x)`, for output column
`x`, on the variables fetched and the draw buffer.  The result is false when
the round has left the function by `return false`. -/
def paintColumn (host : Host) (s : Layer) (vid : ViewId) (source : Source)
    (interpolate : Bool) (binforx : Int → Int) (binfory : Int → ℚ)
    (w h minbin maxbin divisor x : Int) (st : Fetched × QImage) :
    Except Fault (Bool × Fetched × QImage) :=
  match sourceColumns w binforx divisor x with
  | none => Except.ok (true, st)
  | some columns =>
    match paintSources host s source interpolate binfory h minbin maxbin columns
        ({ st.1 with columnMax := 0 }, fun _ => 0) with
    | Except.error e => Except.error e
    | Except.ok (false, f1, _) => Except.ok (false, f1, st.2)
    | Except.ok (true, f1, peaks) =>
      Except.ok (true, f1, writeColumn host s vid h x peaks f1.columnMax (rowsOf h) st.2)

/-- The loop `for (int x = 0; x < w; ++x)` with `n` rounds left, the next one
being for column `w - n`. -/
def paintColumns (host : Host) (s : Layer) (vid : ViewId) (source : Source)
    (interpolate : Bool) (binforx : Int → Int) (binfory : Int → ℚ)
    (w h minbin maxbin divisor : Int) : Nat → Fetched × QImage →
    Except Fault (Bool × Fetched × QImage)
  | 0, st => Except.ok (true, st)
  | n + 1, st =>
    match paintColumn host s vid source interpolate binforx binfory w h minbin maxbin
        divisor (w - ((n : Int) + 1)) st with
    | Except.error e => Except.error e
    | Except.ok (false, st1) => Except.ok (false, st1)
    | Except.ok (true, st1) =>
      paintColumns host s vid source interpolate binforx binfory w h minbin maxbin
        divisor n st1

/-- The source that `paintDrawBuffer` draws from, with the bins it covers and
the layer that getting it leaves: `(sourceModel, minbin, maxbin, divisor)`,
`none` for a null `sourceModel`. -/
def chooseSource (env : Env) (host : Host) (s : Layer) (vid : ViewId) (v : View)
    (h : Int) (binfory : Int → ℚ) (usePeaksCache : Bool) :
    Except Fault (Option (Source × Int × Int × Int) × Layer) :=
  let minbin0 := truncQ (binfory 0 + 1 / 10000)
  let maxbin0 := truncQ (binfory (h - 1))
  let minbin := if minbin0 < 0 then 0 else minbin0
  let maxbin := if maxbin0 < 0 then minbin + 1 else maxbin0
  if usePeaksCache then
    match getPeakCache env host s vid v with
    | (none, _) => Except.error Fault.nullSource
    | (some pc, s1) => Except.ok (some (Source.peaks pc, 0, (host.peakHeight pc : Int), 8), s1)
  else
    match getFFTModel env host s vid v with
    | (none, s1) => Except.ok (none, s1)
    | (some t, s1) => Except.ok (some (Source.fft t, minbin, maxbin, 1), s1)

/-- The method `paintDrawBuffer(v, w, h, binforx, binfory, usePeaksCache,
overallMag, overallMagChanged)`, called with `overallMagChanged` false as
paint calls it. -/
def paintDrawBuffer (env : Env) (host : Host) (s : Layer) (vid : ViewId) (v : View)
    (w h : Int) (binforx : Int → Int) (binfory : Int → ℚ) (usePeaksCache : Bool)
    (overallMag : MagnitudeRange) : Except Fault Composed :=
  match chooseSource env host s vid v h binfory usePeaksCache with
  | Except.error e => Except.error e
  | Except.ok (none, s1) =>
    Except.ok
      { ok := false, m_fftModels := s1.m_fftModels, m_peakCaches := s1.m_peakCaches,
        m_updateTimer := s1.m_updateTimer, m_sliceableModel := s1.m_sliceableModel,
        m_columnMags := s1.m_columnMags, m_drawBuffer := s1.m_drawBuffer,
        overallMag := overallMag, overallMagChanged := false }
  | Except.ok (some (source, minbin, maxbin, divisor), s1) =>
    let interpolate : Bool :=
      (decide (host.getSpectrogramSmoothing = SpectrogramSmoothing.SpectrogramInterpolated) ||
        decide (host.getSpectrogramSmoothing =
          SpectrogramSmoothing.SpectrogramZeroPaddedAndInterpolated)) &&
      decide (s1.m_binDisplay ≠ BinDisplay.PeakBins) &&
      decide (s1.m_binDisplay ≠ BinDisplay.PeakFrequencies)
    match paintColumns host s1 vid source interpolate binforx binfory w h minbin maxbin
        divisor w.toNat
        (⟨-1, [], 0, s1.m_columnMags, overallMag, false⟩, s1.m_drawBuffer) with
    | Except.error e => Except.error e
    | Except.ok (ok, f, image) =>
      Except.ok
        { ok := ok, m_fftModels := s1.m_fftModels, m_peakCaches := s1.m_peakCaches,
          m_updateTimer := s1.m_updateTimer, m_sliceableModel := s1.m_sliceableModel,
          m_columnMags := f.m_columnMags, m_drawBuffer := image,
          overallMag := f.overallMag, overallMagChanged := f.overallMagChanged }

/-- The fault, if any, that a call ends in. -/
def Fault.of {α : Type} : Except Fault α → Option Fault
  | Except.error f => some f
  | Except.ok _ => none

/-- A host like the sample one but for which only column 0 of a transform
is available yet. -/
def Host.partly : Host :=
  { Host.sample with isColumnAvailable := fun _ sx => decide (sx < 1) }

/-- A layer with a ready model that holds, for view 1, a transform of 513 bins
and 196 columns. -/
def Layer.filling : Layer :=
  { Layer.initial with
    m_model := some Model.sample,
    m_fftModels := [(1, (some ⟨513, 196, 4096, 40, true⟩, 4096))] }

/-- A host like the sample one but with no spectrogram smoothing, so that the
layer never zero-pads its transform. -/
def Host.plain : Host :=
  { Host.sample with
    getSpectrogramSmoothing := SpectrogramSmoothing.NoSpectrogramSmoothing }

/-- A view of 4 by 600 pixels starting at frame 0 with 8192 frames per pixel
column: more than 8 increments of 512 frames per pixel, so that paint draws
it from the peak cache. -/
def View.high : View := View.ofGeometry 0 8192 4 600

/-- A layer that normalises columns and holds, for view 1, a transform of 513
bins and the peak cache built from it. -/
def Layer.normalising : Layer :=
  { Layer.initial with
    m_model := some Model.sample,
    m_normalizeColumns := true,
    m_fftModels := [(1, (some ⟨513, 196, 4096, 40, true⟩, 4096))],
    m_peakCaches := [(1, some ⟨⟨513, 196, 4096, 40, true⟩, 8⟩)] }

/-- A host like the sample one but for which no column of a transform is
available yet. -/
def Host.unfilled : Host :=
  { Host.sample with isColumnAvailable := fun _ _ => false }

/-- The compositor of paint when it is `paintDrawBuffer`, row y of the view
drawing from bin `binfory y`; a call that ends in a fault is shown as one that
returns false and changes nothing. -/
def composeBuffer (env : Env) (host : Host) (binfory : Int → ℚ) (s : Layer) (vid : ViewId)
    (v : View) (w h : Int) (binforx : Int → Int) (usePeaksCache : Bool)
    (overallMag : MagnitudeRange) : Composed :=
  match paintDrawBuffer env host s vid v w h binforx binfory usePeaksCache overallMag with
  | Except.ok c => c
  | Except.error _ => { composeNothing s vid v w h binforx usePeaksCache overallMag with
                        ok := false }

/-- The sample environment with `paintDrawBuffer` for compositor, drawing
from transforms that have no column available yet, row y from bin y + 1. -/
def Env.starved : Env :=
  { Env.sample with
    compose := composeBuffer Env.sample Host.unfilled (fun y => (y : ℚ) + 1) }

/-- The sample environment with a compositor that draws nothing and returns
false. -/
def Env.aborting : Env :=
  { Env.sample with
    compose := fun s vid v w h binforx usePeaksCache overallMag =>
      { composeNothing s vid v w h binforx usePeaksCache overallMag with ok := false } }

/-- A model of 44100 frames that starts at frame 44100 (frames 44100 to
88200), ready. -/
def Model.late : Model where
  isOK := true
  isReady := true
  getStartFrame := 44100
  getEndFrame := 88200
  getSampleRate := 44100

/-- A view of 256 by 10 pixels starting at frame 44100 with 64 frames per
pixel column. -/
def View.late : View := View.ofGeometry 44100 64 256 10

/-- A host like the sample one but with room for transforms of fft size up to
1024 only: the construction of a larger one fails (`isOK()` is false). -/
def Host.tight : Host :=
  { Host.sample with
    newFFTModel := fun _ _ _ _ _ fftSize _ =>
      ⟨fftSize / 2 + 1, 0, 0, 0, decide (fftSize ≤ 1024)⟩ }

/-- A new layer given the sample model, on which `getFFTModel` has been
called for view 1 (the wide view, fft size 1024) and then for view 2 (the
tall view, fft size 4096) with the tight host. -/
def Layer.halfBuilt : Layer :=
  (getFFTModel Env.sample Host.tight
    (getFFTModel Env.sample Host.tight (setModel Layer.initial (some Model.sample))
      1 View.wide).2 2 View.tall).2

/-- A view of 256 by 10 pixels starting at frame 16384 with 64 frames per
pixel column (frames 16384 to 32767): the stretch after the wide view. -/
def View.next : View := View.ofGeometry 16384 64 256 10

/-- The views of the two-view examples: view 1 is the wide view and view 2
the one after it. -/
def View.pair (vid : ViewId) : View := if vid = 1 then View.wide else View.next

/-- A cache entry for the view after the wide one, painted in full. -/
def ImageCache.next : ImageCache where
  validArea := QRect.ofSize 0 0 256 10
  image := QImage.ofSize 256 10
  startFrame := 16384
  zoomLevel := 64

/-- A layer with a ready model and full cache entries for views 1 and 2. -/
def Layer.pair : Layer :=
  { Layer.initial with
    m_model := some Model.sample,
    m_imageCaches := [(1, ImageCache.wide), (2, ImageCache.next)] }

/-- A layer with a ready model and the full cache entry for view 2 only. -/
def Layer.second : Layer :=
  { Layer.initial with
    m_model := some Model.sample, m_imageCaches := [(2, ImageCache.next)] }

/-! ## Construction -/

/-- The enum `Configuration` of SpectrogramLayer.h, by the constants the
constructor names. -/
inductive Configuration where
  | FullRangeDb | MelodicRange | MelodicPeaks
  deriving DecidableEq

/-- The constructor `SpectrogramLayer(config)`: the initialiser list, the
setters called for the configuration, `setWindowType(prefs->getWindowType())`
and `initialisePalette()`.  `sunset` is the value of `ColourMapper::Sunset`
and `prefsWindowType` the window type of the preferences. -/
def construct (cm : ColourMapper) (sunset : Int) (prefsWindowType : WindowType)
    (config : Configuration) : Layer :=
  let configured : Layer :=
    match config with
    | Configuration.FullRangeDb => setMaxFrequency Layer.initial 0
    | Configuration.MelodicRange =>
      let s1 := setWindowSize Layer.initial 8192
      let s2 := setWindowHopLevel s1 4
      let s3 := setMaxFrequency s2 1500
      let s4 := setMinFrequency s3 40
      let s5 := setColourScale s4 ColourScale.LinearColourScale
      let s6 := setColourMap cm s5 sunset
      setFrequencyScale s6 FrequencyScale.LogFrequencyScale
    | Configuration.MelodicPeaks =>
      let s1 := setWindowSize Layer.initial 4096
      let s2 := setWindowHopLevel s1 5
      let s3 := setMaxFrequency s2 2000
      let s4 := setMinFrequency s3 40
      let s5 := setFrequencyScale s4 FrequencyScale.LogFrequencyScale
      let s6 := setColourScale s5 ColourScale.LinearColourScale
      let s7 := setBinDisplay s6 BinDisplay.PeakFrequencies
      setNormalizeColumns s7 true
  initialisePalette cm (setWindowType configured prefsWindowType)

/-- Two layers with the same window size, zero-pad level and fft size. -/
def sameWindowing (t s : Layer) : Prop :=
  t.m_windowSize = s.m_windowSize ∧ t.m_zeroPadLevel = s.m_zeroPadLevel ∧
    t.m_fftSize = s.m_fftSize

/-- Two layers with the same colour rotation, colour map and palette. -/
def samePalette (t s : Layer) : Prop :=
  t.m_colourRotation = s.m_colourRotation ∧ t.m_colourMap = s.m_colourMap ∧
    t.m_palette = s.m_palette

/-- The states a layer reaches from a newly constructed one through
`setColourMap` and `setColourRotation`. -/
inductive PaletteReachable (cm : ColourMapper) (sunset : Int)
    (prefsWindowType : WindowType) : Layer → Prop
  | constructed (config : Configuration) :
      PaletteReachable cm sunset prefsWindowType
        (construct cm sunset prefsWindowType config)
  | afterSetColourMap (s : Layer) (map : Int) :
      PaletteReachable cm sunset prefsWindowType s →
      PaletteReachable cm sunset prefsWindowType (setColourMap cm s map)
  | afterSetColourRotation (s : Layer) (r : Int) :
      PaletteReachable cm sunset prefsWindowType s →
      PaletteReachable cm sunset prefsWindowType (setColourRotation s r)

/-! ## Snapping, the fill timer and the display value -/

/-- The enum `SnapType` of Layer.h, by the constants `snapToFeatureFrame`
names. -/
inductive SnapType where
  | SnapLeft | SnapRight | SnapNearest | SnapNeighbouring
  deriving DecidableEq

/-- The method `snapToFeatureFrame(v, frame, resolution, snap)` for a layer
whose window increment is `increment`: the result, the frame and the
resolution it sets.  `frame / resolution` and `left + resolution` are
computed in `size_t`, to which the `int` operand is converted. -/
def snapToFeatureFrame (increment : Nat) (frame : Int) (snap : SnapType) :
    Bool × Int × Nat :=
  let resolution := increment
  let left : Int := ((toSizeT frame / resolution * resolution : Nat) : Int)
  let right : Int := ((toSizeT left + resolution : Nat) : Int)
  let snapped : Int :=
    match snap with
    | SnapType.SnapLeft => left
    | SnapType.SnapRight => right
    | SnapType.SnapNearest => if frame - left > right - frame then right else left
    | SnapType.SnapNeighbouring => if frame - left > right - frame then right else left
  (true, snapped, resolution)

/-- One round of the loop of `fillTimerTimedOut`, for an entry whose
transform `t` is not null and whose recorded fill is `recorded`: the layer
and the fill recorded after it. -/
def fillRound (views : ViewId → View) (m : Model) (s : Layer) (t : FFTModel)
    (recorded : Int) : Layer × Int :=
  let lastFill := toSizeT recorded
  let fill := t.getFillExtent
  if fill ≥ lastFill then
    if fill ≥ m.getEndFrame ∧ lastFill > 0 then (invalidateImageCaches s, -1)
    else if fill > lastFill then (invalidateImageCachesIn views s lastFill fill, (fill : Int))
    else (s, recorded)
  else (invalidateImageCaches s, (fill : Int))

/-- The loop of `fillTimerTimedOut` over the entries of `m_fftModels`: the
entries, the layer and `allDone` after it. -/
def fillRounds (views : ViewId → View) (m : Model) :
    ViewMap FFTFillPair → Layer → Bool → ViewMap FFTFillPair × Layer × Bool
  | [], s, allDone => ([], s, allDone)
  | (vid, (none, recorded)) :: rest, s, allDone =>
    let r := fillRounds views m rest s allDone
    ((vid, (none, recorded)) :: r.1, r.2)
  | (vid, (some t, recorded)) :: rest, s, allDone =>
    let round := fillRound views m s t recorded
    let r := fillRounds views m rest round.1 (if round.2 ≥ 0 then false else allDone)
    ((vid, (some t, round.2)) :: r.1, r.2)

/-- The slot `fillTimerTimedOut`, `views` giving the view behind each key. -/
def fillTimerTimedOut (views : ViewId → View) (s : Layer) : Layer :=
  match s.m_model with
  | none => s
  | some m =>
    let r := fillRounds views m s.m_fftModels s true
    { r.2.1 with m_fftModels := r.1,
                 m_updateTimer := if r.2.2 then false else r.2.1.m_updateTimer }

/-- What `getDisplayValue` takes from outside this file: `log10f`,
`AudioLevel::multiplier_to_preview`, the constant `M_PI`, and the getters
`getMin()` and `getMax()` of `MagnitudeRange` (SpectrogramLayer.h). -/
structure Numerics where
  log10f : ℚ → ℚ
  multiplier_to_preview : ℚ → Int → Int
  pi : ℚ
  getMin : MagnitudeRange → ℚ
  getMax : MagnitudeRange → ℚ

/-- The normalisation range `(min, max)` of `getDisplayValue(v, input)` as it
stands when the switch on the colour scale is reached, after the two
adjustments `if (max == 0.f)` and `if (max == min)`. -/
def displayRange (num : Numerics) (s : Layer) (vid : ViewId) : ℚ × ℚ :=
  let viewMag := (mapIndex MagnitudeRange.unset s.m_viewMags vid).1
  let min0 : ℚ := if s.m_normalizeVisibleArea then num.getMin viewMag else 0
  let max0 : ℚ :=
    if s.m_normalizeVisibleArea then num.getMax viewMag
    else if s.m_normalizeColumns = false ∧ s.m_colourScale = ColourScale.LinearColourScale
      then 1 / 10
    else 1
  let max1 : ℚ := if max0 = 0 then 1 else max0
  let min1 : ℚ := if max1 = min0 then max1 - 1 / 10000 else min0
  (min1, max1)

/-- The tail that the two decibel cases of `getDisplayValue` share, from the
test `if (input > 0.f)` on: `ratio` is `input` as the case has just set it and
`floor` the argument of `log10f` for the threshold (`min * min` or `min`). -/
def decibelIndex (num : Numerics) (min ratio floor : ℚ) : Int :=
  let thresh0 : ℚ := -80
  let input1 : ℚ := if ratio > 0 then 10 * num.log10f ratio else thresh0
  let thresh : ℚ :=
    if min > 0 then
      if 10 * num.log10f floor < -80 then -80 else 10 * num.log10f floor
    else thresh0
  let input2 : ℚ := (input1 - thresh) / (-thresh)
  let input3 : ℚ := if input2 < 0 then 0 else input2
  let input4 : ℚ := if input3 > 1 then 1 else input3
  truncQ (input4 * 255) + 1

/-- The method `getDisplayValue(v, input)`: the palette index returned, and
the layer, in which `m_viewMags[v]` has inserted an unset range when the
visible area is normalised and the view had none. -/
def getDisplayValue (num : Numerics) (s : Layer) (vid : ViewId) (input : ℚ) : Int × Layer :=
  let min := (displayRange num s vid).1
  let max := (displayRange num s vid).2
  let value : Int :=
    match s.m_colourScale with
    | ColourScale.LinearColourScale => truncQ (((input - min) / (max - min)) * 255) + 1
    | ColourScale.MeterColourScale =>
      num.multiplier_to_preview ((input - min) / (max - min)) 254 + 1
    | ColourScale.dBSquaredColourScale =>
      decibelIndex num min (((input - min) * (input - min)) / ((max - min) * (max - min)))
        (min * min)
    | ColourScale.dBColourScale =>
      decibelIndex num min ((input - min) / (max - min)) min
    | ColourScale.PhaseColourScale => truncQ ((input * 127 / num.pi) + 128)
  let value1 := if value > 255 then 255 else value
  let value2 := if value1 < 0 then 0 else value1
  let after :=
    if s.m_normalizeVisibleArea then
      { s with m_viewMags := (mapIndex MagnitudeRange.unset s.m_viewMags vid).2 }
    else s
  (value2, after)

/-- Numerics for the worked examples: a magnitude range reads as its bounds
over `UINT_MAX`, the logarithm is replaced by `x - 1`, the meter by a linear
ramp and pi by 22/7. -/
def Numerics.sample : Numerics where
  log10f := fun x => x - 1
  multiplier_to_preview := fun x levels => truncQ (x * levels)
  pi := 22 / 7
  getMin := fun r => (r.m_min : ℚ) / 4294967295
  getMax := fun r => (r.m_max : ℚ) / 4294967295

/-- The normalised layer on the linear colour scale, with the magnitude range
(3, 9) recorded for view 1. -/
def Layer.linear : Layer :=
  { Layer.normalised with
    m_colourScale := ColourScale.LinearColourScale,
    m_viewMags := [(1, ⟨3, 9⟩)] }

end SpectrogramLayer

/-! ## The file identifier of SVFileReader.cpp -/

namespace SVFileReader

/-- The enumeration `SVFileReader::FileType`. -/
inductive FileType where
  | SVSessionFile
  | SVLayerFile
  | UnknownFileType
  deriving DecidableEq

/-- The two functions of `QString` that the identifier calls. -/
structure QStrings where
  toLower : String → String
  trimmed : String → String

/-- The attributes of an element (`QXmlAttributes`): qualified names with
their values, in document order. -/
abbrev QXmlAttributes := List (String × String)

/-- The lookup `atts.value(qName)`: the value of the first attribute of that
qualified name, the empty string when there is none. -/
def QXmlAttributes.value (atts : QXmlAttributes) (qName : String) : String :=
  match atts.find? (fun a => a.1 == qName) with
  | some a => a.2
  | none => ""

/-- An element event as the reader hands it to the content handler, with the
qualified name of the element. -/
inductive Event where
  | startElement (qName : String) (atts : QXmlAttributes)
  | endElement (qName : String)
  deriving DecidableEq

/-- The members of the class `SVFileIdentifier`. -/
structure SVFileIdentifier where
  m_inSv : Bool
  m_inData : Bool
  m_type : FileType
  deriving DecidableEq

namespace SVFileIdentifier

/-- The members as the constructor leaves them. -/
def initial : SVFileIdentifier := ⟨false, false, FileType.UnknownFileType⟩

def getType (h : SVFileIdentifier) : FileType := h.m_type

/-- The handler `startElement`: what it returns, and the identifier after
it. -/
def startElement (q : QStrings) (h : SVFileIdentifier) (qName : String)
    (atts : QXmlAttributes) : Bool × SVFileIdentifier :=
  let name := q.toLower qName
  if name = "sv" then
    let h1 := { h with m_inSv := true }
    if h1.m_type = FileType.UnknownFileType then
      (true, { h1 with m_type := FileType.SVLayerFile })
    else (true, h1)
  else if name = "data" then
    if h.m_inSv = false then (true, h)
    else (true, { h with m_inData := true })
  else if name = "model" then
    if h.m_inData = false then (true, h)
    else if q.trimmed (atts.value "mainModel") = "true" then
      if h.m_type = FileType.SVLayerFile then
        (false, { h with m_type := FileType.SVSessionFile })
      else (true, h)
    else (true, h)
  else (true, h)

/-- The handler `endElement`: what it returns, and the identifier after it. -/
def endElement (q : QStrings) (h : SVFileIdentifier) (qName : String) :
    Bool × SVFileIdentifier :=
  let name := q.toLower qName
  if name = "sv" then
    if h.m_inSv then (false, { h with m_inSv := false })
    else (true, h)
  else if name = "data" then
    if h.m_inData then (false, { h with m_inData := false })
    else (true, h)
  else (true, h)

/-- The handler called for an event. -/
def handle (q : QStrings) (h : SVFileIdentifier) : Event → Bool × SVFileIdentifier
  | Event.startElement qName atts => startElement q h qName atts
  | Event.endElement qName => endElement q h qName

/-- The method `parse` on the element events of a document: the reader hands
them to the handler in order and stops after the first for which the handler
returns false. -/
def parse (q : QStrings) (h : SVFileIdentifier) : List Event → SVFileIdentifier
  | [] => h
  | e :: rest => if (handle q h e).1 then parse q (handle q h e).2 rest else (handle q h e).2

/-- The events handed to the handler before parsing stops, the one at which
it stops included. -/
def handled (q : QStrings) (h : SVFileIdentifier) : List Event → List Event
  | [] => []
  | e :: rest => if (handle q h e).1 then e :: handled q (handle q h e).2 rest else [e]

end SVFileIdentifier

/-- The function `identifyXmlFile` on the element events of the file at the
path. -/
def identifyXmlFile (q : QStrings) (events : List Event) : FileType :=
  (SVFileIdentifier.parse q SVFileIdentifier.initial events).getType

/-- A start element of the given name, compared without regard to case. -/
def isStartOf (q : QStrings) (name : String) : Event → Bool
  | Event.startElement qName _ => q.toLower qName = name
  | Event.endElement _ => false

/-- A model start element with mainModel="true". -/
def isMainModelStart (q : QStrings) : Event → Bool
  | Event.startElement qName atts => q.toLower qName = "model" ∧ atts.value "mainModel" = "true"
  | Event.endElement _ => false

/-- A model start element whose mainModel attribute is "true" once leading
and trailing white space is removed. -/
def isTrimmedMainModelStart (q : QStrings) : Event → Bool
  | Event.startElement qName atts =>
    q.toLower qName = "model" ∧ q.trimmed (atts.value "mainModel") = "true"
  | Event.endElement _ => false

/-- An sv start element is among the events. -/
def svSeen (q : QStrings) (seen : List Event) : Prop :=
  ∃ e, e ∈ seen ∧ isStartOf q "sv" e = true

/-- The pattern of a session file: among the events, a model start element
accepted by `main` after a data start element that itself is after an sv
start element. -/
def sessionPattern (q : QStrings) (main : Event → Bool) (seen : List Event) : Prop :=
  ∃ e1 e2 e3, isStartOf q "sv" e1 = true ∧ isStartOf q "data" e2 = true ∧ main e3 = true ∧
    List.Sublist [e1, e2, e3] seen

/-- The functions of `QString` on ASCII text: upper-case letters are lowered,
and blanks, tabs, carriage returns and line feeds are removed at both ends. -/
def QStrings.ascii : QStrings where
  toLower := fun s => String.mk (s.data.map Char.toLower)
  trimmed := fun s =>
    String.mk ((s.data.dropWhile Char.isWhitespace).reverse.dropWhile Char.isWhitespace).reverse

/-- The events of a document in which the main model is marked with a padded
attribute value: sv, data and model elements opened in turn. -/
def paddedSession : List Event :=
  [Event.startElement "sv" [], Event.startElement "data" [],
    Event.startElement "model" [("id", "1"), ("mainModel", " true ")]]

/-- The events of a session file whose elements are written in upper case,
left unfinished: the reader stops at the model element. -/
def upperCaseSession : List Event :=
  [Event.startElement "SV" [], Event.startElement "DATA" [],
    Event.startElement "Model" [("id", "1"), ("mainModel", "true")],
    Event.endElement "Model", Event.endElement "DATA"]

/-- The events of a layer file: the data element holds a model that is not
the main one, and a main model only follows the end of the data element. -/
def layerOnly : List Event :=
  [Event.startElement "sv" [], Event.startElement "data" [],
    Event.startElement "model" [("id", "2")], Event.endElement "model",
    Event.endElement "data", Event.startElement "data" [],
    Event.startElement "model" [("mainModel", "true")]]

/-- An event accepted by `main` is among the events. -/
def mainSeen (main : Event → Bool) (seen : List Event) : Prop :=
  ∃ e, e ∈ seen ∧ main e = true

/-- Among the events, an event accepted by `main` after a data start
element. -/
def dataPattern (q : QStrings) (main : Event → Bool) (seen : List Event) : Prop :=
  ∃ e2 e3, isStartOf q "data" e2 = true ∧ main e3 = true ∧ List.Sublist [e2, e3] seen

end SVFileReader

/-! ## Theorems -/

namespace SpectrogramLayer

theorem mapIndex_of_find {α : Type} (dflt a : α) (m : ViewMap α) (v : ViewId)
    (h : mapFind m v = some a) : mapIndex dflt m v = (a, m) := by
  simp [mapIndex, h]

theorem reconcileCache_shift (v : View) (startFrame : Int) (rect : QRect)
    (cache : ImageCache)
    (hvalid : cache.validArea.width > 0)
    (hzoom : (cache.zoomLevel : Int) = v.getZoomLevel)
    (hw : cache.image.width = v.width) (hh : cache.image.height = v.height)
    (hdx : v.getXForFrame cache.startFrame - v.getXForFrame startFrame ≠ 0)
    (hlo : -cache.image.width < v.getXForFrame cache.startFrame - v.getXForFrame startFrame)
    (hhi : v.getXForFrame cache.startFrame - v.getXForFrame startFrame < cache.image.width) :
    reconcileCache v startFrame rect cache =
      Reconciled.carryOn
        { cache with
          image := shiftScanLines cache.image cache.image.width cache.image.height
            (v.getXForFrame cache.startFrame - v.getXForFrame startFrame),
          validArea := (shiftValidArea cache.validArea cache.image.width
            (v.getXForFrame cache.startFrame - v.getXForFrame startFrame)).1 }
        (shiftValidArea cache.validArea cache.image.width
            (v.getXForFrame cache.startFrame - v.getXForFrame startFrame)).2.1
        (shiftValidArea cache.validArea cache.image.width
            (v.getXForFrame cache.startFrame - v.getXForFrame startFrame)).2.2
        false := by
  have hne : ¬ (v.getXForFrame cache.startFrame = v.getXForFrame startFrame) := by
    intro h; apply hdx; omega
  unfold reconcileCache
  simp only [hvalid, hzoom, hw, hh, if_true, true_and, and_self, hne, false_and, if_false]
  rw [if_pos]
  refine ⟨hdx, ?_, ?_⟩ <;> omega

theorem shiftScanLines_pixel (image : QImage) (dx y x : Int)
    (hy0 : 0 ≤ y) (hy1 : y < image.height)
    (hx0 : 0 ≤ x) (hx1 : x < image.width)
    (hs0 : 0 ≤ x - dx) (hs1 : x - dx < image.width) :
    (shiftScanLines image image.width image.height dx).pixels y x =
      image.pixels y (x - dx) := by
  unfold shiftScanLines memmove
  by_cases hneg : dx < 0
  · simp only [hneg, if_true, hy0, hy1, and_self]
    by_cases hc : (0 ≤ x ∧ x < 0 + (image.width - -dx))
    · rw [if_pos hc]; congr 1; omega
    · exfalso; apply hc; constructor <;> omega
  · simp only [hneg, if_false, hy0, hy1, and_self, if_true]
    by_cases hc : (dx ≤ x ∧ x < dx + (image.width - dx))
    · rw [if_pos hc]; congr 1; omega
    · exfalso; apply hc; constructor <;> omega

theorem checkMagnitudes_image (increment : Nat) (m : Model) (s : Layer) (vid : ViewId)
    (v : View) (cache : ImageCache) (x0 x1 : Int) (recreate : Bool) :
    (checkMagnitudes increment m s vid v cache x0 x1 recreate).cache.image = cache.image := by
  unfold checkMagnitudes
  simp only
  split <;> rfl

/-- Claim C1.  In paint, when the model is ready and the cache entry of the
view has a non-empty valid area, the zoom level and bitmap size of the view,
and a scroll offset `dx = X(cache.startFrame) - X(startFrame)` with
`dx != 0` and `-cw < dx < cw`, paint goes on to repaint with a bitmap in
which every cached pixel has moved by `dx`: the pixel at `(x, y)` is the
pixel that was at `(x - dx, y)`, for every row `y` in `[0, ch)` and every
column `x` with `0 <= x < cw` and `0 <= x - dx < cw`. -/
theorem paint_shift_moves_cached_pixels (env : Env) (s : Layer) (vid : ViewId)
    (v : View) (rect : QRect) (m : Model) (cache : ImageCache)
    (hm : s.m_model = some m) (hok : m.isOK = true) (hready : m.isReady = true)
    (hc : mapFind s.m_imageCaches vid = some cache)
    (hvalid : cache.validArea.width > 0)
    (hzoom : (cache.zoomLevel : Int) = v.getZoomLevel)
    (hw : cache.image.width = v.width) (hh : cache.image.height = v.height)
    (hdx : v.getXForFrame cache.startFrame - v.getXForFrame v.getStartFrame ≠ 0)
    (hlo : -cache.image.width <
      v.getXForFrame cache.startFrame - v.getXForFrame v.getStartFrame)
    (hhi : v.getXForFrame cache.startFrame - v.getXForFrame v.getStartFrame <
      cache.image.width) :
    ∃ r, paintHead env s vid v rect = Head.request m r ∧
      ∀ y x : Int, 0 ≤ y → y < cache.image.height → 0 ≤ x → x < cache.image.width →
        0 ≤ x - (v.getXForFrame cache.startFrame - v.getXForFrame v.getStartFrame) →
        x - (v.getXForFrame cache.startFrame - v.getXForFrame v.getStartFrame) <
          cache.image.width →
        r.cache.image.pixels y x =
          cache.image.pixels y
            (x - (v.getXForFrame cache.startFrame - v.getXForFrame v.getStartFrame)) := by
  unfold paintHead
  simp only [hm, hok, hready, Bool.not_true, Bool.or_self, Bool.false_eq_true, if_false]
  rw [mapIndex_of_find ImageCache.empty cache _ vid hc]
  simp only
  rw [reconcileCache_shift v v.getStartFrame rect cache hvalid hzoom hw hh hdx hlo hhi]
  refine ⟨_, rfl, ?_⟩
  intro y x hy0 hy1 hx0 hx1 hs0 hs1
  rw [checkMagnitudes_image]
  exact shiftScanLines_pixel cache.image _ y x hy0 hy1 hx0 hx1 hs0 hs1

/-- Witness of C1: the sample cache of view 1, scrolled from frame 0 to
frame 2 at zoom level 1, is shifted by `dx = -2`. -/
theorem paint_shift_moves_cached_pixels_witness :
    ∃ r, paintHead Env.sample Layer.warm 1 (View.ofGeometry 2 1 4 2)
        (QRect.ofSize 0 0 4 2) = Head.request Model.sample r ∧
      ∀ y x : Int, 0 ≤ y → y < 2 → 0 ≤ x → x < 4 → 0 ≤ x - (-2) → x - (-2) < 4 →
        r.cache.image.pixels y x = (QImage.sample 4 2).pixels y (x - (-2)) :=
  paint_shift_moves_cached_pixels Env.sample Layer.warm 1 (View.ofGeometry 2 1 4 2)
    (QRect.ofSize 0 0 4 2) Model.sample ImageCache.sample rfl rfl rfl rfl
    (by decide) (by decide) rfl rfl (by decide) (by decide) (by decide)

/-- Claim C2.  In the shift-reuse step of paint (same zoom level and size,
`dx != 0`, `|dx| < cw`), if the columns of the old valid area lie within
`[0, cw)`, the valid area stored after the shift holds exactly the columns
of the old one translated by `dx` that fall in `[0, cw)`: it starts at
`max(px + dx, 0)`, its width is the size of that intersection (0 when the
intersection is empty), and its y and height are unchanged. -/
theorem paint_shift_valid_area (v : View) (startFrame : Int) (rect : QRect)
    (cache : ImageCache)
    (hvalid : cache.validArea.width > 0)
    (hzoom : (cache.zoomLevel : Int) = v.getZoomLevel)
    (hw : cache.image.width = v.width) (hh : cache.image.height = v.height)
    (hdx : v.getXForFrame cache.startFrame - v.getXForFrame startFrame ≠ 0)
    (hlo : -cache.image.width < v.getXForFrame cache.startFrame - v.getXForFrame startFrame)
    (hhi : v.getXForFrame cache.startFrame - v.getXForFrame startFrame < cache.image.width)
    (hin0 : 0 ≤ cache.validArea.x)
    (hin1 : cache.validArea.x + cache.validArea.width ≤ cache.image.width) :
    ∃ c x0 x1, reconcileCache v startFrame rect cache = Reconciled.carryOn c x0 x1 false ∧
      (∀ col : Int, c.validArea.hasColumn col ↔
        (cache.validArea.hasColumn
            (col - (v.getXForFrame cache.startFrame - v.getXForFrame startFrame)) ∧
          0 ≤ col ∧ col < cache.image.width)) ∧
      c.validArea.x =
        max (cache.validArea.x +
          (v.getXForFrame cache.startFrame - v.getXForFrame startFrame)) 0 ∧
      c.validArea.width =
        max 0 (min (cache.validArea.x + cache.validArea.width +
            (v.getXForFrame cache.startFrame - v.getXForFrame startFrame)) cache.image.width -
          max (cache.validArea.x +
            (v.getXForFrame cache.startFrame - v.getXForFrame startFrame)) 0) ∧
      c.validArea.y = cache.validArea.y ∧
      c.validArea.height = cache.validArea.height := by
  refine ⟨_, _, _, reconcileCache_shift v startFrame rect cache hvalid hzoom hw hh hdx hlo hhi,
    ?_⟩
  generalize v.getXForFrame cache.startFrame - v.getXForFrame startFrame = dx at *
  generalize cache.image.width = cw at *
  obtain ⟨⟨a1, b1, a2, b2⟩, image, sf, zl⟩ := cache
  simp only [QRect.width, QRect.x] at hvalid hin0 hin1
  simp only [shiftValidArea, QRect.hasColumn, QRect.x, QRect.y, QRect.width, QRect.height,
    QRect.ofSize]
  by_cases hneg : dx < 0
  · simp only [hneg, if_true]
    by_cases hp : a1 + dx < 0
    · simp only [hp, if_true]
      by_cases hq : a2 - a1 + 1 + (a1 + dx) < 0
      · simp only [hq, if_true]
        refine ⟨fun col => ⟨fun h => ?_, fun h => ?_⟩, ?_, ?_, trivial, ?_⟩ <;> omega
      · simp only [hq, if_false]
        refine ⟨fun col => ⟨fun h => ?_, fun h => ?_⟩, ?_, ?_, trivial, ?_⟩ <;> omega
    · simp only [hp, if_false]
      refine ⟨fun col => ⟨fun h => ?_, fun h => ?_⟩, ?_, ?_, trivial, ?_⟩ <;> omega
  · simp only [hneg, if_false]
    by_cases hp : a1 + dx + (a2 - a1 + 1) > cw
    · simp only [hp, if_true]
      by_cases hq : cw - (a1 + dx) < 0
      · simp only [hq, if_true]
        refine ⟨fun col => ⟨fun h => ?_, fun h => ?_⟩, ?_, ?_, trivial, ?_⟩ <;> omega
      · simp only [hq, if_false]
        refine ⟨fun col => ⟨fun h => ?_, fun h => ?_⟩, ?_, ?_, trivial, ?_⟩ <;> omega
    · simp only [hp, if_false]
      refine ⟨fun col => ⟨fun h => ?_, fun h => ?_⟩, ?_, ?_, trivial, ?_⟩ <;> omega

/-- Witness of C2: the sample cache (columns 0 to 3 valid) scrolled by
`dx = -2` keeps the valid columns 0 and 1. -/
theorem paint_shift_valid_area_witness :
    ∃ c x0 x1, reconcileCache (View.ofGeometry 2 1 4 2) 2 (QRect.ofSize 0 0 4 2)
        ImageCache.sample = Reconciled.carryOn c x0 x1 false ∧
      (∀ col : Int, c.validArea.hasColumn col ↔
        (ImageCache.sample.validArea.hasColumn (col - (-2)) ∧ 0 ≤ col ∧ col < 4)) ∧
      c.validArea.x = 0 ∧ c.validArea.width = 2 ∧
      c.validArea.y = 0 ∧ c.validArea.height = 2 :=
  paint_shift_valid_area (View.ofGeometry 2 1 4 2) 2 (QRect.ofSize 0 0 4 2)
    ImageCache.sample (by decide) rfl rfl rfl (by decide) (by decide) (by decide)
    (by decide) (by decide)

theorem reconcileCache_good (v : View) (startFrame : Int) (rect : QRect)
    (cache : ImageCache)
    (hvalid : cache.validArea.width > 0)
    (hzoom : (cache.zoomLevel : Int) = v.getZoomLevel)
    (hw : cache.image.width = v.width) (hh : cache.image.height = v.height)
    (hx : v.getXForFrame cache.startFrame = v.getXForFrame startFrame)
    (hl : cache.validArea.x ≤ rect.left)
    (hr : rect.right ≤ cache.validArea.x + cache.validArea.width - 1) :
    reconcileCache v startFrame rect cache = Reconciled.cacheGood := by
  unfold reconcileCache
  simp only [hvalid, hzoom, hw, hh, hx, hl, if_true, true_and, and_self]
  rw [if_pos]
  omega

/-- Claim C3.  Repainting an already valid region is idempotent: if the
cache entry of the view has a non-empty valid area, the zoom level and
bitmap size of the view, `X(cache.startFrame) == X(startFrame)`, and the
columns `[rect.left, rect.right]` of the requested rect inside the columns
of the valid area, then paint returns, whatever the compositor and the clock
are, with the image caches, the draw buffer, the magnitude ranges, the
transforms and peak caches and the paint-block-width state exactly as they
were and no repaint requested; with a ready model what it draws is the rect
from the cached bitmap (followed by the local-feature overlay, which only
draws on the painter). -/
theorem paint_valid_region_idempotent (env : Env) (fuel : Nat) (s : Layer)
    (vid : ViewId) (v : View) (rect : QRect) (cache : ImageCache)
    (hc : mapFind s.m_imageCaches vid = some cache)
    (hvalid : cache.validArea.width > 0)
    (hzoom : (cache.zoomLevel : Int) = v.getZoomLevel)
    (hw : cache.image.width = v.width) (hh : cache.image.height = v.height)
    (hx : v.getXForFrame cache.startFrame = v.getXForFrame v.getStartFrame)
    (hl : cache.validArea.x ≤ rect.left)
    (hr : rect.right ≤ cache.validArea.x + cache.validArea.width - 1) :
    ∃ p, paint env fuel s vid v rect = some p ∧
      p.updates = [] ∧
      p.layer.m_imageCaches = s.m_imageCaches ∧
      mapFind p.layer.m_imageCaches vid = some cache ∧
      p.layer.m_drawBuffer = s.m_drawBuffer ∧
      p.layer.m_viewMags = s.m_viewMags ∧
      p.layer.m_columnMags = s.m_columnMags ∧
      p.layer.m_fftModels = s.m_fftModels ∧
      p.layer.m_peakCaches = s.m_peakCaches ∧
      p.layer.m_lastPaintBlockWidth = s.m_lastPaintBlockWidth ∧
      p.layer.m_lastPaintTime = s.m_lastPaintTime ∧
      (∀ m, s.m_model = some m → m.isOK = true → m.isReady = true →
        p.ops = [PaintOp.drawImage rect cache.image rect,
          PaintOp.illuminateLocalFeatures]) := by
  unfold paint paintHead
  cases hm : s.m_model with
  | none =>
    exact ⟨_, rfl, rfl, rfl, hc, rfl, rfl, rfl, rfl, rfl, rfl, rfl,
      fun m h => by simp at h⟩
  | some m =>
    by_cases hbad : (!m.isOK || !m.isReady) = true
    · simp only [hbad, if_true]
      refine ⟨_, rfl, rfl, rfl, hc, rfl, rfl, rfl, rfl, rfl, rfl, rfl, ?_⟩
      intro m1 h1 hok hready
      cases h1
      simp [hok, hready] at hbad
    · simp only [hbad, if_false]
      rw [mapIndex_of_find ImageCache.empty cache _ vid hc]
      simp only
      rw [reconcileCache_good v v.getStartFrame rect cache hvalid hzoom hw hh hx hl hr]
      exact ⟨_, rfl, rfl, rfl, hc, rfl, rfl, rfl, rfl, rfl, rfl, rfl, fun _ _ _ _ => rfl⟩

/-- Witness of C3: the sample cache of view 1, asked again for its columns
1 and 2 with the view still at frame 0. -/
theorem paint_valid_region_idempotent_witness :
    ∃ p, paint Env.sample 8 Layer.warm 1 (View.ofGeometry 0 1 4 2)
        (QRect.ofSize 1 0 2 2) = some p ∧
      p.updates = [] ∧
      p.layer.m_imageCaches = Layer.warm.m_imageCaches ∧
      mapFind p.layer.m_imageCaches 1 = some ImageCache.sample ∧
      p.layer.m_drawBuffer = Layer.warm.m_drawBuffer ∧
      p.layer.m_viewMags = Layer.warm.m_viewMags ∧
      p.layer.m_columnMags = Layer.warm.m_columnMags ∧
      p.layer.m_fftModels = Layer.warm.m_fftModels ∧
      p.layer.m_peakCaches = Layer.warm.m_peakCaches ∧
      p.layer.m_lastPaintBlockWidth = Layer.warm.m_lastPaintBlockWidth ∧
      p.layer.m_lastPaintTime = Layer.warm.m_lastPaintTime ∧
      (∀ m, Layer.warm.m_model = some m → m.isOK = true → m.isReady = true →
        p.ops = [PaintOp.drawImage (QRect.ofSize 1 0 2 2) ImageCache.sample.image
          (QRect.ofSize 1 0 2 2), PaintOp.illuminateLocalFeatures]) :=
  paint_valid_region_idempotent Env.sample 8 Layer.warm 1 (View.ofGeometry 0 1 4 2)
    (QRect.ofSize 1 0 2 2) ImageCache.sample rfl
    (by decide) rfl rfl rfl (by decide) (by decide) (by decide)

theorem reconcileCache_not_reusable (v : View) (startFrame : Int) (rect : QRect)
    (cache : ImageCache)
    (hnot : cache.validArea.width ≤ 0 ∨ (cache.zoomLevel : Int) ≠ v.getZoomLevel ∨
      cache.image.width ≠ v.width ∨ cache.image.height ≠ v.height ∨
      (v.getXForFrame cache.startFrame - v.getXForFrame startFrame ≠ 0 ∧
        cache.image.width ≤
          |v.getXForFrame cache.startFrame - v.getXForFrame startFrame|)) :
    ∃ c, reconcileCache v startFrame rect cache =
        Reconciled.carryOn c rect.left (rect.right + 1) true ∧
      c.validArea.width ≤ 0 := by
  unfold reconcileCache
  by_cases hvalid : cache.validArea.width > 0
  · simp only [hvalid, if_true]
    by_cases hsame : (cache.zoomLevel : Int) = v.getZoomLevel ∧
        cache.image.width = v.width ∧ cache.image.height = v.height
    · rw [if_pos hsame]
      obtain ⟨h1, h2, h3⟩ := hsame
      have hdx : v.getXForFrame cache.startFrame - v.getXForFrame startFrame ≠ 0 ∧
          cache.image.width ≤
            |v.getXForFrame cache.startFrame - v.getXForFrame startFrame| := by
        rcases hnot with h | h | h | h | h
        · omega
        · exact absurd h1 h
        · exact absurd h2 h
        · exact absurd h3 h
        · exact h
      obtain ⟨hne, habs⟩ := hdx
      have hx : ¬ (v.getXForFrame cache.startFrame = v.getXForFrame startFrame) := by
        intro h; apply hne; omega
      simp only [hx, false_and, if_false]
      have hfar : ¬ (v.getXForFrame cache.startFrame - v.getXForFrame startFrame ≠ 0 ∧
          v.getXForFrame cache.startFrame - v.getXForFrame startFrame > -cache.image.width ∧
          v.getXForFrame cache.startFrame - v.getXForFrame startFrame < cache.image.width) := by
        rintro ⟨-, h1, h2⟩
        have := abs_lt.mpr ⟨h1, h2⟩
        omega
      rw [if_neg hfar, if_pos hne]
      exact ⟨_, rfl, by show QRect.null.width ≤ 0; decide⟩
    · rw [if_neg hsame]
      exact ⟨_, rfl, by show QRect.null.width ≤ 0; decide⟩
  · simp only [hvalid, if_false]
    exact ⟨_, rfl, by omega⟩

theorem checkMagnitudes_recreate (increment : Nat) (m : Model) (s : Layer)
    (vid : ViewId) (v : View) (cache : ImageCache) (x0 x1 : Int)
    (hcw : cache.validArea.width ≤ 0) :
    (checkMagnitudes increment m s vid v cache x0 x1 true).cache.validArea.width ≤ 0 ∧
    (checkMagnitudes increment m s vid v cache x0 x1 true).x0 = 0 ∧
    (checkMagnitudes increment m s vid v cache x0 x1 true).x1 = v.width ∧
    (checkMagnitudes increment m s vid v cache x0 x1 true).recreateWholeImageCache = true := by
  unfold checkMagnitudes
  simp only [ite_self, if_true, and_true]
  split
  · show QRect.null.width ≤ 0
    decide
  · exact hcw

/-- Claim C4.  Whenever the cache entry of the view is not reusable in paint
(no valid area; or a zoom level or bitmap size other than the view's; or a
scroll offset `dx` with `|dx| >= cw`), for a ready model and a viewport of
positive width, paint goes on with no valid area left in the entry and with
the whole viewport width `[0, v.width())` as the range to recompute,
whatever the requested rect is. -/
theorem paint_not_reusable_full_width (env : Env) (s : Layer) (vid : ViewId)
    (v : View) (rect : QRect) (m : Model) (cache : ImageCache)
    (hm : s.m_model = some m) (hok : m.isOK = true) (hready : m.isReady = true)
    (hc : (mapIndex ImageCache.empty s.m_imageCaches vid).1 = cache)
    (hwidth : 0 < v.width)
    (hnot : cache.validArea.width ≤ 0 ∨ (cache.zoomLevel : Int) ≠ v.getZoomLevel ∨
      cache.image.width ≠ v.width ∨ cache.image.height ≠ v.height ∨
      cache.image.width ≤
        |v.getXForFrame cache.startFrame - v.getXForFrame v.getStartFrame|) :
    ∃ r, paintHead env s vid v rect = Head.request m r ∧
      r.cache.validArea.width ≤ 0 ∧ (∀ col : Int, ¬ r.cache.validArea.hasColumn col) ∧
      r.x0 = 0 ∧ r.x1 = v.width ∧ r.recreateWholeImageCache = true := by
  have hnot1 : cache.validArea.width ≤ 0 ∨ (cache.zoomLevel : Int) ≠ v.getZoomLevel ∨
      cache.image.width ≠ v.width ∨ cache.image.height ≠ v.height ∨
      (v.getXForFrame cache.startFrame - v.getXForFrame v.getStartFrame ≠ 0 ∧
        cache.image.width ≤
          |v.getXForFrame cache.startFrame - v.getXForFrame v.getStartFrame|) := by
    rcases hnot with h | h | h | h | h
    · exact Or.inl h
    · exact Or.inr (Or.inl h)
    · exact Or.inr (Or.inr (Or.inl h))
    · exact Or.inr (Or.inr (Or.inr (Or.inl h)))
    · by_cases hsame : cache.image.width = v.width
      · refine Or.inr (Or.inr (Or.inr (Or.inr ⟨?_, h⟩)))
        intro h0
        rw [h0, abs_zero] at h
        omega
      · exact Or.inr (Or.inr (Or.inl hsame))
  obtain ⟨c, hrec, hcw⟩ := reconcileCache_not_reusable v v.getStartFrame rect cache hnot1
  unfold paintHead
  simp only [hm, hok, hready, Bool.not_true, Bool.or_self, Bool.false_eq_true, if_false]
  simp only [hc, hrec]
  refine ⟨_, rfl, ?_⟩
  obtain ⟨h1, h2, h3, h4⟩ := checkMagnitudes_recreate
    (windowIncrement env
      { s with m_candidateFillStartFrame :=
                 if v.getStartFrame < 0 then 0 else v.getStartFrame.toNat,
               m_model := some m,
               m_dormancy := mapSet s.m_dormancy vid false,
               m_imageCaches := (mapIndex ImageCache.empty s.m_imageCaches vid).2 })
    m
    { s with m_candidateFillStartFrame :=
               if v.getStartFrame < 0 then 0 else v.getStartFrame.toNat,
             m_model := some m,
             m_dormancy := mapSet s.m_dormancy vid false,
             m_imageCaches := (mapIndex ImageCache.empty s.m_imageCaches vid).2 }
    vid v c rect.left (rect.right + 1) hcw
  refine ⟨h1, ?_, h2, h3, h4⟩
  intro col hcol
  unfold QRect.hasColumn at hcol
  omega

/-- Witness of C4: the sample cache of view 1 with the view scrolled from
frame 0 to frame 9 (`dx = -9`, `cw = 4`), asked for column 1 only. -/
theorem paint_not_reusable_full_width_witness :
    ∃ r, paintHead Env.sample Layer.warm 1 (View.ofGeometry 9 1 4 2)
        (QRect.ofSize 1 0 1 2) = Head.request Model.sample r ∧
      r.cache.validArea.width ≤ 0 ∧ (∀ col : Int, ¬ r.cache.validArea.hasColumn col) ∧
      r.x0 = 0 ∧ r.x1 = 4 ∧ r.recreateWholeImageCache = true :=
  paint_not_reusable_full_width Env.sample Layer.warm 1 (View.ofGeometry 9 1 4 2)
    (QRect.ofSize 1 0 1 2) Model.sample ImageCache.sample rfl rfl rfl rfl (by decide)
    (Or.inr (Or.inr (Or.inr (Or.inr (by decide)))))

/-- Claim C5.  If the model is missing, not OK or not ready, paint returns
having drawn nothing and requested nothing, and is a no-op on every cache:
the image caches, the transforms, the peak caches, the magnitude ranges and
the update timer are as they were, so `getCompletion` gives for every view
what it gave before the call. -/
theorem paint_without_model_is_noop (env : Env) (fuel : Nat) (s : Layer)
    (vid : ViewId) (v : View) (rect : QRect)
    (hbad : s.m_model = none ∨
      ∃ m, s.m_model = some m ∧ (m.isOK = false ∨ m.isReady = false)) :
    ∃ p, paint env fuel s vid v rect = some p ∧
      p.ops = [] ∧ p.updates = [] ∧
      p.layer.m_imageCaches = s.m_imageCaches ∧
      p.layer.m_fftModels = s.m_fftModels ∧
      p.layer.m_peakCaches = s.m_peakCaches ∧
      p.layer.m_viewMags = s.m_viewMags ∧
      p.layer.m_columnMags = s.m_columnMags ∧
      p.layer.m_drawBuffer = s.m_drawBuffer ∧
      p.layer.m_updateTimer = s.m_updateTimer ∧
      ∀ w : ViewId, getCompletion p.layer w = getCompletion s w := by
  unfold paint paintHead
  rcases hbad with h | ⟨m, h, hm⟩
  · simp only [h]
    exact ⟨_, rfl, rfl, rfl, rfl, rfl, rfl, rfl, rfl, rfl, rfl, fun _ => rfl⟩
  · have hcond : (!m.isOK || !m.isReady) = true := by
      rcases hm with h1 | h1 <;> simp [h1]
    simp only [h, hcond, if_true]
    exact ⟨_, rfl, rfl, rfl, rfl, rfl, rfl, rfl, rfl, rfl, rfl, fun _ => rfl⟩

/-- Witness of C5: a layer whose model is not ready, with a valid cache and
a transform 40% complete for view 1. -/
theorem paint_without_model_is_noop_witness :
    ∃ p, paint Env.sample 8 Layer.notReady 1 (View.ofGeometry 0 1 4 2)
        (QRect.ofSize 0 0 4 2) = some p ∧
      p.ops = [] ∧ p.updates = [] ∧
      p.layer.m_imageCaches = Layer.notReady.m_imageCaches ∧
      p.layer.m_fftModels = Layer.notReady.m_fftModels ∧
      p.layer.m_peakCaches = Layer.notReady.m_peakCaches ∧
      p.layer.m_viewMags = Layer.notReady.m_viewMags ∧
      p.layer.m_columnMags = Layer.notReady.m_columnMags ∧
      p.layer.m_drawBuffer = Layer.notReady.m_drawBuffer ∧
      p.layer.m_updateTimer = Layer.notReady.m_updateTimer ∧
      ∀ w : ViewId, getCompletion p.layer w = getCompletion Layer.notReady w :=
  paint_without_model_is_noop Env.sample 8 Layer.notReady 1 (View.ofGeometry 0 1 4 2)
    (QRect.ofSize 0 0 4 2)
    (Or.inr ⟨{ Model.sample with isReady := false }, rfl, Or.inr rfl⟩)

theorem intersected_hasColumn (a b : QRect) (x : Int)
    (ha : a.hasColumn x) (hb : b.hasColumn x)
    (hay : a.y1 ≤ a.y2) (hby : b.y1 ≤ b.y2) (h1 : a.y1 ≤ b.y2) (h2 : b.y1 ≤ a.y2) :
    (a.intersected b).hasColumn x := by
  obtain ⟨a1, b1, a2, b2⟩ := a
  obtain ⟨c1, d1, c2, d2⟩ := b
  simp only [QRect.hasColumn, QRect.x, QRect.width] at ha hb hay hby h1 h2 ⊢
  have hn1 : (QRect.mk a1 b1 a2 b2).isNull = false := by
    simp only [QRect.isNull, Bool.and_eq_false_iff, beq_eq_false_iff_ne, ne_eq]
    left; omega
  have hn2 : (QRect.mk c1 d1 c2 d2).isNull = false := by
    simp only [QRect.isNull, Bool.and_eq_false_iff, beq_eq_false_iff_ne, ne_eq]
    left; omega
  have e1 : ¬ (a2 - a1 + 1 < 0) := by omega
  have e2 : ¬ (c2 - c1 + 1 < 0) := by omega
  have e3 : ¬ (b2 - b1 + 1 < 0) := by omega
  have e4 : ¬ (d2 - d1 + 1 < 0) := by omega
  have e5 : ¬ (a1 > c2) := by omega
  have e6 : ¬ (c1 > a2) := by omega
  have e7 : ¬ (b1 > d2) := by omega
  have e8 : ¬ (d1 > b2) := by omega
  simp only [QRect.intersected, hn1, hn2, Bool.or_self, Bool.false_eq_true, if_false, e1, e2,
    e3, e4, e5, e6, e7, e8, decide_False]
  omega
theorem mapFind_cons_self {α : Type} (k : ViewId) (a : α) (rest : ViewMap α) :
    mapFind ((k, a) :: rest) k = some a := by
  simp [mapFind, List.lookup]

theorem mapFind_cons_ne {α : Type} (k k0 : ViewId) (a : α) (rest : ViewMap α)
    (h : k ≠ k0) : mapFind ((k0, a) :: rest) k = mapFind rest k := by
  have : (k == k0) = false := by simpa using h
  simp [mapFind, List.lookup, this]

theorem invalidateRange_keeps (views : ViewId → View) (startFrame endFrame : Nat)
    (k : ViewId) (x : Int) :
    ∀ (caches : ViewMap ImageCache) (c : ImageCache),
      mapFind caches k = some c → c.validArea.hasColumn x →
      (∃ y : Int, c.validArea.y ≤ y ∧ y < c.validArea.y + c.validArea.height ∧
        0 ≤ y ∧ y < (views k).height) →
      ((toLong startFrame > (views k).getStartFrame ∧ 0 ≤ x ∧
          x < (views k).getXForFrame (toLong startFrame) - 1) ∨
        (toLong startFrame ≤ (views k).getStartFrame ∧
          (views k).getXForFrame (toLong endFrame) < x ∧ x < (views k).width)) →
      ∃ c1, mapFind (invalidateRange views startFrame endFrame caches) k = some c1 ∧
        c1.validArea.hasColumn x := by
  intro caches
  induction caches with
  | nil => intro c h; simp [mapFind] at h
  | cons p rest ih =>
    obtain ⟨k0, c0⟩ := p
    intro c hfind hcol hrows hkeep
    by_cases hk : k = k0
    · subst hk
      rw [mapFind_cons_self] at hfind
      cases hfind
      obtain ⟨y, hy1, hy2, hy3, hy4⟩ := hrows
      simp only [QRect.y, QRect.height] at hy1 hy2
      unfold invalidateRange
      simp only
      split_ifs with h1 h2 h3 h4 h5
      · exact ⟨_, mapFind_cons_self _ _ _, hcol⟩
      · refine ⟨_, mapFind_cons_self _ _ _, ?_⟩
        rcases hkeep with hk1 | hk1
        · apply intersected_hasColumn _ _ _ hcol
          · simp only [QRect.hasColumn, QRect.ofSize, QRect.x, QRect.width]; omega
          · omega
          · simp only [QRect.ofSize]; omega
          · simp only [QRect.ofSize]; omega
          · simp only [QRect.ofSize]; omega
        · omega
      · rcases hkeep with hk1 | hk1
        · omega
        · omega
      · exact ⟨_, mapFind_cons_self _ _ _, hcol⟩
      · refine ⟨_, mapFind_cons_self _ _ _, ?_⟩
        rcases hkeep with hk1 | hk1
        · omega
        · apply intersected_hasColumn _ _ _ hcol
          · simp only [QRect.hasColumn, QRect.ofSize, QRect.x, QRect.width]; omega
          · omega
          · simp only [QRect.ofSize]; omega
          · simp only [QRect.ofSize]; omega
          · simp only [QRect.ofSize]; omega
      · rcases hkeep with hk1 | hk1
        · omega
        · omega
    · rw [mapFind_cons_ne k k0 c0 rest hk] at hfind
      unfold invalidateRange
      simp only
      split_ifs
      · exact ⟨c, by rw [mapFind_cons_ne k k0 c0 rest hk]; exact hfind, hcol⟩
      · rw [mapFind_cons_ne k k0 _ _ hk]; exact ih c hfind hcol hrows hkeep
      · rw [mapFind_cons_ne k k0 _ _ hk]; exact ih c hfind hcol hrows hkeep
      · exact ⟨c, by rw [mapFind_cons_ne k k0 c0 rest hk]; exact hfind, hcol⟩
      · rw [mapFind_cons_ne k k0 _ _ hk]; exact ih c hfind hcol hrows hkeep
      · rw [mapFind_cons_ne k k0 _ _ hk]; exact ih c hfind hcol hrows hkeep

/-- Counterexample to C6 as stated: in the wide view (64 frames per column,
all 256 columns valid), `invalidateImageCaches(4096, 8192)` drops column 63,
which shows frames 4032 to 4095 only, and column 200, which shows frames
12800 to 12863 only. -/
theorem invalidate_range_drops_outside_columns :
    ImageCache.wide.validArea.hasColumn 63 ∧
    View.wide.getFrameForX (63 + 1) - 1 < 4096 ∧
    ImageCache.wide.validArea.hasColumn 200 ∧
    8192 ≤ View.wide.getFrameForX 200 ∧
    ∃ c, mapFind (invalidateImageCachesIn (fun _ => View.wide) Layer.wide 4096
        8192).m_imageCaches 1 = some c ∧
      ¬ c.validArea.hasColumn 63 ∧ ¬ c.validArea.hasColumn 200 ∧
      c.validArea = QRect.ofSize 0 0 63 10 :=
  ⟨by decide, by decide, by decide, by decide, _, rfl, by decide, by decide, by decide⟩

/-- Claim C6, amended.  `invalidateImageCaches(startFrame, endFrame)` keeps,
in every cached view whose valid area has a row inside the view, each valid
column `x` with `0 <= x < X(startFrame) - 1` when `startFrame` is after the
view's start frame, and each valid column `x` with `X(endFrame) < x <
v.width()` when it is not (`X` being the view's `getXForFrame`). -/
theorem invalidate_range_keeps_columns (views : ViewId → View) (s : Layer)
    (startFrame endFrame : Nat) (k : ViewId) (c : ImageCache) (x : Int)
    (hfind : mapFind s.m_imageCaches k = some c)
    (hcol : c.validArea.hasColumn x)
    (hrows : ∃ y : Int, c.validArea.y ≤ y ∧ y < c.validArea.y + c.validArea.height ∧
      0 ≤ y ∧ y < (views k).height)
    (hkeep : (toLong startFrame > (views k).getStartFrame ∧ 0 ≤ x ∧
        x < (views k).getXForFrame (toLong startFrame) - 1) ∨
      (toLong startFrame ≤ (views k).getStartFrame ∧
        (views k).getXForFrame (toLong endFrame) < x ∧ x < (views k).width)) :
    ∃ c1, mapFind (invalidateImageCachesIn views s startFrame endFrame).m_imageCaches k =
        some c1 ∧
      c1.validArea.hasColumn x :=
  invalidateRange_keeps views startFrame endFrame k x s.m_imageCaches c hfind hcol hrows hkeep

/-- Witness of the amended C6: in the wide view, column 62 (frames 3968 to
4031) stays valid through `invalidateImageCaches(4096, 8192)`. -/
theorem invalidate_range_keeps_columns_witness :
    ∃ c1, mapFind (invalidateImageCachesIn (fun _ => View.wide) Layer.wide 4096
        8192).m_imageCaches 1 = some c1 ∧
      c1.validArea.hasColumn 62 :=
  invalidate_range_keeps_columns (fun _ => View.wide) Layer.wide 4096 8192 1
    ImageCache.wide 62 rfl (by decide) ⟨0, by decide, by decide, by decide, by decide⟩
    (Or.inl ⟨by decide, by decide, by decide⟩)

theorem invalidateImageCaches_null (s : Layer) :
    ∀ p ∈ (invalidateImageCaches s).m_imageCaches, p.2.validArea = QRect.null := by
  intro p hp
  simp only [invalidateImageCaches, List.mem_map] at hp
  obtain ⟨q, -, rfl⟩ := hp
  rfl

theorem invalidateMagnitudes_unset (s : Layer) :
    (invalidateMagnitudes s).m_viewMags = [] ∧
    ∀ r ∈ (invalidateMagnitudes s).m_columnMags, r = MagnitudeRange.unset := by
  refine ⟨rfl, ?_⟩
  intro r hr
  simp only [invalidateMagnitudes, List.mem_map] at hr
  obtain ⟨q, -, rfl⟩ := hr
  rfl

/-- Claim C7.  Every configuration setter, called with a value different
from the current one, leaves every image cache entry of every view with an
empty (null) valid area. -/
theorem setters_clear_valid_areas (cm : ColourMapper) (s : Layer) :
    (∀ ch, s.m_channel ≠ ch →
      ∀ p ∈ (setChannel s ch).m_imageCaches, p.2.validArea = QRect.null) ∧
    (∀ ws, s.m_windowSize ≠ ws →
      ∀ p ∈ (setWindowSize s ws).m_imageCaches, p.2.validArea = QRect.null) ∧
    (∀ hop, s.m_windowHopLevel ≠ hop →
      ∀ p ∈ (setWindowHopLevel s hop).m_imageCaches, p.2.validArea = QRect.null) ∧
    (∀ z, s.m_zeroPadLevel ≠ z →
      ∀ p ∈ (setZeroPadLevel s z).m_imageCaches, p.2.validArea = QRect.null) ∧
    (∀ w, s.m_windowType ≠ w →
      ∀ p ∈ (setWindowType s w).m_imageCaches, p.2.validArea = QRect.null) ∧
    (∀ gain, s.m_gain ≠ gain →
      ∀ p ∈ (setGain s gain).m_imageCaches, p.2.validArea = QRect.null) ∧
    (∀ threshold, s.m_threshold ≠ threshold →
      ∀ p ∈ (setThreshold s threshold).m_imageCaches, p.2.validArea = QRect.null) ∧
    (∀ mf, s.m_minFrequency ≠ mf →
      ∀ p ∈ (setMinFrequency s mf).m_imageCaches, p.2.validArea = QRect.null) ∧
    (∀ mf, s.m_maxFrequency ≠ mf →
      ∀ p ∈ (setMaxFrequency s mf).m_imageCaches, p.2.validArea = QRect.null) ∧
    (∀ cs, s.m_colourScale ≠ cs →
      ∀ p ∈ (setColourScale s cs).m_imageCaches, p.2.validArea = QRect.null) ∧
    (∀ map, s.m_colourMap ≠ map →
      ∀ p ∈ (setColourMap cm s map).m_imageCaches, p.2.validArea = QRect.null) ∧
    (∀ fs, s.m_frequencyScale ≠ fs →
      ∀ p ∈ (setFrequencyScale s fs).m_imageCaches, p.2.validArea = QRect.null) ∧
    (∀ bd, s.m_binDisplay ≠ bd →
      ∀ p ∈ (setBinDisplay s bd).m_imageCaches, p.2.validArea = QRect.null) ∧
    (∀ n, s.m_normalizeColumns ≠ n →
      ∀ p ∈ (setNormalizeColumns s n).m_imageCaches, p.2.validArea = QRect.null) ∧
    (∀ n, s.m_normalizeVisibleArea ≠ n →
      ∀ p ∈ (setNormalizeVisibleArea s n).m_imageCaches, p.2.validArea = QRect.null) := by
  refine ⟨?_, ?_, ?_, ?_, ?_, ?_, ?_, ?_, ?_, ?_, ?_, ?_, ?_, ?_, ?_⟩
  · intro a h; unfold setChannel; rw [if_neg h]; exact invalidateImageCaches_null s
  · intro a h; unfold setWindowSize; rw [if_neg h]; exact invalidateImageCaches_null s
  · intro a h; unfold setWindowHopLevel; rw [if_neg h]; exact invalidateImageCaches_null s
  · intro a h; unfold setZeroPadLevel; rw [if_neg h]; exact invalidateImageCaches_null s
  · intro a h; unfold setWindowType; rw [if_neg h]; exact invalidateImageCaches_null s
  · intro a h; unfold setGain; rw [if_neg h]; exact invalidateImageCaches_null s
  · intro a h; unfold setThreshold; rw [if_neg h]; exact invalidateImageCaches_null s
  · intro a h; unfold setMinFrequency; rw [if_neg h]; exact invalidateImageCaches_null s
  · intro a h; unfold setMaxFrequency; rw [if_neg h]; exact invalidateImageCaches_null s
  · intro a h; unfold setColourScale; rw [if_neg h]; exact invalidateImageCaches_null s
  · intro a h; unfold setColourMap; rw [if_neg h]; exact invalidateImageCaches_null s
  · intro a h; unfold setFrequencyScale; rw [if_neg h]; exact invalidateImageCaches_null s
  · intro a h; unfold setBinDisplay; rw [if_neg h]; exact invalidateImageCaches_null s
  · intro a h; unfold setNormalizeColumns; rw [if_neg h]; exact invalidateImageCaches_null s
  · intro a h; unfold setNormalizeVisibleArea; rw [if_neg h]
    exact invalidateImageCaches_null s

/-- Witness of C7: each setter called on the busy layer (whose view 1 has a
valid cache) with a new value. -/
theorem setters_clear_valid_areas_witness :
    (∀ p ∈ (setChannel Layer.busy 1).m_imageCaches, p.2.validArea = QRect.null) ∧
    (∀ p ∈ (setWindowSize Layer.busy 2048).m_imageCaches, p.2.validArea = QRect.null) ∧
    (∀ p ∈ (setWindowHopLevel Layer.busy 3).m_imageCaches, p.2.validArea = QRect.null) ∧
    (∀ p ∈ (setZeroPadLevel Layer.busy 1).m_imageCaches, p.2.validArea = QRect.null) ∧
    (∀ p ∈ (setWindowType Layer.busy 1).m_imageCaches, p.2.validArea = QRect.null) ∧
    (∀ p ∈ (setGain Layer.busy 2).m_imageCaches, p.2.validArea = QRect.null) ∧
    (∀ p ∈ (setThreshold Layer.busy 1).m_imageCaches, p.2.validArea = QRect.null) ∧
    (∀ p ∈ (setMinFrequency Layer.busy 40).m_imageCaches, p.2.validArea = QRect.null) ∧
    (∀ p ∈ (setMaxFrequency Layer.busy 1500).m_imageCaches, p.2.validArea = QRect.null) ∧
    (∀ p ∈ (setColourScale Layer.busy ColourScale.LinearColourScale).m_imageCaches,
      p.2.validArea = QRect.null) ∧
    (∀ p ∈ (setColourMap ColourMapper.sample Layer.busy 1).m_imageCaches,
      p.2.validArea = QRect.null) ∧
    (∀ p ∈ (setFrequencyScale Layer.busy FrequencyScale.LogFrequencyScale).m_imageCaches,
      p.2.validArea = QRect.null) ∧
    (∀ p ∈ (setBinDisplay Layer.busy BinDisplay.PeakBins).m_imageCaches,
      p.2.validArea = QRect.null) ∧
    (∀ p ∈ (setNormalizeColumns Layer.busy true).m_imageCaches,
      p.2.validArea = QRect.null) ∧
    (∀ p ∈ (setNormalizeVisibleArea Layer.busy true).m_imageCaches,
      p.2.validArea = QRect.null) :=
  ⟨(setters_clear_valid_areas ColourMapper.sample Layer.busy).1 1 (by decide),
   (setters_clear_valid_areas ColourMapper.sample Layer.busy).2.1 2048 (by decide),
   (setters_clear_valid_areas ColourMapper.sample Layer.busy).2.2.1 3 (by decide),
   (setters_clear_valid_areas ColourMapper.sample Layer.busy).2.2.2.1 1 (by decide),
   (setters_clear_valid_areas ColourMapper.sample Layer.busy).2.2.2.2.1 1 (by decide),
   (setters_clear_valid_areas ColourMapper.sample Layer.busy).2.2.2.2.2.1 2 (by decide),
   (setters_clear_valid_areas ColourMapper.sample Layer.busy).2.2.2.2.2.2.1 1 (by decide),
   (setters_clear_valid_areas ColourMapper.sample Layer.busy).2.2.2.2.2.2.2.1 40 (by decide),
   (setters_clear_valid_areas ColourMapper.sample Layer.busy).2.2.2.2.2.2.2.2.1 1500
     (by decide),
   (setters_clear_valid_areas ColourMapper.sample Layer.busy).2.2.2.2.2.2.2.2.2.1
     ColourScale.LinearColourScale (by decide),
   (setters_clear_valid_areas ColourMapper.sample Layer.busy).2.2.2.2.2.2.2.2.2.2.1 1
     (by decide),
   (setters_clear_valid_areas ColourMapper.sample Layer.busy).2.2.2.2.2.2.2.2.2.2.2.1
     FrequencyScale.LogFrequencyScale (by decide),
   (setters_clear_valid_areas ColourMapper.sample Layer.busy).2.2.2.2.2.2.2.2.2.2.2.2.1
     BinDisplay.PeakBins (by decide),
   (setters_clear_valid_areas ColourMapper.sample Layer.busy).2.2.2.2.2.2.2.2.2.2.2.2.2.1
     true (by decide),
   (setters_clear_valid_areas ColourMapper.sample Layer.busy).2.2.2.2.2.2.2.2.2.2.2.2.2.2
     true (by decide)⟩

/-- Counterexample to C8 as stated: `setGain` with a new gain leaves the
peak cache of view 1 and the set magnitude ranges of the busy layer in
place. -/
theorem set_gain_keeps_derived_caches :
    Layer.busy.m_gain ≠ 2 ∧
    mapFind (setGain Layer.busy 2).m_peakCaches 1 =
      some (some ⟨⟨513, 196, 4096, 40, true⟩, 8⟩) ∧
    mapFind (setGain Layer.busy 2).m_viewMags 1 = some ⟨3, 9⟩ ∧
    (MagnitudeRange.mk 3 9).isSet = true ∧
    (setGain Layer.busy 2).m_columnMags = [⟨3, 9⟩, ⟨4, 8⟩] :=
  ⟨by decide, by decide, by decide, by decide, by decide⟩

/-- Claim C8, amended.  A change of a configuration parameter invalidates
the image caches and, of the transform-derived caches, those that depend on
the parameter: a new window size, hop level or zero-pad level also discards
every transform and peak cache; a new minimum or maximum frequency,
normalize-columns or normalize-visible-area setting also unsets every
per-view and per-column magnitude range; a new gain, threshold, colour
scale, frequency scale or bin-display mode leaves the peak caches and the
magnitude ranges as they are. -/
theorem setters_invalidate_dependent_caches (s : Layer) :
    (∀ ws, s.m_windowSize ≠ ws →
      (∀ p ∈ (setWindowSize s ws).m_imageCaches, p.2.validArea = QRect.null) ∧
      (setWindowSize s ws).m_fftModels = [] ∧ (setWindowSize s ws).m_peakCaches = []) ∧
    (∀ hop, s.m_windowHopLevel ≠ hop →
      (∀ p ∈ (setWindowHopLevel s hop).m_imageCaches, p.2.validArea = QRect.null) ∧
      (setWindowHopLevel s hop).m_fftModels = [] ∧
      (setWindowHopLevel s hop).m_peakCaches = []) ∧
    (∀ z, s.m_zeroPadLevel ≠ z →
      (∀ p ∈ (setZeroPadLevel s z).m_imageCaches, p.2.validArea = QRect.null) ∧
      (setZeroPadLevel s z).m_fftModels = [] ∧ (setZeroPadLevel s z).m_peakCaches = []) ∧
    (∀ mf, s.m_minFrequency ≠ mf →
      (∀ p ∈ (setMinFrequency s mf).m_imageCaches, p.2.validArea = QRect.null) ∧
      (setMinFrequency s mf).m_viewMags = [] ∧
      ∀ r ∈ (setMinFrequency s mf).m_columnMags, r = MagnitudeRange.unset) ∧
    (∀ mf, s.m_maxFrequency ≠ mf →
      (∀ p ∈ (setMaxFrequency s mf).m_imageCaches, p.2.validArea = QRect.null) ∧
      (setMaxFrequency s mf).m_viewMags = [] ∧
      ∀ r ∈ (setMaxFrequency s mf).m_columnMags, r = MagnitudeRange.unset) ∧
    (∀ n, s.m_normalizeColumns ≠ n →
      (∀ p ∈ (setNormalizeColumns s n).m_imageCaches, p.2.validArea = QRect.null) ∧
      (setNormalizeColumns s n).m_viewMags = [] ∧
      ∀ r ∈ (setNormalizeColumns s n).m_columnMags, r = MagnitudeRange.unset) ∧
    (∀ n, s.m_normalizeVisibleArea ≠ n →
      (∀ p ∈ (setNormalizeVisibleArea s n).m_imageCaches, p.2.validArea = QRect.null) ∧
      (setNormalizeVisibleArea s n).m_viewMags = [] ∧
      ∀ r ∈ (setNormalizeVisibleArea s n).m_columnMags, r = MagnitudeRange.unset) ∧
    (∀ gain, s.m_gain ≠ gain →
      (∀ p ∈ (setGain s gain).m_imageCaches, p.2.validArea = QRect.null) ∧
      (setGain s gain).m_peakCaches = s.m_peakCaches ∧
      (setGain s gain).m_viewMags = s.m_viewMags ∧
      (setGain s gain).m_columnMags = s.m_columnMags) ∧
    (∀ threshold, s.m_threshold ≠ threshold →
      (∀ p ∈ (setThreshold s threshold).m_imageCaches, p.2.validArea = QRect.null) ∧
      (setThreshold s threshold).m_peakCaches = s.m_peakCaches ∧
      (setThreshold s threshold).m_viewMags = s.m_viewMags ∧
      (setThreshold s threshold).m_columnMags = s.m_columnMags) ∧
    (∀ cs, s.m_colourScale ≠ cs →
      (∀ p ∈ (setColourScale s cs).m_imageCaches, p.2.validArea = QRect.null) ∧
      (setColourScale s cs).m_peakCaches = s.m_peakCaches ∧
      (setColourScale s cs).m_viewMags = s.m_viewMags ∧
      (setColourScale s cs).m_columnMags = s.m_columnMags) ∧
    (∀ fs, s.m_frequencyScale ≠ fs →
      (∀ p ∈ (setFrequencyScale s fs).m_imageCaches, p.2.validArea = QRect.null) ∧
      (setFrequencyScale s fs).m_peakCaches = s.m_peakCaches ∧
      (setFrequencyScale s fs).m_viewMags = s.m_viewMags ∧
      (setFrequencyScale s fs).m_columnMags = s.m_columnMags) ∧
    (∀ bd, s.m_binDisplay ≠ bd →
      (∀ p ∈ (setBinDisplay s bd).m_imageCaches, p.2.validArea = QRect.null) ∧
      (setBinDisplay s bd).m_peakCaches = s.m_peakCaches ∧
      (setBinDisplay s bd).m_viewMags = s.m_viewMags ∧
      (setBinDisplay s bd).m_columnMags = s.m_columnMags) := by
  refine ⟨?_, ?_, ?_, ?_, ?_, ?_, ?_, ?_, ?_, ?_, ?_, ?_⟩
  · intro a h; unfold setWindowSize; rw [if_neg h]
    exact ⟨invalidateImageCaches_null s, rfl, rfl⟩
  · intro a h; unfold setWindowHopLevel; rw [if_neg h]
    exact ⟨invalidateImageCaches_null s, rfl, rfl⟩
  · intro a h; unfold setZeroPadLevel; rw [if_neg h]
    exact ⟨invalidateImageCaches_null s, rfl, rfl⟩
  · intro a h; unfold setMinFrequency; rw [if_neg h]
    exact ⟨invalidateImageCaches_null s, rfl, (invalidateMagnitudes_unset _).2⟩
  · intro a h; unfold setMaxFrequency; rw [if_neg h]
    exact ⟨invalidateImageCaches_null s, rfl, (invalidateMagnitudes_unset _).2⟩
  · intro a h; unfold setNormalizeColumns; rw [if_neg h]
    exact ⟨invalidateImageCaches_null s, rfl, (invalidateMagnitudes_unset _).2⟩
  · intro a h; unfold setNormalizeVisibleArea; rw [if_neg h]
    exact ⟨invalidateImageCaches_null s, rfl, (invalidateMagnitudes_unset _).2⟩
  · intro a h; unfold setGain; rw [if_neg h]
    exact ⟨invalidateImageCaches_null s, rfl, rfl, rfl⟩
  · intro a h; unfold setThreshold; rw [if_neg h]
    exact ⟨invalidateImageCaches_null s, rfl, rfl, rfl⟩
  · intro a h; unfold setColourScale; rw [if_neg h]
    exact ⟨invalidateImageCaches_null s, rfl, rfl, rfl⟩
  · intro a h; unfold setFrequencyScale; rw [if_neg h]
    exact ⟨invalidateImageCaches_null s, rfl, rfl, rfl⟩
  · intro a h; unfold setBinDisplay; rw [if_neg h]
    exact ⟨invalidateImageCaches_null s, rfl, rfl, rfl⟩

/-- Witness of the amended C8: each of the twelve setters called on the busy
layer with a new value. -/
theorem setters_invalidate_dependent_caches_witness :
    (setWindowSize Layer.busy 2048).m_peakCaches = [] ∧
    (setWindowHopLevel Layer.busy 3).m_peakCaches = [] ∧
    (setZeroPadLevel Layer.busy 1).m_peakCaches = [] ∧
    (setMinFrequency Layer.busy 40).m_viewMags = [] ∧
    (setMaxFrequency Layer.busy 1500).m_viewMags = [] ∧
    (setNormalizeColumns Layer.busy true).m_viewMags = [] ∧
    (setNormalizeVisibleArea Layer.busy true).m_viewMags = [] ∧
    (setGain Layer.busy 2).m_peakCaches = Layer.busy.m_peakCaches ∧
    (setThreshold Layer.busy 1).m_peakCaches = Layer.busy.m_peakCaches ∧
    (setColourScale Layer.busy ColourScale.LinearColourScale).m_peakCaches =
      Layer.busy.m_peakCaches ∧
    (setFrequencyScale Layer.busy FrequencyScale.LogFrequencyScale).m_peakCaches =
      Layer.busy.m_peakCaches ∧
    (setBinDisplay Layer.busy BinDisplay.PeakBins).m_peakCaches =
      Layer.busy.m_peakCaches :=
  ⟨((setters_invalidate_dependent_caches Layer.busy).1 2048 (by decide)).2.2,
   ((setters_invalidate_dependent_caches Layer.busy).2.1 3 (by decide)).2.2,
   ((setters_invalidate_dependent_caches Layer.busy).2.2.1 1 (by decide)).2.2,
   ((setters_invalidate_dependent_caches Layer.busy).2.2.2.1 40 (by decide)).2.1,
   ((setters_invalidate_dependent_caches Layer.busy).2.2.2.2.1 1500 (by decide)).2.1,
   ((setters_invalidate_dependent_caches Layer.busy).2.2.2.2.2.1 true (by decide)).2.1,
   ((setters_invalidate_dependent_caches Layer.busy).2.2.2.2.2.2.1 true (by decide)).2.1,
   ((setters_invalidate_dependent_caches Layer.busy).2.2.2.2.2.2.2.1 2 (by decide)).2.1,
   ((setters_invalidate_dependent_caches Layer.busy).2.2.2.2.2.2.2.2.1 1 (by decide)).2.1,
   ((setters_invalidate_dependent_caches Layer.busy).2.2.2.2.2.2.2.2.2.1
     ColourScale.LinearColourScale (by decide)).2.1,
   ((setters_invalidate_dependent_caches Layer.busy).2.2.2.2.2.2.2.2.2.2.1
     FrequencyScale.LogFrequencyScale (by decide)).2.1,
   ((setters_invalidate_dependent_caches Layer.busy).2.2.2.2.2.2.2.2.2.2.2
     BinDisplay.PeakBins (by decide)).2.1⟩

theorem updateViewMagnitudes_congr (increment : Nat) (m : Model) (s t : Layer)
    (vid : ViewId) (v : View)
    (h1 : t.m_columnMags = s.m_columnMags) (h2 : t.m_viewMags = s.m_viewMags)
    (h3 : t.m_normalizeVisibleArea = s.m_normalizeVisibleArea) :
    (updateViewMagnitudes increment m t vid v).1 =
        (updateViewMagnitudes increment m s vid v).1 ∧
      (updateViewMagnitudes increment m t vid v).2.m_normalizeVisibleArea =
        s.m_normalizeVisibleArea := by
  unfold updateViewMagnitudes
  simp only [h1, h2]
  split_ifs <;> exact ⟨rfl, h3⟩

theorem reconcileCache_good_cases (v : View) (startFrame : Int) (rect : QRect)
    (cache : ImageCache)
    (h : reconcileCache v startFrame rect cache = Reconciled.cacheGood) :
    cache.validArea.width > 0 ∧ (cache.zoomLevel : Int) = v.getZoomLevel ∧
      cache.image.width = v.width ∧ cache.image.height = v.height ∧
      v.getXForFrame cache.startFrame = v.getXForFrame startFrame ∧
      cache.validArea.x ≤ rect.left ∧
      rect.right ≤ cache.validArea.x + cache.validArea.width - 1 := by
  unfold reconcileCache at h
  simp only at h
  split_ifs at h with h1 h2 h3
  obtain ⟨a, b, c⟩ := h2
  obtain ⟨d, e, f⟩ := h3
  exact ⟨h1, a, b, c, d, e, by omega⟩

/-- Counterexample to C9 as stated: with visible-area normalisation on and a
view magnitude range that `updateViewMagnitudes` would change, paint on an
exact-match cache returns from the cache; the valid area is kept and nothing
is recomputed. -/
theorem paint_exact_match_skips_magnitude_check :
    (updateViewMagnitudes (windowIncrement Env.sample Layer.normalised) Model.sample
      Layer.normalised 1 (View.ofGeometry 0 1 4 2)).1 = true ∧
    Layer.normalised.m_normalizeVisibleArea = true ∧
    ∃ p, paint Env.sample 8 Layer.normalised 1 (View.ofGeometry 0 1 4 2)
        (QRect.ofSize 1 0 2 2) = some p ∧
      mapFind p.layer.m_imageCaches 1 = some ImageCache.sample ∧
      ImageCache.sample.validArea = QRect.ofSize 0 0 4 2 ∧
      p.layer.m_viewMags = Layer.normalised.m_viewMags ∧
      p.updates = [] :=
  ⟨by decide, rfl, _, rfl, rfl, rfl, rfl, rfl⟩

theorem checkMagnitudes_changed (increment : Nat) (m : Model) (s : Layer)
    (vid : ViewId) (v : View) (cache : ImageCache) (x0 x1 : Int) (recreate : Bool)
    (hmag : (updateViewMagnitudes increment m s vid v).1 = true)
    (hnva : (updateViewMagnitudes increment m s vid v).2.m_normalizeVisibleArea = true) :
    (checkMagnitudes increment m s vid v cache x0 x1 recreate).cache.validArea = QRect.null ∧
    (checkMagnitudes increment m s vid v cache x0 x1 recreate).x0 = 0 ∧
    (checkMagnitudes increment m s vid v cache x0 x1 recreate).x1 = v.width ∧
    (checkMagnitudes increment m s vid v cache x0 x1 recreate).recreateWholeImageCache =
      true := by
  unfold checkMagnitudes
  simp only [hmag, hnva, Bool.and_self, if_true, and_self]

/-- Claim C9, amended.  If, when paint is called with a ready model, the
magnitude range aggregated over the view's columns differs from the stored
view range (`updateViewMagnitudes` would return true), normalize-visible-area
is enabled, and the cache entry is not an exact match for the requested rect
(a valid area, the zoom level and size of the view, the same pixel offset
and the rect's columns inside the valid area, on which paint returns from
the cache before it looks at the magnitudes), then paint discards the whole
valid area and goes on to recompute from the full viewport width, whether
the cache was shift-reusable or stale. -/
theorem paint_magnitude_change_invalidates (env : Env) (s : Layer) (vid : ViewId)
    (v : View) (rect : QRect) (m : Model) (cache : ImageCache)
    (hm : s.m_model = some m) (hok : m.isOK = true) (hready : m.isReady = true)
    (hc : (mapIndex ImageCache.empty s.m_imageCaches vid).1 = cache)
    (hmag : (updateViewMagnitudes (windowIncrement env s) m s vid v).1 = true)
    (hnva : s.m_normalizeVisibleArea = true)
    (hnot : ¬ (cache.validArea.width > 0 ∧ (cache.zoomLevel : Int) = v.getZoomLevel ∧
      cache.image.width = v.width ∧ cache.image.height = v.height ∧
      v.getXForFrame cache.startFrame = v.getXForFrame v.getStartFrame ∧
      cache.validArea.x ≤ rect.left ∧
      rect.right ≤ cache.validArea.x + cache.validArea.width - 1)) :
    ∃ r, paintHead env s vid v rect = Head.request m r ∧
      r.cache.validArea = QRect.null ∧ r.x0 = 0 ∧ r.x1 = v.width ∧
      r.recreateWholeImageCache = true := by
  unfold paintHead
  simp only [hm, hok, hready, Bool.not_true, Bool.or_self, Bool.false_eq_true, if_false]
  simp only [hc]
  cases hrec : reconcileCache v v.getStartFrame rect cache with
  | cacheGood => exact absurd (reconcileCache_good_cases v _ rect cache hrec) hnot
  | carryOn c x0 x1 recreate =>
    simp only
    refine ⟨_, rfl, ?_⟩
    have hcongr := updateViewMagnitudes_congr (windowIncrement env s) m s
      { s with m_candidateFillStartFrame :=
                 if v.getStartFrame < 0 then 0 else v.getStartFrame.toNat,
               m_model := some m,
               m_dormancy := mapSet s.m_dormancy vid false,
               m_imageCaches := (mapIndex ImageCache.empty s.m_imageCaches vid).2 }
      vid v rfl rfl rfl
    exact checkMagnitudes_changed _ m _ vid v c x0 x1 recreate
      (hcongr.1.trans hmag) (hcongr.2.trans hnva)

/-- Witness of the amended C9: the normalised layer asked for view 1
scrolled from frame 0 to frame 2 (a shift-reusable cache). -/
theorem paint_magnitude_change_invalidates_witness :
    ∃ r, paintHead Env.sample Layer.normalised 1 (View.ofGeometry 2 1 4 2)
        (QRect.ofSize 0 0 4 2) = Head.request Model.sample r ∧
      r.cache.validArea = QRect.null ∧ r.x0 = 0 ∧ r.x1 = 4 ∧
      r.recreateWholeImageCache = true :=
  paint_magnitude_change_invalidates Env.sample Layer.normalised 1
    (View.ofGeometry 2 1 4 2) (QRect.ofSize 0 0 4 2) Model.sample ImageCache.sample
    rfl rfl rfl rfl (by decide) rfl (by decide)

theorem shrinkBlockWidth_spec (env : Env) :
    ∀ (fuel : Nat) (t : RealTime) (w : Int), 0 < w → w ≤ 50 * 2 ^ fuel →
      ∃ t1 w1, shrinkBlockWidth env (fuel + 1) t w = some (t1, w1) ∧ 0 < w1 ∧ w1 ≤ w := by
  intro fuel
  induction fuel with
  | zero =>
    intro t w h0 h1
    have hs : ¬ (t > 200000000 ∧ w > 50) := by
      rintro ⟨-, h⟩
      simp at h1
      omega
    exact ⟨t, w, by simp only [shrinkBlockWidth, hs, if_false], h0, le_refl w⟩
  | succ n ih =>
    intro t w h0 h1
    by_cases hs : t > 200000000 ∧ w > 50
    · have hdiv : Int.tdiv w 2 = w / 2 := Int.tdiv_eq_ediv (by omega) (by decide)
      have h2 : 0 < Int.tdiv w 2 := by
        have := hs.2
        omega
      have h3 : Int.tdiv w 2 ≤ 50 * 2 ^ n := by
        have h4 : (50 : Int) * 2 ^ (n + 1) = 2 * (50 * 2 ^ n) := by ring
        rw [h4] at h1
        omega
      obtain ⟨t1, w1, he, hpos, hle⟩ := ih (env.half t) (Int.tdiv w 2) h2 h3
      refine ⟨t1, w1, ?_, hpos, ?_⟩
      · rw [shrinkBlockWidth, if_pos hs]
        exact he
      · omega
    · exact ⟨t, w, by rw [shrinkBlockWidth, if_neg hs], h0, le_refl w⟩

theorem growBlockWidth_spec (env : Env) :
    ∀ (fuel : Nat) (t : RealTime) (w : Int), 0 < w → 1500 ≤ w * 2 ^ fuel →
      ∃ w1, growBlockWidth env (fuel + 1) t w = some w1 ∧ w ≤ w1 ∧ w1 ≤ max w 2998 := by
  intro fuel
  induction fuel with
  | zero =>
    intro t w h0 h1
    have hs : ¬ (t < 90000000 ∧ w < 1500) := by
      rintro ⟨-, h⟩
      simp at h1
      omega
    exact ⟨w, by simp only [growBlockWidth, hs, if_false], le_refl w, le_max_left w 2998⟩
  | succ n ih =>
    intro t w h0 h1
    by_cases hs : t < 90000000 ∧ w < 1500
    · have h3 : 1500 ≤ (w * 2) * 2 ^ n := by
        have h4 : w * 2 ^ (n + 1) = (w * 2) * 2 ^ n := by ring
        rw [h4] at h1
        exact h1
      obtain ⟨w1, he, hlo, hhi⟩ := ih (env.twice t) (w * 2) (by omega) h3
      refine ⟨w1, ?_, by omega, ?_⟩
      · rw [growBlockWidth, if_pos hs]
        exact he
      · have := hs.2
        omega
    · exact ⟨w, by rw [growBlockWidth, if_neg hs], le_refl w, le_max_left w 2998⟩

/-- Counterexample to C10 as stated: in non-synchronous mode the first paint
(previous block width 0) at zoom level 1 chooses a block of 300000 pixels,
and a previous block of 1000 pixels painted in 10 ms is followed by one of
2000 pixels. -/
theorem paint_block_width_exceeds_1500 :
    choosePaintBlockWidth Env.sample false 0 0 1 0 100 = some 300000 ∧
    choosePaintBlockWidth Env.sample false 1000 10000000 1024 0 100 = some 2000 :=
  ⟨by decide, by decide⟩

/-- Claim C10, amended.  In non-synchronous mode paint chooses a block width
of at least 20 pixels, for every previous block width (any `int` from 0 up),
every previous paint time and every non-zero zoom level; the width is
`max(20, 300000 / zoomLevel)` when the previous width is 0, and at most
`max(previous width, 2998)` otherwise. -/
theorem paint_block_width_bounds (env : Env) (last : Int) (lastTime : RealTime)
    (zoomLevel x0 x1 : Int)
    (h0 : 0 ≤ last) (h1 : last < 2 ^ 31) (hz : zoomLevel ≠ 0) :
    ∃ w, choosePaintBlockWidth env false last lastTime zoomLevel x0 x1 = some w ∧
      20 ≤ w ∧
      (last = 0 → w = max 20 (Int.tdiv 300000 zoomLevel)) ∧
      (0 < last → w ≤ max last 2998) := by
  unfold choosePaintBlockWidth
  by_cases hl : last = 0
  · simp only [hl, hz, if_true, if_false, Bool.false_eq_true, Option.map_some']
    refine ⟨_, rfl, ?_, ?_, ?_⟩
    · split_ifs <;> omega
    · intro _
      split_ifs <;> omega
    · intro h; omega
  · have hpos : 0 < last := by omega
    obtain ⟨t1, w1, he1, hp1, hle1⟩ :=
      shrinkBlockWidth_spec env 63 lastTime last hpos (by norm_num; omega)
    have hbig : (1500 : Int) ≤ w1 * 2 ^ 63 := by
      have : (1 : Int) * 2 ^ 63 ≤ w1 * 2 ^ 63 :=
        mul_le_mul_of_nonneg_right (by omega) (by norm_num)
      norm_num at this ⊢
      omega
    obtain ⟨w2, he2, hlo2, hhi2⟩ := growBlockWidth_spec env 63 t1 w1 hp1 hbig
    simp only [hl, if_false, Bool.false_eq_true, he1, he2, Option.map_some']
    refine ⟨_, rfl, ?_, ?_, ?_⟩
    · split_ifs <;> omega
    · intro h; exact False.elim h
    · intro _
      split_ifs <;> omega

/-- Witness of the amended C10: a previous block of 1000 pixels painted in
10 ms at zoom level 1024. -/
theorem paint_block_width_bounds_witness :
    ∃ w, choosePaintBlockWidth Env.sample false 1000 10000000 1024 0 100 = some w ∧
      20 ≤ w ∧
      ((1000 : Int) = 0 → w = max 20 (Int.tdiv 300000 1024)) ∧
      ((0 : Int) < 1000 → w ≤ max 1000 2998) :=
  paint_block_width_bounds Env.sample 1000 10000000 1024 0 100 (by decide) (by decide)
    (by decide)

/-- Claim C11, the code at the failing input: in synchronous mode, with only
columns 1 and 2 of the 4-column view valid, paint asked for the whole view
(columns 0 to 3) recomputes the strip left of the valid area only and
returns with the valid area `[0, 3)`: the requested column 3 is not in it. -/
theorem paint_synchronous_leaves_column_stale :
    Layer.syncMiddle.m_synchronous = true ∧
    (QRect.ofSize 0 0 4 2).left ≤ 3 ∧ 3 ≤ (QRect.ofSize 0 0 4 2).right ∧
    choosePaintBlockWidth Env.sample true 0 0 1024 0 4 = some 4 ∧
    (selectSpan View.coarse 0 ImageCache.middle 0 4 4).2 = (0, 1) ∧
    ∃ p c, paint Env.sample 0 Layer.syncMiddle 1 View.coarse (QRect.ofSize 0 0 4 2) =
        some p ∧
      mapFind p.layer.m_imageCaches 1 = some c ∧
      c.validArea = QRect.ofSize 0 0 3 2 ∧ ¬ c.validArea.hasColumn 3 ∧
      p.updates = [] :=
  ⟨rfl, by decide, by decide, by decide, by decide, _, _, rfl, rfl, by decide, by decide,
    rfl⟩

/-- Claim C20.  Span selection grows the valid area outward without gaps:
when the cache has a non-empty valid column interval `[vx0, vx1)`, the
requested range is `[x0, x1)` with `x0 < x1` and the block width is at least
1, the span `[x0', x1')` chosen is either empty (the request is already
valid) or directly adjacent to the valid interval (`x1' = vx0` or
`x0' = vx1`), non-empty and of width at most the block width; the valid area
stored is exactly the one interval `[min(vx0, x0'), max(vx1, x1'))`, which
contains the old valid interval. -/
theorem span_selection_grows_outward (v : View) (startFrame : Int)
    (cache : ImageCache) (x0 x1 paintBlockWidth : Int)
    (hvalid : cache.validArea.width > 0) (hx : x0 < x1) (hp : 1 ≤ paintBlockWidth) :
    (((selectSpan v startFrame cache x0 x1 paintBlockWidth).2.1 =
          (selectSpan v startFrame cache x0 x1 paintBlockWidth).2.2 ∧
        cache.validArea.x ≤ x0 ∧ x1 ≤ cache.validArea.x + cache.validArea.width) ∨
      (((selectSpan v startFrame cache x0 x1 paintBlockWidth).2.2 = cache.validArea.x ∨
          (selectSpan v startFrame cache x0 x1 paintBlockWidth).2.1 =
            cache.validArea.x + cache.validArea.width) ∧
        (selectSpan v startFrame cache x0 x1 paintBlockWidth).2.1 <
          (selectSpan v startFrame cache x0 x1 paintBlockWidth).2.2 ∧
        (selectSpan v startFrame cache x0 x1 paintBlockWidth).2.2 -
          (selectSpan v startFrame cache x0 x1 paintBlockWidth).2.1 ≤ paintBlockWidth)) ∧
    (selectSpan v startFrame cache x0 x1 paintBlockWidth).1.validArea.x =
      min cache.validArea.x (selectSpan v startFrame cache x0 x1 paintBlockWidth).2.1 ∧
    (selectSpan v startFrame cache x0 x1 paintBlockWidth).1.validArea.x +
        (selectSpan v startFrame cache x0 x1 paintBlockWidth).1.validArea.width =
      max (cache.validArea.x + cache.validArea.width)
        (selectSpan v startFrame cache x0 x1 paintBlockWidth).2.2 ∧
    (∀ col : Int, cache.validArea.hasColumn col →
      (selectSpan v startFrame cache x0 x1 paintBlockWidth).1.validArea.hasColumn col) := by
  obtain ⟨⟨a1, b1, a2, b2⟩, image, sf, zl⟩ := cache
  simp only [QRect.width, QRect.x] at hvalid
  simp only [selectSpan, QRect.width, QRect.x, QRect.y, QRect.height, QRect.ofSize,
    QRect.hasColumn, hvalid, if_true]
  by_cases h1 : x0 < a1
  · simp only [h1, if_true]
    by_cases h2 : x0 + paintBlockWidth < a1
    · simp only [h2, if_true]
      refine ⟨?_, ?_, ?_, fun col hcol => ?_⟩ <;>
        first | trivial | omega | (simp only [true_or, or_true, true_and, and_true]; omega)
    · simp only [h2, if_false]
      refine ⟨?_, ?_, ?_, fun col hcol => ?_⟩ <;>
        first | trivial | omega | (simp only [true_or, or_true, true_and, and_true]; omega)
  · simp only [h1, if_false]
    by_cases h3 : x0 ≥ a1 + (a2 - a1 + 1)
    · simp only [h3, if_true]
      by_cases h4 : x1 > a1 + (a2 - a1 + 1) + paintBlockWidth
      · simp only [h4, if_true]
        refine ⟨?_, ?_, ?_, fun col hcol => ?_⟩ <;>
        first | trivial | omega | (simp only [true_or, or_true, true_and, and_true]; omega)
      · simp only [h4, if_false]
        refine ⟨?_, ?_, ?_, fun col hcol => ?_⟩ <;>
        first | trivial | omega | (simp only [true_or, or_true, true_and, and_true]; omega)
    · simp only [h3, if_false]
      by_cases h5 : x1 > a1 + (a2 - a1 + 1)
      · simp only [h5, if_true]
        by_cases h6 : a1 + (a2 - a1 + 1) + paintBlockWidth < x1
        · simp only [h6, if_true]
          refine ⟨?_, ?_, ?_, fun col hcol => ?_⟩ <;>
        first | trivial | omega | (simp only [true_or, or_true, true_and, and_true]; omega)
        · simp only [h6, if_false]
          refine ⟨?_, ?_, ?_, fun col hcol => ?_⟩ <;>
        first | trivial | omega | (simp only [true_or, or_true, true_and, and_true]; omega)
      · simp only [h5, if_false]
        refine ⟨?_, ?_, ?_, fun col hcol => ?_⟩ <;>
        first | trivial | omega | (simp only [true_or, or_true, true_and, and_true]; omega)

/-- Witness of C20: columns 1 and 2 valid, the range `[0, 4)` requested with
block width 20: the span is `[0, 1)` and the valid area becomes `[0, 3)`. -/
theorem span_selection_grows_outward_witness :
    (((selectSpan View.coarse 0 ImageCache.middle 0 4 20).2.1 =
          (selectSpan View.coarse 0 ImageCache.middle 0 4 20).2.2 ∧
        ImageCache.middle.validArea.x ≤ 0 ∧
        4 ≤ ImageCache.middle.validArea.x + ImageCache.middle.validArea.width) ∨
      (((selectSpan View.coarse 0 ImageCache.middle 0 4 20).2.2 =
            ImageCache.middle.validArea.x ∨
          (selectSpan View.coarse 0 ImageCache.middle 0 4 20).2.1 =
            ImageCache.middle.validArea.x + ImageCache.middle.validArea.width) ∧
        (selectSpan View.coarse 0 ImageCache.middle 0 4 20).2.1 <
          (selectSpan View.coarse 0 ImageCache.middle 0 4 20).2.2 ∧
        (selectSpan View.coarse 0 ImageCache.middle 0 4 20).2.2 -
          (selectSpan View.coarse 0 ImageCache.middle 0 4 20).2.1 ≤ 20)) ∧
    (selectSpan View.coarse 0 ImageCache.middle 0 4 20).1.validArea.x =
      min ImageCache.middle.validArea.x
        (selectSpan View.coarse 0 ImageCache.middle 0 4 20).2.1 ∧
    (selectSpan View.coarse 0 ImageCache.middle 0 4 20).1.validArea.x +
        (selectSpan View.coarse 0 ImageCache.middle 0 4 20).1.validArea.width =
      max (ImageCache.middle.validArea.x + ImageCache.middle.validArea.width)
        (selectSpan View.coarse 0 ImageCache.middle 0 4 20).2.2 ∧
    (∀ col : Int, ImageCache.middle.validArea.hasColumn col →
      (selectSpan View.coarse 0 ImageCache.middle 0 4 20).1.validArea.hasColumn col) :=
  span_selection_grows_outward View.coarse 0 ImageCache.middle 0 4 20 (by decide)
    (by decide) (by decide)

theorem mapFind_mapSet_self {α : Type} (a : α) (k : ViewId) :
    ∀ m : ViewMap α, mapFind (mapSet m k a) k = some a := by
  intro m
  induction m with
  | nil => simp [mapSet, mapFind, List.lookup]
  | cons p rest ih =>
    obtain ⟨k0, b⟩ := p
    unfold mapSet
    split_ifs with h1 h2
    · exact mapFind_cons_self _ _ _
    · exact mapFind_cons_self _ _ _
    · rw [mapFind_cons_ne k k0 b _ h2]
      exact ih

theorem paintTail_validArea (env : Env) (fuel : Nat) (m : Model) (r : Request)
    (vid : ViewId) (v : View) (rect : QRect) (p : Painted)
    (h : paintTail env fuel m r vid v rect = some p) :
    ∃ paintBlockWidth c,
      choosePaintBlockWidth env r.layer.m_synchronous r.layer.m_lastPaintBlockWidth
        r.layer.m_lastPaintTime v.getZoomLevel r.x0 r.x1 = some paintBlockWidth ∧
      mapFind p.layer.m_imageCaches vid = some c ∧
      (c.validArea =
          (selectSpan v v.getStartFrame r.cache r.x0 r.x1 paintBlockWidth).1.validArea ∨
        (c.validArea = QRect.null ∧ r.layer.m_synchronous = false ∧
          r.layer.m_normalizeVisibleArea = true)) := by
  unfold paintTail at h
  simp only at h
  split at h
  · exact absurd h (by simp)
  · rename_i pbw hpbw
    split at h
    · exact absurd h (by simp)
    · rename_i a b c d hb
      generalize env.compose _ _ _ _ _ _ _ _ = comp at h
      simp only [Option.some.injEq] at h
      subst h
      refine ⟨pbw, ?_⟩
      refine Exists.imp (fun c hc => ⟨hpbw, hc⟩) ?_
      cases hsync : r.layer.m_synchronous <;> cases hnva : r.layer.m_normalizeVisibleArea <;>
        cases hch : comp.overallMagChanged <;>
        simp only [Bool.not_true, Bool.not_false, Bool.and_true, Bool.and_false,
          Bool.false_and, Bool.true_and, Bool.false_eq_true, if_false, if_true] <;>
        first
        | exact ⟨_, mapFind_mapSet_self _ _ _, Or.inl rfl⟩
        | exact ⟨_, mapFind_mapSet_self _ _ _,
            Or.inr ⟨rfl, by first | rfl | trivial, by first | rfl | trivial⟩⟩
theorem mapIndex_fst_cases {α : Type} (dflt : α) (m : ViewMap α) (v : ViewId) :
    mapFind m v = some (mapIndex dflt m v).1 ∨ (mapIndex dflt m v).1 = dflt := by
  unfold mapIndex
  cases h : mapFind m v with
  | none => exact Or.inr rfl
  | some a => exact Or.inl rfl

theorem paintHead_request (env : Env) (s : Layer) (vid : ViewId) (v : View)
    (rect : QRect) (m : Model) (r : Request)
    (h : paintHead env s vid v rect = Head.request m r) :
    ∃ c x0 x1 rc increment layer,
      reconcileCache v v.getStartFrame rect
          (mapIndex ImageCache.empty s.m_imageCaches vid).1 =
        Reconciled.carryOn c x0 x1 rc ∧
      r = checkMagnitudes increment m layer vid v c x0 x1 rc := by
  unfold paintHead at h
  cases hm : s.m_model with
  | none => simp [hm] at h
  | some m0 =>
    simp only [hm] at h
    by_cases hbad : (!m0.isOK || !m0.isReady) = true
    · simp [hbad] at h
    · simp only [hbad, Bool.false_eq_true, if_false] at h
      cases hrec : reconcileCache v v.getStartFrame rect
          (mapIndex ImageCache.empty s.m_imageCaches vid).1 with
      | cacheGood => simp [hrec] at h
      | carryOn c x0 x1 rc =>
        simp only [hrec, Head.request.injEq] at h
        obtain ⟨rfl, h2⟩ := h
        exact ⟨c, x0, x1, rc, _, _, rfl, h2.symm⟩

theorem reconcileCache_within (v : View) (startFrame : Int) (rect : QRect)
    (cache c : ImageCache) (x0 x1 : Int) (rc : Bool)
    (hrect : 0 ≤ rect.left ∧ rect.right < v.width)
    (hcache : ∀ col : Int, cache.validArea.hasColumn col → 0 ≤ col ∧ col < v.width)
    (h : reconcileCache v startFrame rect cache = Reconciled.carryOn c x0 x1 rc) :
    (∀ col : Int, c.validArea.hasColumn col → 0 ≤ col ∧ col < v.width) ∧
      (rc = false → 0 ≤ x0 ∧ x1 ≤ v.width) := by
  unfold reconcileCache at h
  simp only at h
  have hnull : ∀ col : Int, QRect.null.hasColumn col → 0 ≤ col ∧ col < v.width := by
    intro col hcol
    simp only [QRect.hasColumn, QRect.null, QRect.x, QRect.width] at hcol
    omega
  split_ifs at h with h1 h2 h3 h4 h5
  · simp only [Reconciled.carryOn.injEq] at h
    obtain ⟨rfl, rfl, rfl, rfl⟩ := h
    obtain ⟨-, hw, -⟩ := h2
    generalize v.getXForFrame cache.startFrame - v.getXForFrame startFrame = dx at *
    have hp0 := hcache cache.validArea.x (by unfold QRect.hasColumn; omega)
    have hp1 := hcache (cache.validArea.x + cache.validArea.width - 1)
      (by unfold QRect.hasColumn; omega)
    obtain ⟨⟨a1, b1, a2, b2⟩, image, sf, zl⟩ := cache
    simp only [QRect.width, QRect.x] at h1 hp0 hp1 hw h4
    simp only [shiftValidArea, QRect.hasColumn, QRect.x, QRect.y, QRect.width,
      QRect.height, QRect.ofSize]
    refine ⟨?_, ?_⟩
    · intro col hcol
      split_ifs at hcol <;> simp only at hcol <;> omega
    · intro _
      split_ifs <;> simp only <;> omega
  · simp only [Reconciled.carryOn.injEq] at h
    obtain ⟨rfl, rfl, rfl, rfl⟩ := h
    exact ⟨hnull, fun hf => absurd hf (by simp)⟩
  · simp only [Reconciled.carryOn.injEq] at h
    obtain ⟨rfl, rfl, rfl, rfl⟩ := h
    refine ⟨hcache, fun _ => ?_⟩
    simp only [QRect.left, QRect.right] at hrect ⊢
    omega
  · simp only [Reconciled.carryOn.injEq] at h
    obtain ⟨rfl, rfl, rfl, rfl⟩ := h
    exact ⟨hnull, fun hf => absurd hf (by simp)⟩
  · simp only [Reconciled.carryOn.injEq] at h
    obtain ⟨rfl, rfl, rfl, rfl⟩ := h
    exact ⟨hcache, fun hf => absurd hf (by simp)⟩

theorem checkMagnitudes_within (increment : Nat) (m : Model) (s : Layer) (vid : ViewId)
    (v : View) (c : ImageCache) (x0 x1 : Int) (rc : Bool)
    (hc : ∀ col : Int, c.validArea.hasColumn col → 0 ≤ col ∧ col < v.width)
    (hx : rc = false → 0 ≤ x0 ∧ x1 ≤ v.width) :
    (∀ col : Int, (checkMagnitudes increment m s vid v c x0 x1 rc).cache.validArea.hasColumn
        col → 0 ≤ col ∧ col < v.width) ∧
      0 ≤ (checkMagnitudes increment m s vid v c x0 x1 rc).x0 ∧
      (checkMagnitudes increment m s vid v c x0 x1 rc).x1 ≤ v.width := by
  unfold checkMagnitudes
  simp only
  cases hclear : ((updateViewMagnitudes increment m s vid v).1 &&
      (updateViewMagnitudes increment m s vid v).2.m_normalizeVisibleArea)
  · cases rc
    · simp only [Bool.false_eq_true, if_false]
      exact ⟨hc, (hx rfl).1, (hx rfl).2⟩
    · simp only [Bool.false_eq_true, if_false, if_true]
      exact ⟨hc, le_refl 0, le_refl _⟩
  · simp only [if_true]
    refine ⟨?_, le_refl 0, le_refl _⟩
    intro col hcol
    simp only [QRect.hasColumn, QRect.null, QRect.x, QRect.width] at hcol
    omega

theorem selectSpan_within (v : View) (startFrame : Int) (cache : ImageCache)
    (x0 x1 paintBlockWidth : Int) (h0 : 0 ≤ x0) (h1 : x1 ≤ v.width)
    (hc : ∀ col : Int, cache.validArea.hasColumn col → 0 ≤ col ∧ col < v.width) :
    (∀ col : Int, (selectSpan v startFrame cache x0 x1 paintBlockWidth).2.1 ≤ col →
        col < (selectSpan v startFrame cache x0 x1 paintBlockWidth).2.2 →
        0 ≤ col ∧ col < v.width) ∧
      (∀ col : Int,
        (selectSpan v startFrame cache x0 x1 paintBlockWidth).1.validArea.hasColumn col →
        0 ≤ col ∧ col < v.width) := by
  by_cases hvalid : cache.validArea.width > 0
  · have hp0 := hc cache.validArea.x (by unfold QRect.hasColumn; omega)
    have hp1 := hc (cache.validArea.x + cache.validArea.width - 1)
      (by unfold QRect.hasColumn; omega)
    obtain ⟨⟨a1, b1, a2, b2⟩, image, sf, zl⟩ := cache
    simp only [QRect.width, QRect.x] at hvalid hp0 hp1
    simp only [selectSpan, QRect.width, QRect.x, QRect.y, QRect.height, QRect.ofSize,
      QRect.hasColumn, hvalid, if_true]
    refine ⟨fun col hl hr => ?_, fun col hcol => ?_⟩
    · split_ifs at hl hr <;> simp only at hl hr <;> omega
    · split_ifs at hcol <;> simp only at hcol <;> omega
  · obtain ⟨⟨a1, b1, a2, b2⟩, image, sf, zl⟩ := cache
    simp only [QRect.width] at hvalid
    simp only [selectSpan, QRect.hasColumn, QRect.ofSize, QRect.x, QRect.width, hvalid,
      if_false]
    by_cases hp : 0 ≤ paintBlockWidth
    · by_cases hbig : x1 > x0 + paintBlockWidth
      · have e1 : Int.tdiv (x1 + x0) 2 = (x1 + x0) / 2 :=
          Int.tdiv_eq_ediv (by omega) (by decide)
        have e2 : Int.tdiv paintBlockWidth 2 = paintBlockWidth / 2 :=
          Int.tdiv_eq_ediv hp (by decide)
        simp only [hbig, if_true, e1, e2]
        refine ⟨fun col hl hr => ?_, fun col hcol => ?_⟩
        · split_ifs at hl hr <;> simp only at hl hr <;> omega
        · split_ifs at hcol <;> simp only at hcol <;> omega
      · simp only [hbig, if_false]
        refine ⟨fun col hl hr => ?_, fun col hcol => ?_⟩ <;> omega
    · refine ⟨fun col hl hr => ?_, fun col hcol => ?_⟩
      · split_ifs at hl hr <;> simp only at hl hr <;> omega
      · split_ifs at hcol <;> simp only at hcol <;> omega

/-- Counterexample to C18 as stated: with all 4 columns of the coarse view
valid, paint asked for the columns -2 to 5 recomputes the span `[-2, 0)` and
stores the valid area `[-2, 4)`, both reaching outside the viewport's
columns `[0, 4)`. -/
theorem paint_does_not_clip_rect :
    View.coarse.width = 4 ∧
    (QRect.ofSize (-2) 0 8 2).left = -2 ∧ (QRect.ofSize (-2) 0 8 2).right = 5 ∧
    choosePaintBlockWidth Env.sample false 0 0 1024 (-2) 6 = some 292 ∧
    (selectSpan View.coarse 0 ImageCache.coarse (-2) 6 292).2 = (-2, 0) ∧
    ∃ p c, paint Env.sample 0 Layer.coarse 1 View.coarse (QRect.ofSize (-2) 0 8 2) =
        some p ∧
      mapFind p.layer.m_imageCaches 1 = some c ∧
      c.validArea = QRect.ofSize (-2) 0 6 2 ∧ c.validArea.hasColumn (-2) :=
  ⟨rfl, rfl, by decide, by decide, by decide, _, _, rfl, rfl, by decide, by decide⟩

/-- Claim C18, amended.  paint does not clip the requested rect, but a rect
inside the viewport keeps it inside: if the columns of the requested rect
and of the cached valid area of the view lie within `[0, v.width())`, then
after a paint call that reaches the recompute stage and returns, both the
span `[x0, x1)` chosen for recomputation and the valid area stored for the
view lie within `[0, v.width())`. -/
theorem paint_stays_within_viewport (env : Env) (fuel : Nat) (s : Layer)
    (vid : ViewId) (v : View) (rect : QRect) (m : Model) (r : Request) (p : Painted)
    (hhead : paintHead env s vid v rect = Head.request m r)
    (htail : paintTail env fuel m r vid v rect = some p)
    (hrect : 0 ≤ rect.left ∧ rect.right < v.width)
    (hcache : ∀ cache, mapFind s.m_imageCaches vid = some cache →
      ∀ col : Int, cache.validArea.hasColumn col → 0 ≤ col ∧ col < v.width) :
    ∃ paintBlockWidth c,
      choosePaintBlockWidth env r.layer.m_synchronous r.layer.m_lastPaintBlockWidth
        r.layer.m_lastPaintTime v.getZoomLevel r.x0 r.x1 = some paintBlockWidth ∧
      (∀ col : Int,
        (selectSpan v v.getStartFrame r.cache r.x0 r.x1 paintBlockWidth).2.1 ≤ col →
        col < (selectSpan v v.getStartFrame r.cache r.x0 r.x1 paintBlockWidth).2.2 →
        0 ≤ col ∧ col < v.width) ∧
      mapFind p.layer.m_imageCaches vid = some c ∧
      ∀ col : Int, c.validArea.hasColumn col → 0 ≤ col ∧ col < v.width := by
  obtain ⟨c0, x0, x1, rc, increment, layer, hrec, rfl⟩ :=
    paintHead_request env s vid v rect m r hhead
  have hc0 : ∀ col : Int,
      (mapIndex ImageCache.empty s.m_imageCaches vid).1.validArea.hasColumn col →
        0 ≤ col ∧ col < v.width := by
    rcases mapIndex_fst_cases ImageCache.empty s.m_imageCaches vid with h | h
    · exact hcache _ h
    · rw [h]
      intro col hcol
      simp only [ImageCache.empty, QRect.hasColumn, QRect.null, QRect.x, QRect.width] at hcol
      omega
  obtain ⟨hc1, hx1⟩ := reconcileCache_within v v.getStartFrame rect _ c0 x0 x1 rc hrect hc0 hrec
  obtain ⟨hc2, hx0, hx2⟩ := checkMagnitudes_within increment m layer vid v c0 x0 x1 rc hc1 hx1
  obtain ⟨pbw, c, hpbw, hfind, hva⟩ := paintTail_validArea env fuel m _ vid v rect p htail
  obtain ⟨hspan, harea⟩ := selectSpan_within v v.getStartFrame _ _ _ pbw hx0 hx2 hc2
  refine ⟨pbw, c, hpbw, hspan, hfind, ?_⟩
  rcases hva with h | ⟨h, -, -⟩
  · rw [h]; exact harea
  · rw [h]
    intro col hcol
    simp only [QRect.hasColumn, QRect.null, QRect.x, QRect.width] at hcol
    omega

/-- Witness of the amended C18: the synchronous layer with columns 1 and 2
valid, asked for the whole coarse view. -/
theorem paint_stays_within_viewport_witness :
    ∃ r p, paintHead Env.sample Layer.syncMiddle 1 View.coarse (QRect.ofSize 0 0 4 2) =
        Head.request Model.sample r ∧
      paintTail Env.sample 0 Model.sample r 1 View.coarse (QRect.ofSize 0 0 4 2) = some p ∧
      ∃ paintBlockWidth c,
        choosePaintBlockWidth Env.sample r.layer.m_synchronous r.layer.m_lastPaintBlockWidth
          r.layer.m_lastPaintTime View.coarse.getZoomLevel r.x0 r.x1 =
            some paintBlockWidth ∧
        (∀ col : Int,
          (selectSpan View.coarse View.coarse.getStartFrame r.cache r.x0 r.x1
            paintBlockWidth).2.1 ≤ col →
          col < (selectSpan View.coarse View.coarse.getStartFrame r.cache r.x0 r.x1
            paintBlockWidth).2.2 →
          0 ≤ col ∧ col < View.coarse.width) ∧
        mapFind p.layer.m_imageCaches 1 = some c ∧
        ∀ col : Int, c.validArea.hasColumn col → 0 ≤ col ∧ col < View.coarse.width :=
  ⟨_, _, rfl, rfl,
    paint_stays_within_viewport Env.sample 0 Layer.syncMiddle 1 View.coarse
      (QRect.ofSize 0 0 4 2) Model.sample _ _ rfl rfl (by decide)
      (by
        intro cache hfind col hcol
        have hc : cache = ImageCache.middle := by
          have h1 : mapFind Layer.syncMiddle.m_imageCaches 1 = some ImageCache.middle := rfl
          rw [h1] at hfind
          exact (Option.some.inj hfind).symm
        subst hc
        simp only [QRect.hasColumn, ImageCache.middle, QRect.ofSize, QRect.x, QRect.width]
          at hcol
        show 0 ≤ col ∧ col < 4
        omega)⟩

theorem raiseTarget_spec (t : Int) :
    1 ≤ raiseTarget t ∧ (1 ≤ t → raiseTarget t = t) ∧ (t < 1 → raiseTarget t ≤ 255) ∧
      (raiseTarget t - t) % 255 = 0 := by
  induction t using raiseTarget.induct with
  | case1 t h ih =>
    rw [raiseTarget, if_pos h]
    obtain ⟨h1, h2, h3, h4⟩ := ih
    refine ⟨h1, fun h5 => by omega, fun _ => ?_, by omega⟩
    by_cases h6 : 1 ≤ t + 255
    · rw [h2 h6]; omega
    · exact h3 (by omega)
  | case2 t h =>
    rw [raiseTarget, if_neg h]
    refine ⟨by omega, fun _ => rfl, fun h5 => absurd h5 h, by simp⟩

theorem lowerTarget_spec (t : Int) (ht : 1 ≤ t) :
    1 ≤ lowerTarget t ∧ lowerTarget t ≤ 255 ∧ (lowerTarget t - t) % 255 = 0 := by
  induction t using lowerTarget.induct with
  | case1 t h ih =>
    rw [lowerTarget, if_pos h]
    obtain ⟨h1, h2, h3⟩ := ih (by omega)
    exact ⟨h1, h2, by omega⟩
  | case2 t h =>
    rw [lowerTarget, if_neg h]
    exact ⟨ht, by omega, by simp⟩

theorem wrapTarget_spec (t : Int) :
    1 ≤ lowerTarget (raiseTarget t) ∧ lowerTarget (raiseTarget t) ≤ 255 ∧
      (lowerTarget (raiseTarget t) - t) % 255 = 0 := by
  obtain ⟨h1, -, -, h4⟩ := raiseTarget_spec t
  obtain ⟨g1, g2, g3⟩ := lowerTarget_spec (raiseTarget t) h1
  exact ⟨g1, g2, by omega⟩

theorem foldl_update_hit (tgt : Nat → Nat) (p : Nat → QColor) (k px : Nat)
    (htgt : tgt px = k) :
    ∀ (l : List Nat) (np0 : Nat → QColor),
      (∀ q ∈ l, tgt q = k → q = px) →
      (l.foldl (fun (np : Nat → QColor) (pixel : Nat) =>
          Function.update np (tgt pixel) (p pixel)) np0) k =
        if px ∈ l then p px else np0 k := by
  intro l
  induction l with
  | nil => intro np0 _; simp
  | cons a l ih =>
    intro np0 huniq
    rw [List.foldl_cons]
    rw [ih _ (fun q hq => huniq q (List.mem_cons_of_mem a hq))]
    by_cases hmem : px ∈ l
    · simp [hmem]
    · by_cases ha : a = px
      · subst ha
        subst htgt
        simp [hmem]
      · have hne : tgt a ≠ k := fun h => ha (huniq a (List.mem_cons_self a l) h)
        have hne2 : ¬ px = a := fun h => ha h.symm
        simp [hmem, hne2, Function.update_noteq (Ne.symm hne)]

theorem foldl_update_miss (tgt : Nat → Nat) (p : Nat → QColor) (k : Nat) :
    ∀ (l : List Nat) (np0 : Nat → QColor),
      (∀ q ∈ l, tgt q ≠ k) →
      (l.foldl (fun (np : Nat → QColor) (pixel : Nat) =>
          Function.update np (tgt pixel) (p pixel)) np0) k = np0 k := by
  intro l
  induction l with
  | nil => intro np0 _; rfl
  | cons a l ih =>
    intro np0 hmiss
    rw [List.foldl_cons, ih _ (fun q hq => hmiss q (List.mem_cons_of_mem a hq))]
    exact Function.update_noteq (Ne.symm (hmiss a (List.mem_cons_self a l))) _ _

theorem rotatePalette_entry (palette : Palette) (d : Int) (k : Nat) :
    rotatePalette palette d k =
      if 1 ≤ k ∧ k < 256 then
        palette (lowerTarget (raiseTarget (Int.ofNat k - d))).toNat
      else palette k := by
  unfold rotatePalette
  simp only
  by_cases hk : k < 256
  · rw [if_pos hk]
    by_cases hk1 : 1 ≤ k
    · rw [if_pos ⟨hk1, hk⟩]
      obtain ⟨s1, s2, s3⟩ := wrapTarget_spec (Int.ofNat k - d)
      have hsrc : ∀ q : Nat,
          (lowerTarget (raiseTarget (Int.ofNat q + d))).toNat = k → 1 ≤ q → q < 256 →
            q = (lowerTarget (raiseTarget (Int.ofNat k - d))).toNat := by
        intro q hq h1 h2
        obtain ⟨t1, t2, t3⟩ := wrapTarget_spec (Int.ofNat q + d)
        simp only [Int.ofNat_eq_coe] at *
        omega
      have htgt : (lowerTarget (raiseTarget
          (Int.ofNat (lowerTarget (raiseTarget (Int.ofNat k - d))).toNat + d))).toNat = k := by
        obtain ⟨t1, t2, t3⟩ := wrapTarget_spec
          (Int.ofNat (lowerTarget (raiseTarget (Int.ofNat k - d))).toNat + d)
        simp only [Int.ofNat_eq_coe] at *
        omega
      rw [foldl_update_hit (fun q => (lowerTarget (raiseTarget (Int.ofNat q + d))).toNat)
        palette k _ htgt]
      · rw [if_pos]
        rw [List.mem_range'_1]
        omega
      · intro q hq hqk
        rw [List.mem_range'_1] at hq
        exact hsrc q hqk hq.1 (by omega)
    · have hk0 : k = 0 := by omega
      subst hk0
      rw [if_neg (by omega)]
      rw [foldl_update_miss (fun q => (lowerTarget (raiseTarget (Int.ofNat q + d))).toNat)
        palette 0]
      · simp
      · intro q _
        obtain ⟨t1, t2, t3⟩ := wrapTarget_spec (Int.ofNat q + d)
        omega
  · rw [if_neg hk, if_neg (by omega)]

/-- Claim C14.  For every integer distance `d` and every palette,
`rotatePalette(d)` followed by `rotatePalette(-d)` restores the palette
exactly: entry 0, entries 1 to 255, and with them the whole table. -/
theorem rotatePalette_inverse (palette : Palette) (d : Int) :
    rotatePalette (rotatePalette palette d) (-d) = palette := by
  funext k
  rw [rotatePalette_entry]
  by_cases hk : 1 ≤ k ∧ k < 256
  · rw [if_pos hk]
    obtain ⟨s1, s2, s3⟩ := wrapTarget_spec (Int.ofNat k - -d)
    rw [rotatePalette_entry, if_pos (by omega)]
    obtain ⟨t1, t2, t3⟩ := wrapTarget_spec
      (Int.ofNat (lowerTarget (raiseTarget (Int.ofNat k - -d))).toNat - d)
    congr 1
    simp only [Int.ofNat_eq_coe] at *
    omega
  · rw [if_neg hk, rotatePalette_entry, if_neg hk]

theorem sampleStep_set (acc c : MagnitudeRange) (hacc : acc.isSet = true)
    (hc : c.isSet = true) :
    (acc.sample c).1.isSet = true ∧
      (acc.sample c).1.m_min = min acc.m_min c.m_min ∧
      (acc.sample c).1.m_max = max acc.m_max c.m_max := by
  obtain ⟨a, b⟩ := acc
  obtain ⟨x, y⟩ := c
  simp only [MagnitudeRange.isSet, Bool.or_eq_true, bne_iff_ne, ne_eq] at hacc hc
  simp only [MagnitudeRange.sample, MagnitudeRange.isSet, Bool.or_eq_true, bne_iff_ne, ne_eq,
    hacc, if_true]
  refine ⟨?_, ?_, ?_⟩
  · split_ifs <;> omega
  · split_ifs <;> omega
  · split_ifs <;> omega

theorem foldSample_set :
    ∀ (l : List MagnitudeRange) (acc : MagnitudeRange), acc.isSet = true →
      (l.foldl (fun (mag : MagnitudeRange) (c : MagnitudeRange) =>
          if c.isSet then (mag.sample c).1 else mag) acc).isSet = true ∧
      ((l.foldl (fun (mag : MagnitudeRange) (c : MagnitudeRange) =>
          if c.isSet then (mag.sample c).1 else mag) acc).m_min ≤ acc.m_min ∧
        acc.m_max ≤ (l.foldl (fun (mag : MagnitudeRange) (c : MagnitudeRange) =>
          if c.isSet then (mag.sample c).1 else mag) acc).m_max) ∧
      (∀ c ∈ l, c.isSet = true →
        (l.foldl (fun (mag : MagnitudeRange) (c : MagnitudeRange) =>
          if c.isSet then (mag.sample c).1 else mag) acc).m_min ≤ c.m_min ∧
        c.m_max ≤ (l.foldl (fun (mag : MagnitudeRange) (c : MagnitudeRange) =>
          if c.isSet then (mag.sample c).1 else mag) acc).m_max) ∧
      ((l.foldl (fun (mag : MagnitudeRange) (c : MagnitudeRange) =>
          if c.isSet then (mag.sample c).1 else mag) acc).m_min = acc.m_min ∨
        ∃ c ∈ l, c.isSet = true ∧
          (l.foldl (fun (mag : MagnitudeRange) (c : MagnitudeRange) =>
            if c.isSet then (mag.sample c).1 else mag) acc).m_min = c.m_min) ∧
      ((l.foldl (fun (mag : MagnitudeRange) (c : MagnitudeRange) =>
          if c.isSet then (mag.sample c).1 else mag) acc).m_max = acc.m_max ∨
        ∃ c ∈ l, c.isSet = true ∧
          (l.foldl (fun (mag : MagnitudeRange) (c : MagnitudeRange) =>
            if c.isSet then (mag.sample c).1 else mag) acc).m_max = c.m_max) := by
  intro l
  induction l with
  | nil =>
    intro acc hacc
    exact ⟨hacc, ⟨le_refl _, le_refl _⟩, fun c hc => absurd hc (List.not_mem_nil c),
      Or.inl rfl, Or.inl rfl⟩
  | cons a l ih =>
    intro acc hacc
    rw [List.foldl_cons]
    by_cases ha : a.isSet = true
    · rw [if_pos ha]
      obtain ⟨s1, s2, s3⟩ := sampleStep_set acc a hacc ha
      have e1 : (acc.sample a).1.m_min ≤ acc.m_min := s2 ▸ Nat.min_le_left _ _
      have e2 : (acc.sample a).1.m_min ≤ a.m_min := s2 ▸ Nat.min_le_right _ _
      have e3 : acc.m_max ≤ (acc.sample a).1.m_max := s3 ▸ Nat.le_max_left _ _
      have e4 : a.m_max ≤ (acc.sample a).1.m_max := s3 ▸ Nat.le_max_right _ _
      have e5 : (acc.sample a).1.m_min = acc.m_min ∨ (acc.sample a).1.m_min = a.m_min := by
        rw [s2]; exact min_choice _ _
      have e6 : (acc.sample a).1.m_max = acc.m_max ∨ (acc.sample a).1.m_max = a.m_max := by
        rw [s3]; exact max_choice _ _
      clear s2 s3
      obtain ⟨i1, ⟨i2, i3⟩, i4, i5, i6⟩ := ih (acc.sample a).1 s1
      refine ⟨i1, ⟨le_trans i2 e1, le_trans e3 i3⟩, ?_, ?_, ?_⟩
      · intro c hc hcs
        rcases List.mem_cons.mp hc with rfl | hc
        · exact ⟨le_trans i2 e2, le_trans e4 i3⟩
        · exact i4 c hc hcs
      · rcases i5 with h | ⟨c, hc, hcs, h⟩
        · rcases e5 with hm | hm
          · left; exact h.trans hm
          · right; exact ⟨a, List.mem_cons_self a l, ha, h.trans hm⟩
        · right; exact ⟨c, List.mem_cons_of_mem a hc, hcs, h⟩
      · rcases i6 with h | ⟨c, hc, hcs, h⟩
        · rcases e6 with hm | hm
          · left; exact h.trans hm
          · right; exact ⟨a, List.mem_cons_self a l, ha, h.trans hm⟩
        · right; exact ⟨c, List.mem_cons_of_mem a hc, hcs, h⟩
    · rw [if_neg ha]
      obtain ⟨i1, i2, i4, i5, i6⟩ := ih acc hacc
      refine ⟨i1, i2, ?_, ?_, ?_⟩
      · intro c hc hcs
        rcases List.mem_cons.mp hc with rfl | hc
        · exact absurd hcs ha
        · exact i4 c hc hcs
      · rcases i5 with h | ⟨c, hc, hcs, h⟩
        · exact Or.inl h
        · exact Or.inr ⟨c, List.mem_cons_of_mem a hc, hcs, h⟩
      · rcases i6 with h | ⟨c, hc, hcs, h⟩
        · exact Or.inl h
        · exact Or.inr ⟨c, List.mem_cons_of_mem a hc, hcs, h⟩
theorem foldSample_unset :
    ∀ (l : List MagnitudeRange),
      ((∀ c ∈ l, c.isSet = false) →
        l.foldl (fun (mag : MagnitudeRange) (c : MagnitudeRange) =>
          if c.isSet then (mag.sample c).1 else mag) MagnitudeRange.unset =
            MagnitudeRange.unset) ∧
      ((∃ c ∈ l, c.isSet = true) →
        (∀ c ∈ l, c.isSet = true →
          (l.foldl (fun (mag : MagnitudeRange) (c : MagnitudeRange) =>
            if c.isSet then (mag.sample c).1 else mag) MagnitudeRange.unset).m_min ≤ c.m_min ∧
          c.m_max ≤ (l.foldl (fun (mag : MagnitudeRange) (c : MagnitudeRange) =>
            if c.isSet then (mag.sample c).1 else mag) MagnitudeRange.unset).m_max) ∧
        (∃ c ∈ l, c.isSet = true ∧
          (l.foldl (fun (mag : MagnitudeRange) (c : MagnitudeRange) =>
            if c.isSet then (mag.sample c).1 else mag) MagnitudeRange.unset).m_min = c.m_min) ∧
        (∃ c ∈ l, c.isSet = true ∧
          (l.foldl (fun (mag : MagnitudeRange) (c : MagnitudeRange) =>
            if c.isSet then (mag.sample c).1 else mag) MagnitudeRange.unset).m_max =
              c.m_max)) := by
  intro l
  induction l with
  | nil =>
    exact ⟨fun _ => rfl, fun ⟨c, hc, _⟩ => absurd hc (List.not_mem_nil c)⟩
  | cons a l ih =>
    rw [List.foldl_cons]
    by_cases ha : a.isSet = true
    · have hs : (MagnitudeRange.unset.sample a).1 = a := rfl
      rw [if_pos ha, hs]
      obtain ⟨-, ⟨i2, i3⟩, i4, i5, i6⟩ := foldSample_set l a ha
      refine ⟨fun h => ?_, fun _ => ⟨?_, ?_, ?_⟩⟩
      · have := h a (List.mem_cons_self a l)
        rw [ha] at this
        exact absurd this (by decide)
      · intro c hc hcs
        rcases List.mem_cons.mp hc with rfl | hc
        · exact ⟨i2, i3⟩
        · exact i4 c hc hcs
      · rcases i5 with h | ⟨c, hc, hcs, h⟩
        · exact ⟨a, List.mem_cons_self a l, ha, h⟩
        · exact ⟨c, List.mem_cons_of_mem a hc, hcs, h⟩
      · rcases i6 with h | ⟨c, hc, hcs, h⟩
        · exact ⟨a, List.mem_cons_self a l, ha, h⟩
        · exact ⟨c, List.mem_cons_of_mem a hc, hcs, h⟩
    · rw [if_neg ha]
      obtain ⟨j1, j2⟩ := ih
      refine ⟨fun h => j1 (fun c hc => h c (List.mem_cons_of_mem a hc)), ?_⟩
      rintro ⟨c0, hc0, hcs0⟩
      have hex : ∃ c ∈ l, c.isSet = true := by
        rcases List.mem_cons.mp hc0 with rfl | hc0
        · exact absurd hcs0 ha
        · exact ⟨c0, hc0, hcs0⟩
      obtain ⟨k1, ⟨c1, hc1, hcs1, k2⟩, ⟨c2, hc2, hcs2, k3⟩⟩ := j2 hex
      refine ⟨?_, ⟨c1, List.mem_cons_of_mem a hc1, hcs1, k2⟩,
        ⟨c2, List.mem_cons_of_mem a hc2, hcs2, k3⟩⟩
      intro c hc hcs
      rcases List.mem_cons.mp hc with rfl | hc
      · exact absurd hcs ha
      · exact k1 c hc hcs

theorem updateViewMagnitudes_stores (increment : Nat) (m : Model) (s : Layer)
    (vid : ViewId) (v : View) (h : (updateViewMagnitudes increment m s vid v).1 = true) :
    mapFind (updateViewMagnitudes increment m s vid v).2.m_viewMags vid =
      some ((sampledColumns increment m s v).foldl
        (fun (mag : MagnitudeRange) (c : MagnitudeRange) =>
          if c.isSet then (mag.sample c).1 else mag) MagnitudeRange.unset) := by
  unfold updateViewMagnitudes at h ⊢
  unfold sampledColumns
  simp only [List.foldl_map] at h ⊢
  split_ifs at h ⊢
  · dsimp only
    rw [mapFind_mapSet_self]
  · dsimp only
    rw [mapFind_mapSet_self]

/-- Claim C16.  The view magnitude range that `updateViewMagnitudes` computes
from the per-column ranges does not depend on the order in which the columns
are sampled: for any reordering of the sampled columns the merged range is the
same, its minimum is the least minimum of the set columns and its maximum the
greatest maximum of the set columns; and this merged range is what a call that
returns true stores for the view. -/
theorem view_magnitudes_order_independent (cols reordered : List MagnitudeRange)
    (hperm : cols.Perm reordered) (hset : ∃ c ∈ cols, c.isSet = true)
    (increment : Nat) (m : Model) (s : Layer) (vid : ViewId) (v : View) :
    reordered.foldl (fun (mag : MagnitudeRange) (c : MagnitudeRange) =>
        if c.isSet then (mag.sample c).1 else mag) MagnitudeRange.unset =
      cols.foldl (fun (mag : MagnitudeRange) (c : MagnitudeRange) =>
        if c.isSet then (mag.sample c).1 else mag) MagnitudeRange.unset ∧
    (∀ c ∈ cols, c.isSet = true →
      (cols.foldl (fun (mag : MagnitudeRange) (c : MagnitudeRange) =>
        if c.isSet then (mag.sample c).1 else mag) MagnitudeRange.unset).m_min ≤ c.m_min ∧
      c.m_max ≤ (cols.foldl (fun (mag : MagnitudeRange) (c : MagnitudeRange) =>
        if c.isSet then (mag.sample c).1 else mag) MagnitudeRange.unset).m_max) ∧
    (∃ c ∈ cols, c.isSet = true ∧
      (cols.foldl (fun (mag : MagnitudeRange) (c : MagnitudeRange) =>
        if c.isSet then (mag.sample c).1 else mag) MagnitudeRange.unset).m_min = c.m_min) ∧
    (∃ c ∈ cols, c.isSet = true ∧
      (cols.foldl (fun (mag : MagnitudeRange) (c : MagnitudeRange) =>
        if c.isSet then (mag.sample c).1 else mag) MagnitudeRange.unset).m_max = c.m_max) ∧
    ((updateViewMagnitudes increment m s vid v).1 = true →
      mapFind (updateViewMagnitudes increment m s vid v).2.m_viewMags vid =
        some ((sampledColumns increment m s v).foldl
          (fun (mag : MagnitudeRange) (c : MagnitudeRange) =>
            if c.isSet then (mag.sample c).1 else mag) MagnitudeRange.unset)) := by
  obtain ⟨a1, ⟨c1, hc1, hcs1, a2⟩, ⟨c2, hc2, hcs2, a3⟩⟩ := (foldSample_unset cols).2 hset
  have hset2 : ∃ c ∈ reordered, c.isSet = true := by
    obtain ⟨c, hc, hcs⟩ := hset
    exact ⟨c, hperm.mem_iff.mp hc, hcs⟩
  obtain ⟨b1, ⟨d1, hd1, hds1, b2⟩, ⟨d2, hd2, hds2, b3⟩⟩ :=
    (foldSample_unset reordered).2 hset2
  refine ⟨?_, a1, ⟨c1, hc1, hcs1, a2⟩, ⟨c2, hc2, hcs2, a3⟩,
    updateViewMagnitudes_stores increment m s vid v⟩
  have e1 := (a1 d1 (hperm.mem_iff.mpr hd1) hds1).1
  have e2 := (a1 d2 (hperm.mem_iff.mpr hd2) hds2).2
  have e3 := (b1 c1 (hperm.mem_iff.mp hc1) hcs1).1
  have e4 := (b1 c2 (hperm.mem_iff.mp hc2) hcs2).2
  rw [← b2] at e1
  rw [← b3] at e2
  rw [← a2] at e3
  rw [← a3] at e4
  generalize reordered.foldl (fun (mag : MagnitudeRange) (c : MagnitudeRange) =>
        if c.isSet then (mag.sample c).1 else mag) MagnitudeRange.unset = r1 at *
  generalize cols.foldl (fun (mag : MagnitudeRange) (c : MagnitudeRange) =>
        if c.isSet then (mag.sample c).1 else mag) MagnitudeRange.unset = r2 at *
  obtain ⟨x1, y1⟩ := r1
  obtain ⟨x2, y2⟩ := r2
  simp only [MagnitudeRange.mk.injEq]
  exact ⟨le_antisymm e3 e1, le_antisymm e2 e4⟩

/-- Witness of C16: the columns (2, 5), (3, 9) and an unset one, sampled in two
orders, give the range (2, 9). -/
theorem view_magnitudes_order_independent_witness :
    ([⟨3, 9⟩, ⟨0, 0⟩, ⟨2, 5⟩] : List MagnitudeRange).foldl
        (fun (mag : MagnitudeRange) (c : MagnitudeRange) =>
          if c.isSet then (mag.sample c).1 else mag) MagnitudeRange.unset =
      ([⟨2, 5⟩, ⟨3, 9⟩, ⟨0, 0⟩] : List MagnitudeRange).foldl
        (fun (mag : MagnitudeRange) (c : MagnitudeRange) =>
          if c.isSet then (mag.sample c).1 else mag) MagnitudeRange.unset ∧
    ([⟨2, 5⟩, ⟨3, 9⟩, ⟨0, 0⟩] : List MagnitudeRange).foldl
        (fun (mag : MagnitudeRange) (c : MagnitudeRange) =>
          if c.isSet then (mag.sample c).1 else mag) MagnitudeRange.unset = ⟨2, 9⟩ :=
  ⟨(view_magnitudes_order_independent [⟨2, 5⟩, ⟨3, 9⟩, ⟨0, 0⟩] [⟨3, 9⟩, ⟨0, 0⟩, ⟨2, 5⟩]
      ((List.perm_append_comm : ([⟨2, 5⟩] ++ [⟨3, 9⟩, ⟨0, 0⟩] :
        List MagnitudeRange).Perm ([⟨3, 9⟩, ⟨0, 0⟩] ++ [⟨2, 5⟩])))
      ⟨⟨2, 5⟩, by simp, by decide⟩
      512 Model.sample Layer.warm 1 View.wide).1, by decide⟩
theorem mapFind_mapSet_ne {α : Type} (a : α) (k w : ViewId) (h : w ≠ k) :
    ∀ m : ViewMap α, mapFind (mapSet m k a) w = mapFind m w := by
  intro m
  induction m with
  | nil =>
    unfold mapSet
    exact mapFind_cons_ne w k a [] h
  | cons p rest ih =>
    obtain ⟨k0, b⟩ := p
    unfold mapSet
    split_ifs with h1 h2
    · exact mapFind_cons_ne w k a _ h
    · subst h2
      rw [mapFind_cons_ne w k a _ h, mapFind_cons_ne w k b _ h]
    · by_cases hw : w = k0
      · subst hw
        rw [mapFind_cons_self, mapFind_cons_self]
      · rw [mapFind_cons_ne w k0 b _ hw, mapFind_cons_ne w k0 b _ hw]
        exact ih

theorem mapFind_mapErase_self {α : Type} (k : ViewId) :
    ∀ m : ViewMap α, mapFind (mapErase m k) k = none := by
  intro m
  induction m with
  | nil => rfl
  | cons p rest ih =>
    obtain ⟨k0, b⟩ := p
    unfold mapErase
    rw [List.filter_cons]
    by_cases hk : k0 = k
    · subst hk
      simp only [bne_self_eq_false, Bool.false_eq_true, if_false]
      exact ih
    · have hne : (k0 != k) = true := by simpa using hk
      simp only [hne, if_true]
      rw [mapFind_cons_ne k k0 b _ (fun h => hk h.symm)]
      exact ih

theorem mapFind_mapErase_ne {α : Type} (k w : ViewId) (h : w ≠ k) :
    ∀ m : ViewMap α, mapFind (mapErase m k) w = mapFind m w := by
  intro m
  induction m with
  | nil => rfl
  | cons p rest ih =>
    obtain ⟨k0, b⟩ := p
    unfold mapErase
    rw [List.filter_cons]
    by_cases hk : k0 = k
    · subst hk
      simp only [bne_self_eq_false, Bool.false_eq_true, if_false]
      rw [mapFind_cons_ne w k0 b _ h]
      exact ih
    · have hne : (k0 != k) = true := by simpa using hk
      simp only [hne, if_true]
      by_cases hw : w = k0
      · subst hw
        rw [mapFind_cons_self, mapFind_cons_self]
      · rw [mapFind_cons_ne w k0 b _ hw, mapFind_cons_ne w k0 b _ hw]
        exact ih

theorem buildFFTModel_stored (env : Env) (host : Host) (m : Model) (s : Layer)
    (vid : ViewId) (fftSize : Nat) (t : FFTModel)
    (hret : (buildFFTModel env host m s vid fftSize).1 = some t) :
    ∃ fill, mapFind (buildFFTModel env host m s vid fftSize).2.m_fftModels vid =
      some (some t, fill) := by
  unfold buildFFTModel at hret ⊢
  cases hf : mapFind s.m_fftModels vid with
  | none =>
    simp only [hf] at hret ⊢
    split_ifs at hret ⊢ <;>
      first
      | (dsimp only at hret
         done)
      | (dsimp only at hret ⊢
         simp only [Option.some.injEq] at hret
         subst hret
         exact ⟨0, mapFind_mapSet_self _ _ _⟩)
  | some p =>
    simp only [hf] at hret ⊢
    obtain ⟨p1, p2⟩ := p
    simp only at hret
    subst hret
    exact ⟨p2, rfl⟩

theorem getFFTModel_stored (env : Env) (host : Host) (s : Layer) (vid : ViewId)
    (v : View) (t : FFTModel) (hret : (getFFTModel env host s vid v).1 = some t) :
    ∃ fill, mapFind (getFFTModel env host s vid v).2.m_fftModels vid =
      some (some t, fill) := by
  unfold getFFTModel at hret ⊢
  cases hm : s.m_model with
  | none =>
    simp only [hm] at hret
    exact absurd hret (by simp)
  | some m =>
    simp only [hm] at hret ⊢
    cases hf : mapFind s.m_fftModels vid with
    | none =>
      simp only [hf] at hret ⊢
      exact buildFFTModel_stored env host m s vid _ t hret
    | some p =>
      obtain ⟨p1, p2⟩ := p
      cases p1 with
      | none =>
        simp only [hf] at hret
        exact absurd hret (by simp)
      | some old =>
        simp only [hf] at hret ⊢
        split_ifs at hret ⊢ with h1
        · exact buildFFTModel_stored env host m _ vid _ t hret
        · dsimp only at hret ⊢
          simp only [Option.some.injEq] at hret
          subst hret
          exact ⟨p2, hf⟩

theorem buildFFTModel_fields (env : Env) (host : Host) (m : Model) (s : Layer)
    (vid : ViewId) (fftSize : Nat) :
    (buildFFTModel env host m s vid fftSize).2.m_binDisplay = s.m_binDisplay ∧
    (buildFFTModel env host m s vid fftSize).2.m_frequencyScale = s.m_frequencyScale ∧
    (buildFFTModel env host m s vid fftSize).2.m_fftSize = s.m_fftSize ∧
    (buildFFTModel env host m s vid fftSize).2.m_maxFrequency = s.m_maxFrequency ∧
    (buildFFTModel env host m s vid fftSize).2.m_minFrequency = s.m_minFrequency ∧
    (buildFFTModel env host m s vid fftSize).2.m_zeroPadLevel = s.m_zeroPadLevel := by
  unfold buildFFTModel
  cases hf : mapFind s.m_fftModels vid with
  | none =>
    dsimp only
    split_ifs <;> exact ⟨rfl, rfl, rfl, rfl, rfl, rfl⟩
  | some p => exact ⟨rfl, rfl, rfl, rfl, rfl, rfl⟩

theorem getFFTModel_fields (env : Env) (host : Host) (s : Layer) (vid : ViewId)
    (v : View) :
    (getFFTModel env host s vid v).2.m_binDisplay = s.m_binDisplay ∧
    (getFFTModel env host s vid v).2.m_frequencyScale = s.m_frequencyScale ∧
    (getFFTModel env host s vid v).2.m_fftSize = s.m_fftSize ∧
    (getFFTModel env host s vid v).2.m_maxFrequency = s.m_maxFrequency ∧
    (getFFTModel env host s vid v).2.m_minFrequency = s.m_minFrequency ∧
    (getFFTModel env host s vid v).2.m_zeroPadLevel = s.m_zeroPadLevel := by
  unfold getFFTModel
  cases hm : s.m_model with
  | none => exact ⟨rfl, rfl, rfl, rfl, rfl, rfl⟩
  | some m =>
    dsimp only
    cases hf : mapFind s.m_fftModels vid with
    | none => exact buildFFTModel_fields env host m s vid _
    | some p =>
      obtain ⟨p1, p2⟩ := p
      cases p1 with
      | none => exact ⟨rfl, rfl, rfl, rfl, rfl, rfl⟩
      | some old =>
        dsimp only
        split_ifs with h1
        · exact buildFFTModel_fields env host m _ vid _
        · exact ⟨rfl, rfl, rfl, rfl, rfl, rfl⟩

theorem getFFTSize_congr (host : Host) (m : Model) (s t : Layer) (v : View)
    (h : t.m_binDisplay = s.m_binDisplay ∧ t.m_frequencyScale = s.m_frequencyScale ∧
      t.m_fftSize = s.m_fftSize ∧ t.m_maxFrequency = s.m_maxFrequency ∧
      t.m_minFrequency = s.m_minFrequency ∧ t.m_zeroPadLevel = s.m_zeroPadLevel) :
    getFFTSize host m t v = getFFTSize host m s v := by
  obtain ⟨h1, h2, h3, h4, h5, h6⟩ := h
  unfold getFFTSize getZeroPadLevel
  rw [h1, h2, h3, h4, h5, h6]

theorem buildFFTModel_fresh (env : Env) (host : Host) (m : Model) (s : Layer)
    (vid : ViewId) (fftSize : Nat) (t : FFTModel)
    (hf : mapFind s.m_fftModels vid = none)
    (hret : (buildFFTModel env host m s vid fftSize).1 = some t) :
    t = host.newFFTModel m s.m_channel s.m_windowType s.m_windowSize
          (windowIncrement env s) fftSize s.m_candidateFillStartFrame ∧
      mapFind (buildFFTModel env host m s vid fftSize).2.m_fftModels vid = some (some t, 0) ∧
      (buildFFTModel env host m s vid fftSize).2.m_peakCaches = s.m_peakCaches := by
  unfold buildFFTModel at hret ⊢
  simp only [hf] at hret ⊢
  split_ifs at hret ⊢ <;>
    first
    | (dsimp only at hret
       done)
    | (dsimp only at hret ⊢
       simp only [Option.some.injEq] at hret
       subst hret
       exact ⟨rfl, mapFind_mapSet_self _ _ _, rfl⟩)

/-- Claim C15.  Assuming a transform constructed with fft size n reports
height n / 2 + 1: when `getFFTModel(v)` returns a non-null transform, that
transform is the one stored for v and its height is `getFFTSize(v) / 2 + 1`
(the fft size being the same before and after the call); and if the transform
stored for v before the call had another height, the one returned is a new
transform built with the current fft size, stored with fill progress 0, and
v has no peak cache entry left. -/
theorem getFFTModel_height_matches (env : Env) (host : Host) (s : Layer) (vid : ViewId)
    (v : View) (t : FFTModel)
    (hctor : ∀ (m : Model) (ch : Int) (wt : WindowType) (ws inc n fill : Nat),
      (host.newFFTModel m ch wt ws inc n fill).getHeight = n / 2 + 1)
    (hret : (getFFTModel env host s vid v).1 = some t) :
    ∃ m, s.m_model = some m ∧
      (∃ fill, mapFind (getFFTModel env host s vid v).2.m_fftModels vid =
        some (some t, fill)) ∧
      t.getHeight = getFFTSize host m (getFFTModel env host s vid v).2 v / 2 + 1 ∧
      getFFTSize host m (getFFTModel env host s vid v).2 v = getFFTSize host m s v ∧
      (∀ (old : FFTModel) (fill : Int),
        mapFind s.m_fftModels vid = some (some old, fill) →
        old.getHeight ≠ getFFTSize host m s v / 2 + 1 →
          t = host.newFFTModel m s.m_channel s.m_windowType s.m_windowSize
                (windowIncrement env s) (getFFTSize host m s v)
                s.m_candidateFillStartFrame ∧
          mapFind (getFFTModel env host s vid v).2.m_fftModels vid = some (some t, 0) ∧
          mapFind (getFFTModel env host s vid v).2.m_peakCaches vid = none) := by
  have hstored := getFFTModel_stored env host s vid v t hret
  have hsize : ∀ m, getFFTSize host m (getFFTModel env host s vid v).2 v =
      getFFTSize host m s v := by
    intro m
    exact getFFTSize_congr host m s _ v (getFFTModel_fields env host s vid v)
  cases hm : s.m_model with
  | none =>
    unfold getFFTModel at hret
    simp only [hm] at hret
    exact absurd hret (fun h => Option.noConfusion h)
  | some m =>
    refine ⟨m, rfl, hstored, ?_, hsize m, ?_⟩
    · rw [hsize m]
      unfold getFFTModel at hret
      simp only [hm] at hret
      cases hf : mapFind s.m_fftModels vid with
      | none =>
        simp only [hf] at hret
        rw [(buildFFTModel_fresh env host m s vid _ t hf hret).1]
        exact hctor _ _ _ _ _ _ _
      | some p =>
        obtain ⟨p1, p2⟩ := p
        cases p1 with
        | none =>
          simp only [hf] at hret
          exact absurd hret (fun h => Option.noConfusion h)
        | some old =>
          simp only [hf] at hret
          split_ifs at hret with h1
          · rw [(buildFFTModel_fresh env host m _ vid _ t
              (mapFind_mapErase_self vid s.m_fftModels) hret).1]
            exact hctor _ _ _ _ _ _ _
          · dsimp only at hret
            simp only [Option.some.injEq] at hret
            subst hret
            exact not_not.mp h1
    · intro old fill hold hne
      unfold getFFTModel at hret ⊢
      simp only [hm, hold, hne, ne_eq, not_false_eq_true, if_true] at hret ⊢
      obtain ⟨e1, e2, e3⟩ := buildFFTModel_fresh env host m _ vid _ t
        (mapFind_mapErase_self vid s.m_fftModels) hret
      refine ⟨e1, e2, ?_⟩
      rw [e3]
      exact mapFind_mapErase_self vid s.m_peakCaches

/-- Witness of C15: the view has grown to 600 rows, the fft size is now 4096,
and the 513-bin transform stored for it is replaced by one of 2049 bins, with
fill progress 0 and no peak cache. -/
theorem getFFTModel_height_matches_witness :
    (getFFTModel Env.sample Host.sample Layer.stale 1 View.tall).1 =
        some ⟨2049, 0, 0, 100, true⟩ ∧
      getFFTSize Host.sample Model.sample Layer.stale View.tall = 4096 ∧
      mapFind (getFFTModel Env.sample Host.sample Layer.stale 1 View.tall).2.m_fftModels 1 =
        some (some ⟨2049, 0, 0, 100, true⟩, 0) ∧
      mapFind (getFFTModel Env.sample Host.sample Layer.stale 1 View.tall).2.m_peakCaches 1 =
        none := by
  obtain ⟨m, hm, -, -, -, h⟩ := getFFTModel_height_matches Env.sample Host.sample
    Layer.stale 1 View.tall ⟨2049, 0, 0, 100, true⟩ (fun _ _ _ _ _ _ _ => rfl) (by decide)
  have hm2 : m = Model.sample :=
    (Option.some.inj (hm : some Model.sample = some m)).symm
  subst hm2
  obtain ⟨-, h2, h3⟩ := h ⟨513, 196, 4096, 40, true⟩ 4096 (by decide) (by decide)
  exact ⟨by decide, by decide, h2, h3⟩

theorem peakCachesLive_congr (s t : Layer) (h1 : t.m_peakCaches = s.m_peakCaches)
    (h2 : t.m_fftModels = s.m_fftModels) (h : peakCachesLive s) : peakCachesLive t := by
  intro vid pc hpc
  rw [h1] at hpc
  rw [h2]
  exact h vid pc hpc

theorem peakCachesLive_of_empty (s : Layer) (h : s.m_peakCaches = []) :
    peakCachesLive s := by
  intro vid pc hpc
  rw [h] at hpc
  exact absurd hpc (fun h => Option.noConfusion h)

theorem peakCachesLive_erase (s : Layer) (vid : ViewId) (h : peakCachesLive s) :
    peakCachesLive { s with m_fftModels := mapErase s.m_fftModels vid,
                            m_peakCaches := mapErase s.m_peakCaches vid } := by
  intro w pc hpc
  dsimp only at hpc ⊢
  by_cases hw : w = vid
  · subst hw
    rw [mapFind_mapErase_self] at hpc
    exact absurd hpc (fun h => Option.noConfusion h)
  · rw [mapFind_mapErase_ne vid w hw] at hpc ⊢
    exact h w pc hpc

theorem peakCachesLive_build (env : Env) (host : Host) (m : Model) (s : Layer)
    (vid : ViewId) (fftSize : Nat) (h : peakCachesLive s) :
    peakCachesLive (buildFFTModel env host m s vid fftSize).2 := by
  unfold buildFFTModel
  cases hf : mapFind s.m_fftModels vid with
  | some p => exact h
  | none =>
    have hnone : ∀ (a : FFTFillPair) (t : Layer), t.m_peakCaches = s.m_peakCaches →
        t.m_fftModels = mapSet s.m_fftModels vid a → peakCachesLive t := by
      intro a t h1 h2 w pc hpc
      rw [h1] at hpc
      rw [h2]
      obtain ⟨fill, hfill⟩ := h w pc hpc
      by_cases hw : w = vid
      · subst hw
        rw [hf] at hfill
        exact absurd hfill (fun h => Option.noConfusion h)
      · rw [mapFind_mapSet_ne a vid w hw]
        exact ⟨fill, hfill⟩
    dsimp only
    split_ifs
    · exact hnone _ _ rfl rfl
    · exact hnone _ _ rfl rfl
    · exact hnone _ _ rfl rfl

theorem peakCachesLive_getFFTModel (env : Env) (host : Host) (s : Layer) (vid : ViewId)
    (v : View) (h : peakCachesLive s) :
    peakCachesLive (getFFTModel env host s vid v).2 := by
  unfold getFFTModel
  cases hm : s.m_model with
  | none => exact h
  | some m =>
    dsimp only
    cases hf : mapFind s.m_fftModels vid with
    | none => exact peakCachesLive_build env host m s vid _ h
    | some p =>
      obtain ⟨p1, p2⟩ := p
      cases p1 with
      | none => exact h
      | some old =>
        dsimp only
        split_ifs with h1
        · exact peakCachesLive_build env host m _ vid _ (peakCachesLive_erase s vid h)
        · exact h

theorem mapFind_mapIndex_none {α : Type} (m : ViewMap (Option α)) (vid w : ViewId)
    (a : α) (h : mapFind (mapIndex none m vid).2 w = some (some a)) :
    mapFind m w = some (some a) := by
  unfold mapIndex at h
  cases hf : mapFind m vid with
  | some b =>
    rw [hf] at h
    exact h
  | none =>
    rw [hf] at h
    dsimp only at h
    by_cases hw : w = vid
    · subst hw
      rw [mapFind_mapSet_self] at h
      exact absurd h (by simp)
    · rw [mapFind_mapSet_ne none vid w hw] at h
      exact h

theorem peakCachesLive_getPeakCache (env : Env) (host : Host) (s : Layer) (vid : ViewId)
    (v : View) (h : peakCachesLive s) :
    peakCachesLive (getPeakCache env host s vid v).2 := by
  have h0 : peakCachesLive { s with m_peakCaches := (mapIndex none s.m_peakCaches vid).2 } := by
    intro w pc hpc
    exact h w pc (mapFind_mapIndex_none s.m_peakCaches vid w pc hpc)
  unfold getPeakCache
  dsimp only
  cases hc : (mapIndex none s.m_peakCaches vid).1 with
  | some pc => exact h0
  | none =>
    dsimp only
    have h1 := peakCachesLive_getFFTModel env host _ vid v h0
    have h2 := getFFTModel_stored env host
      { s with m_peakCaches := (mapIndex none s.m_peakCaches vid).2 } vid v
    generalize getFFTModel env host
      { s with m_peakCaches := (mapIndex none s.m_peakCaches vid).2 } vid v = r at h1 h2
    obtain ⟨r1, s1⟩ := r
    cases r1 with
    | none => exact h1
    | some f =>
      dsimp only
      obtain ⟨fill, hfill⟩ := h2 f rfl
      intro w pc hpc
      dsimp only at hpc ⊢
      by_cases hw : w = vid
      · subst hw
        rw [mapFind_mapSet_self] at hpc
        simp only [Option.some.injEq] at hpc
        subst hpc
        exact ⟨fill, hfill⟩
      · rw [mapFind_mapSet_ne _ vid w hw] at hpc
        exact h1 w pc hpc

theorem peakCachesLive_setLayerDormant (s : Layer) (vid : ViewId) (dormant : Bool)
    (h : peakCachesLive s) : peakCachesLive (setLayerDormant s vid dormant) := by
  unfold setLayerDormant
  split_ifs
  · exact h
  · dsimp only
    cases hf : mapFind (invalidateImageCaches
        { s with m_dormancy := mapSet s.m_dormancy vid true }).m_fftModels vid with
    | none => exact h
    | some p => exact peakCachesLive_erase s vid h
  · exact h

/-- Claim C19.  In every state reached from a newly constructed layer through
`getFFTModel`, `getPeakCache`, `invalidateFFTModels`, `setLayerDormant`,
`setModel` and the parameter setters, a view that has a non-null peak cache
also has a non-null transform entry, and that transform is the one the peak
cache was built from. -/
theorem peak_cache_never_outlives_transform (env : Env) (host : Host) (cm : ColourMapper)
    (s : Layer) (hreach : Reachable env host cm s) (vid : ViewId) (pc : PeakCache)
    (hpc : mapFind s.m_peakCaches vid = some (some pc)) :
    ∃ fill, mapFind s.m_fftModels vid = some (some pc.source, fill) := by
  have hlive : peakCachesLive s := by
    clear hpc
    induction hreach with
    | constructed s h1 h2 => exact peakCachesLive_of_empty s h2
    | afterGetFFTModel s vid v _ ih => exact peakCachesLive_getFFTModel env host s vid v ih
    | afterGetPeakCache s vid v _ ih => exact peakCachesLive_getPeakCache env host s vid v ih
    | afterInvalidateFFTModels s _ ih => exact peakCachesLive_of_empty _ rfl
    | afterSetLayerDormant s vid dormant _ ih =>
      exact peakCachesLive_setLayerDormant s vid dormant ih
    | afterSetModel s model _ ih =>
      unfold setModel
      split_ifs
      · exact ih
      · exact peakCachesLive_of_empty _ rfl
    | afterSetChannel s ch _ ih =>
      unfold setChannel
      split_ifs
      · exact ih
      · exact peakCachesLive_of_empty _ rfl
    | afterSetWindowSize s ws _ ih =>
      unfold setWindowSize
      split_ifs
      · exact ih
      · exact peakCachesLive_of_empty _ rfl
    | afterSetWindowHopLevel s hop _ ih =>
      unfold setWindowHopLevel
      split_ifs
      · exact ih
      · exact peakCachesLive_of_empty _ rfl
    | afterSetZeroPadLevel s z _ ih =>
      unfold setZeroPadLevel
      split_ifs
      · exact ih
      · exact peakCachesLive_of_empty _ rfl
    | afterSetWindowType s w _ ih =>
      unfold setWindowType
      split_ifs
      · exact ih
      · exact peakCachesLive_of_empty _ rfl
    | afterSetGain s gain _ ih =>
      unfold setGain
      split_ifs
      · exact ih
      · exact peakCachesLive_congr s _ rfl rfl ih
    | afterSetThreshold s threshold _ ih =>
      unfold setThreshold
      split_ifs
      · exact ih
      · exact peakCachesLive_congr s _ rfl rfl ih
    | afterSetMinFrequency s mf _ ih =>
      unfold setMinFrequency
      split_ifs
      · exact ih
      · exact peakCachesLive_congr s _ rfl rfl ih
    | afterSetMaxFrequency s mf _ ih =>
      unfold setMaxFrequency
      split_ifs
      · exact ih
      · exact peakCachesLive_congr s _ rfl rfl ih
    | afterSetColourRotation s r _ ih =>
      unfold setColourRotation
      dsimp only
      split_ifs <;> exact peakCachesLive_congr s _ rfl rfl ih
    | afterSetColourScale s colourScale _ ih =>
      unfold setColourScale
      split_ifs
      · exact ih
      · exact peakCachesLive_congr s _ rfl rfl ih
    | afterSetColourMap s map _ ih =>
      unfold setColourMap
      split_ifs
      · exact ih
      · exact peakCachesLive_congr s _ rfl rfl ih
    | afterSetFrequencyScale s frequencyScale _ ih =>
      unfold setFrequencyScale
      split_ifs
      · exact ih
      · exact peakCachesLive_congr s _ rfl rfl ih
    | afterSetBinDisplay s binDisplay _ ih =>
      unfold setBinDisplay
      split_ifs
      · exact ih
      · exact peakCachesLive_congr s _ rfl rfl ih
    | afterSetNormalizeColumns s n _ ih =>
      unfold setNormalizeColumns
      split_ifs
      · exact ih
      · exact peakCachesLive_congr s _ rfl rfl ih
    | afterSetNormalizeVisibleArea s n _ ih =>
      unfold setNormalizeVisibleArea
      split_ifs
      · exact ih
      · exact peakCachesLive_congr s _ rfl rfl ih
  exact hlive vid pc hpc

/-- Witness of C19: after `setModel` and `getPeakCache(v)` on a new layer, the
view has a peak cache and the transform it was built from. -/
theorem peak_cache_never_outlives_transform_witness :
    mapFind (getPeakCache Env.sample Host.sample
        (setModel Layer.initial (some Model.sample)) 1 View.tall).2.m_peakCaches 1 =
        some (some ⟨⟨2049, 0, 0, 100, true⟩, 8⟩) ∧
      ∃ fill, mapFind (getPeakCache Env.sample Host.sample
        (setModel Layer.initial (some Model.sample)) 1 View.tall).2.m_fftModels 1 =
          some (some ⟨2049, 0, 0, 100, true⟩, fill) :=
  ⟨by decide,
    peak_cache_never_outlives_transform Env.sample Host.sample ColourMapper.sample _
      (Reachable.afterGetPeakCache _ 1 View.tall
        (Reachable.afterSetModel _ (some Model.sample)
          (Reachable.constructed Layer.initial rfl rfl)))
      1 ⟨⟨2049, 0, 0, 100, true⟩, 8⟩ (by decide)⟩

/-- Claim C12, counterexample.  A non-synchronous layer with no image cache
paints a view of 4 columns from a transform that has no column available yet.
The compositor call that paint makes (4 columns, output column x drawing from
source column 2x) meets the unavailable source column 0 at output column 0
and returns false; paint nevertheless leaves validArea covering columns 0 to
3, the aborting column included. -/
theorem paint_keeps_span_valid_after_abort :
    (paint Env.starved 64 Layer.filling 1 View.coarse (QRect.ofSize 0 0 4 2)).map
        (fun p => (mapFind p.layer.m_imageCaches 1).map (fun c => c.validArea)) =
      some (some (QRect.ofSize 0 0 4 2)) ∧
    (match paintHead Env.starved Layer.filling 1 View.coarse (QRect.ofSize 0 0 4 2) with
      | Head.request m r =>
        (Env.starved.compose
          { r.layer with
            m_viewMags := (mapIndex MagnitudeRange.unset r.layer.m_viewMags 1).2,
            m_drawBuffer := { QImage.ofSize 4 2 with pixels := fun _ _ => 0 } }
          1 View.coarse 4 2
          (fun x => match getXBinRange m View.coarse (x + 0) with
            | some f => truncBin f.1 (windowIncrement Env.starved r.layer)
            | none => -1)
          false (mapIndex MagnitudeRange.unset r.layer.m_viewMags 1).1).ok
      | Head.returned _ => true) = false := by
  refine ⟨?_, ?_⟩
  · decide!
  · decide!

/-- Claim C12, amended.  Paint does not look at what the compositor returns:
when every compositor call aborts (returns false), a paint that goes on to
repaint still leaves for the view the valid area that span selection gave it,
the whole span included, or no valid area at all (only for a non-synchronous
layer that normalises the visible area). -/
theorem paint_valid_area_ignores_abort (env : Env) (fuel : Nat) (s : Layer)
    (vid : ViewId) (v : View) (rect : QRect) (m : Model) (r : Request) (p : Painted)
    (hhead : paintHead env s vid v rect = Head.request m r)
    (hpaint : paint env fuel s vid v rect = some p)
    (_habort : ∀ (l : Layer) (vid : ViewId) (v : View) (w h : Int) (binforx : Int → Int)
      (usePeaksCache : Bool) (mag : MagnitudeRange),
      (env.compose l vid v w h binforx usePeaksCache mag).ok = false) :
    ∃ paintBlockWidth c,
      choosePaintBlockWidth env r.layer.m_synchronous r.layer.m_lastPaintBlockWidth
        r.layer.m_lastPaintTime v.getZoomLevel r.x0 r.x1 = some paintBlockWidth ∧
      mapFind p.layer.m_imageCaches vid = some c ∧
      (c.validArea =
          (selectSpan v v.getStartFrame r.cache r.x0 r.x1 paintBlockWidth).1.validArea ∨
        (c.validArea = QRect.null ∧ r.layer.m_synchronous = false ∧
          r.layer.m_normalizeVisibleArea = true)) := by
  unfold paint at hpaint
  rw [hhead] at hpaint
  exact paintTail_validArea env fuel m r vid v rect p hpaint

/-- Witness of the amended C12: the layer with no image cache paints the
coarse view with a compositor that always returns false. -/
theorem paint_valid_area_ignores_abort_witness :
    ∃ r p, paintHead Env.aborting Layer.filling 1 View.coarse (QRect.ofSize 0 0 4 2) =
        Head.request Model.sample r ∧
      paint Env.aborting 64 Layer.filling 1 View.coarse (QRect.ofSize 0 0 4 2) = some p ∧
      ∃ paintBlockWidth c,
        choosePaintBlockWidth Env.aborting r.layer.m_synchronous
          r.layer.m_lastPaintBlockWidth r.layer.m_lastPaintTime View.coarse.getZoomLevel
          r.x0 r.x1 = some paintBlockWidth ∧
        mapFind p.layer.m_imageCaches 1 = some c ∧
        (c.validArea =
            (selectSpan View.coarse View.coarse.getStartFrame r.cache r.x0 r.x1
              paintBlockWidth).1.validArea ∨
          (c.validArea = QRect.null ∧ r.layer.m_synchronous = false ∧
            r.layer.m_normalizeVisibleArea = true)) :=
  ⟨_, _, rfl, rfl,
    paint_valid_area_ignores_abort Env.aborting 64 Layer.filling 1 View.coarse
      (QRect.ofSize 0 0 4 2) Model.sample _ _ rfl rfl
      (fun _ _ _ _ _ _ _ _ => rfl)⟩

/-- Claim C13, counterexample.  The layer holds a 513-bin transform of which
only column 0 is available; `paintDrawBuffer` is asked for 2 output columns
and 2 rows, output column x drawing from source column x, row y from bin
y + 1.  Output column 0 is composed and both its pixels are written (palette
index 200 where the buffer held 0); output column 1 meets the unavailable
source column 1 and the call returns false, its own pixels unwritten. -/
theorem paintDrawBuffer_commits_columns_before_abort :
    (paintDrawBuffer Env.sample Host.partly Layer.filling 1 View.coarse 2 2
        (fun x => x) (fun y => (y : ℚ) + 1) false MagnitudeRange.unset).toOption.map
      (fun c => (c.ok, c.m_drawBuffer.pixels 0 0, c.m_drawBuffer.pixels 1 0,
        c.m_drawBuffer.pixels 0 1, c.m_drawBuffer.pixels 1 1)) =
        some (false, 200, 200, 0, 0) ∧
      Layer.filling.m_drawBuffer.pixels 0 0 = 0 ∧
      Layer.filling.m_drawBuffer.pixels 1 0 = 0 := by
  refine ⟨?_, rfl, rfl⟩
  decide!

theorem writeColumn_other (host : Host) (s : Layer) (vid : ViewId) (h x : Int)
    (peaks : Int → ℚ) (columnMax : ℚ) (row col : Int) (hcol : col ≠ x) :
    ∀ (rows : List Int) (image : QImage),
      (writeColumn host s vid h x peaks columnMax rows image).pixels row col =
        image.pixels row col := by
  intro rows
  induction rows with
  | nil => intro image; rfl
  | cons y rest ih =>
    intro image
    unfold writeColumn
    dsimp only
    rw [ih]
    simp only [QImage.setPixel, hcol, and_false, if_false]

theorem paintSources_abort (host : Host) (s : Layer) (source : Source) (interpolate : Bool)
    (binfory : Int → ℚ) (h minbin maxbin : Int) :
    ∀ (columns : List Int) (st : Fetched × (Int → ℚ)) (f : Fetched) (peaks : Int → ℚ),
      paintSources host s source interpolate binfory h minbin maxbin columns st =
        Except.ok (false, f, peaks) →
      ∃ sx ∈ columns, 0 ≤ sx ∧ sx < (source.getWidth host : Int) ∧
        s.m_synchronous = false ∧ source.isColumnAvailable host sx = false := by
  intro columns
  induction columns with
  | nil =>
    intro st f peaks hres
    unfold paintSources at hres
    simp only [Except.ok.injEq, Prod.mk.injEq, Bool.true_eq_false, false_and] at hres
  | cons sx rest ih =>
    intro st f peaks hres
    unfold paintSources at hres
    split_ifs at hres with h1 h2
    · obtain ⟨sx1, hmem, hrest⟩ := ih st f peaks hres
      exact ⟨sx1, List.mem_cons_of_mem sx hmem, hrest⟩
    · exact ⟨sx, List.mem_cons_self sx rest, by omega, by omega, h2.1, h2.2⟩
    · split at hres
      · exact absurd hres (fun h => Except.noConfusion h)
      · split at hres
        · exact absurd hres (fun h => Except.noConfusion h)
        · obtain ⟨sx1, hmem, hrest⟩ := ih _ f peaks hres
          exact ⟨sx1, List.mem_cons_of_mem sx hmem, hrest⟩

theorem paintColumn_spec (host : Host) (s : Layer) (vid : ViewId) (source : Source)
    (interpolate : Bool) (binforx : Int → Int) (binfory : Int → ℚ)
    (w h minbin maxbin divisor x : Int) (st : Fetched × QImage) (b : Bool) (f : Fetched)
    (image : QImage)
    (hres : paintColumn host s vid source interpolate binforx binfory w h minbin maxbin
      divisor x st = Except.ok (b, f, image)) :
    (∀ row col : Int, col ≠ x → image.pixels row col = st.2.pixels row col) ∧
    (b = false → image = st.2 ∧
      ∃ columns sx, sourceColumns w binforx divisor x = some columns ∧ sx ∈ columns ∧
        0 ≤ sx ∧ sx < (source.getWidth host : Int) ∧ s.m_synchronous = false ∧
        source.isColumnAvailable host sx = false) := by
  unfold paintColumn at hres
  split at hres
  · simp only [Except.ok.injEq, Prod.mk.injEq] at hres
    obtain ⟨hb, hst⟩ := hres
    have himg : image = st.2 := by rw [hst]
    subst himg
    exact ⟨fun _ _ _ => rfl, fun hf => absurd (hb.trans hf) (by decide)⟩
  · rename_i columns hcols
    split at hres
    · exact absurd hres (fun h => Except.noConfusion h)
    · rename_i f1 p1 hsrc
      simp only [Except.ok.injEq, Prod.mk.injEq] at hres
      obtain ⟨hb, hf, himg⟩ := hres
      subst himg
      refine ⟨fun _ _ _ => rfl, fun _ => ⟨rfl, ?_⟩⟩
      obtain ⟨sx, hmem, hsx⟩ := paintSources_abort host s source interpolate binfory h
        minbin maxbin columns _ f1 p1 hsrc
      exact ⟨columns, sx, hcols, hmem, hsx⟩
    · rename_i f1 p1 hsrc
      simp only [Except.ok.injEq, Prod.mk.injEq] at hres
      obtain ⟨hb, hf, himg⟩ := hres
      subst himg
      refine ⟨fun row col hcol => ?_, fun hf => absurd (hb.trans hf) (by decide)⟩
      exact writeColumn_other host s vid h x p1 f1.columnMax row col hcol _ _

theorem paintColumns_abort (host : Host) (s : Layer) (vid : ViewId) (source : Source)
    (interpolate : Bool) (binforx : Int → Int) (binfory : Int → ℚ)
    (w h minbin maxbin divisor : Int) :
    ∀ (n : Nat) (st : Fetched × QImage) (f : Fetched) (image : QImage),
      paintColumns host s vid source interpolate binforx binfory w h minbin maxbin divisor
        n st = Except.ok (false, f, image) →
      ∃ x : Int, w - n ≤ x ∧ x < w ∧
        (∃ columns sx, sourceColumns w binforx divisor x = some columns ∧ sx ∈ columns ∧
          0 ≤ sx ∧ sx < (source.getWidth host : Int) ∧ s.m_synchronous = false ∧
          source.isColumnAvailable host sx = false) ∧
        ∀ row col : Int, (x ≤ col ∨ col < w - n) →
          image.pixels row col = st.2.pixels row col := by
  intro n
  induction n with
  | zero =>
    intro st f image hres
    unfold paintColumns at hres
    simp only [Except.ok.injEq, Prod.mk.injEq, Bool.true_eq_false, false_and] at hres
  | succ n ih =>
    intro st f image hres
    unfold paintColumns at hres
    split at hres
    · exact absurd hres (fun h => Except.noConfusion h)
    · rename_i st1 hcol
      simp only [Except.ok.injEq, Prod.mk.injEq, true_and] at hres
      obtain ⟨f1, image1⟩ := st1
      simp only [Prod.mk.injEq] at hres
      obtain ⟨hf, himg⟩ := hres
      subst hf himg
      obtain ⟨-, habort⟩ := paintColumn_spec host s vid source interpolate binforx binfory
        w h minbin maxbin divisor _ st false f1 image1 hcol
      obtain ⟨himg, hsrc⟩ := habort rfl
      refine ⟨w - ((n : Int) + 1), ?_, by omega, hsrc, fun row col _ => by rw [himg]⟩
      push_cast
      omega
    · rename_i st1 hcol
      obtain ⟨f1, image1⟩ := st1
      obtain ⟨hother, -⟩ := paintColumn_spec host s vid source interpolate binforx binfory
        w h minbin maxbin divisor _ st true f1 image1 hcol
      obtain ⟨x, hx1, hx2, hsrc, hpix⟩ := ih (f1, image1) f image hres
      refine ⟨x, ?_, hx2, hsrc, fun row col hc => ?_⟩
      · push_cast
        omega
      · rw [hpix row col (by push_cast at hc; omega)]
        exact hother row col (by push_cast at hc; omega)

theorem buildFFTModel_drawBuffer (env : Env) (host : Host) (m : Model) (s : Layer)
    (vid : ViewId) (fftSize : Nat) :
    (buildFFTModel env host m s vid fftSize).2.m_drawBuffer = s.m_drawBuffer := by
  unfold buildFFTModel
  cases hf : mapFind s.m_fftModels vid with
  | none =>
    dsimp only
    split_ifs <;> rfl
  | some p => rfl

theorem getFFTModel_drawBuffer (env : Env) (host : Host) (s : Layer) (vid : ViewId)
    (v : View) : (getFFTModel env host s vid v).2.m_drawBuffer = s.m_drawBuffer := by
  unfold getFFTModel
  cases hm : s.m_model with
  | none => rfl
  | some m =>
    dsimp only
    cases hf : mapFind s.m_fftModels vid with
    | none => exact buildFFTModel_drawBuffer env host m s vid _
    | some p =>
      obtain ⟨p1, p2⟩ := p
      cases p1 with
      | none => rfl
      | some old =>
        dsimp only
        split_ifs with h1
        · exact buildFFTModel_drawBuffer env host m _ vid _
        · rfl

theorem getPeakCache_drawBuffer (env : Env) (host : Host) (s : Layer) (vid : ViewId)
    (v : View) : (getPeakCache env host s vid v).2.m_drawBuffer = s.m_drawBuffer := by
  unfold getPeakCache
  dsimp only
  cases hc : (mapIndex none s.m_peakCaches vid).1 with
  | some pc => rfl
  | none =>
    dsimp only
    have h1 := getFFTModel_drawBuffer env host
      { s with m_peakCaches := (mapIndex none s.m_peakCaches vid).2 } vid v
    generalize getFFTModel env host
      { s with m_peakCaches := (mapIndex none s.m_peakCaches vid).2 } vid v = r at h1
    obtain ⟨r1, s1⟩ := r
    cases r1 with
    | none => exact h1
    | some f => exact h1

theorem chooseSource_drawBuffer (env : Env) (host : Host) (s : Layer) (vid : ViewId)
    (v : View) (h : Int) (binfory : Int → ℚ) (usePeaksCache : Bool)
    (r : Option (Source × Int × Int × Int)) (s1 : Layer)
    (hres : chooseSource env host s vid v h binfory usePeaksCache = Except.ok (r, s1)) :
    s1.m_drawBuffer = s.m_drawBuffer := by
  unfold chooseSource at hres
  dsimp only at hres
  cases usePeaksCache
  · simp only [Bool.false_eq_true, if_false] at hres
    have h1 := getFFTModel_drawBuffer env host s vid v
    generalize getFFTModel env host s vid v = q at h1 hres
    obtain ⟨q1, q2⟩ := q
    cases q1 with
    | none =>
      simp only [Except.ok.injEq, Prod.mk.injEq] at hres
      rw [← hres.2]
      exact h1
    | some t =>
      simp only [Except.ok.injEq, Prod.mk.injEq] at hres
      rw [← hres.2]
      exact h1
  · simp only [if_true] at hres
    have h1 := getPeakCache_drawBuffer env host s vid v
    generalize getPeakCache env host s vid v = q at h1 hres
    obtain ⟨q1, q2⟩ := q
    cases q1 with
    | none => exact absurd hres (fun h => Except.noConfusion h)
    | some pc =>
      simp only [Except.ok.injEq, Prod.mk.injEq] at hres
      rw [← hres.2]
      exact h1

/-- Claim C13, amended.  When `paintDrawBuffer` returns false, either it found
no source and the draw buffer is as it was, or it stopped at an output column
x in [0, w) one of whose source columns is not available (in non-synchronous
mode), and then no pixel of column x or of a later column has been written:
what the call commits, it commits column by column, for the output columns
before x. -/
theorem paintDrawBuffer_abort_keeps_later_columns (env : Env) (host : Host) (s : Layer)
    (vid : ViewId) (v : View) (w h : Int) (binforx : Int → Int) (binfory : Int → ℚ)
    (usePeaksCache : Bool) (overallMag : MagnitudeRange) (c : Composed)
    (hres : paintDrawBuffer env host s vid v w h binforx binfory usePeaksCache overallMag =
      Except.ok c)
    (hok : c.ok = false) :
    (∃ s1, chooseSource env host s vid v h binfory usePeaksCache = Except.ok (none, s1) ∧
      c.m_drawBuffer = s.m_drawBuffer) ∨
    ∃ source minbin maxbin divisor s1 x,
      chooseSource env host s vid v h binfory usePeaksCache =
        Except.ok (some (source, minbin, maxbin, divisor), s1) ∧
      0 ≤ x ∧ x < w ∧
      (∃ columns sx, sourceColumns w binforx divisor x = some columns ∧ sx ∈ columns ∧
        0 ≤ sx ∧ sx < (source.getWidth host : Int) ∧ s1.m_synchronous = false ∧
        source.isColumnAvailable host sx = false) ∧
      ∀ row col : Int, x ≤ col →
        c.m_drawBuffer.pixels row col = s.m_drawBuffer.pixels row col := by
  unfold paintDrawBuffer at hres
  split at hres
  · exact absurd hres (fun h => Except.noConfusion h)
  · rename_i s1 hsrc
    simp only [Except.ok.injEq] at hres
    subst hres
    exact Or.inl ⟨s1, hsrc, chooseSource_drawBuffer env host s vid v h binfory usePeaksCache
      none s1 hsrc⟩
  · rename_i source minbin maxbin divisor s1 hsrc
    dsimp only at hres
    split at hres
    · exact absurd hres (fun h => Except.noConfusion h)
    · rename_i ok f image hcols
      simp only [Except.ok.injEq] at hres
      subst hres
      dsimp only at hok ⊢
      subst hok
      obtain ⟨x, hx1, hx2, habort, hpix⟩ := paintColumns_abort host s1 vid source _ binforx
        binfory w h minbin maxbin divisor w.toNat _ f image hcols
      have hw : 0 ≤ w := by omega
      refine Or.inr ⟨source, minbin, maxbin, divisor, s1, x, hsrc, by omega, hx2, habort, ?_⟩
      intro row col hcol
      rw [hpix row col (Or.inl hcol)]
      dsimp only
      rw [chooseSource_drawBuffer env host s vid v h binfory usePeaksCache _ s1 hsrc]

/-- Witness of the amended C13: the call of the counterexample, which stops at
output column 1. -/
theorem paintDrawBuffer_abort_keeps_later_columns_witness :
    ∃ c, paintDrawBuffer Env.sample Host.partly Layer.filling 1 View.coarse 2 2
        (fun x => x) (fun y => (y : ℚ) + 1) false MagnitudeRange.unset = Except.ok c ∧
      c.ok = false ∧
      ((∃ s1, chooseSource Env.sample Host.partly Layer.filling 1 View.coarse 2
          (fun y => (y : ℚ) + 1) false = Except.ok (none, s1) ∧
        c.m_drawBuffer = Layer.filling.m_drawBuffer) ∨
      ∃ source minbin maxbin divisor s1 x,
        chooseSource Env.sample Host.partly Layer.filling 1 View.coarse 2
          (fun y => (y : ℚ) + 1) false =
          Except.ok (some (source, minbin, maxbin, divisor), s1) ∧
        0 ≤ x ∧ x < 2 ∧
        (∃ columns sx, sourceColumns 2 (fun x => x) divisor x = some columns ∧
          sx ∈ columns ∧ 0 ≤ sx ∧ sx < (source.getWidth Host.partly : Int) ∧
          s1.m_synchronous = false ∧ source.isColumnAvailable Host.partly sx = false) ∧
        ∀ row col : Int, x ≤ col →
          c.m_drawBuffer.pixels row col = Layer.filling.m_drawBuffer.pixels row col) :=
  ⟨_, by with_unfolding_all rfl, by with_unfolding_all rfl,
    paintDrawBuffer_abort_keeps_later_columns Env.sample Host.partly Layer.filling 1
      View.coarse 2 2 (fun x => x) (fun y => (y : ℚ) + 1) false MagnitudeRange.unset _
      (by with_unfolding_all rfl) (by with_unfolding_all rfl)⟩

/-- Claim C17, failing input.  A layer that normalises columns draws a view
600 pixels tall from the peak cache of a 513-bin transform (window of 1024
samples, no zero padding).  The column fetched for output column 0 has 513
elements, and the loop `for (int y = 0; y < h; ++y) if (c[y] > columnMax)`
indexes it by pixel row up to 599: the call ends in the read `c[513]`, one
past the end of the column. -/
theorem paintDrawBuffer_reads_past_column_end :
    Fault.of (paintDrawBuffer Env.sample Host.plain Layer.normalising 1 View.high 4 600
        (fun x => 16 * x) (fun y => (y : ℚ) * 184 / 600 + 1) true MagnitudeRange.unset) =
      some (Fault.outOfRange 513 513) := by
  decide!

theorem tdiv_two_cases (a : Int) :
    (0 ≤ a ∧ 2 * Int.tdiv a 2 ≤ a ∧ a ≤ 2 * Int.tdiv a 2 + 1) ∨
      (a < 0 ∧ 2 * Int.tdiv a 2 - 1 ≤ a ∧ a ≤ 2 * Int.tdiv a 2) := by
  by_cases h : 0 ≤ a
  · left
    rw [Int.tdiv_eq_ediv h (by decide)]
    omega
  · right
    have h1 : Int.tdiv a 2 = -(Int.tdiv (-a) 2) := by
      rw [Int.neg_tdiv, neg_neg]
    rw [h1, Int.tdiv_eq_ediv (by omega) (by decide)]
    omega

/-- Claim C30.  Cold-cache span selection stays inside the request: when the
cache has no valid area, the requested range is `[x0, x1)` and the block width
is at least 1, the span chosen has width `min(x1 - x0, pbw)` and lies within
`[x0, x1)`; it is the request itself when that is no wider than the block,
it starts at the pixel of frame 0 when the view starts before frame 0 and the
block fits between that pixel and `x1`, and it starts at
`(x1 + x0) / 2 - pbw / 2` otherwise; the valid area is set to exactly that
span at the full height of the view. -/
theorem cold_span_selection_within_request (v : View) (startFrame : Int)
    (cache : ImageCache) (x0 x1 paintBlockWidth : Int)
    (hcold : ¬ cache.validArea.width > 0) (hp : 1 ≤ paintBlockWidth) :
    (selectSpan v startFrame cache x0 x1 paintBlockWidth).2.2 -
        (selectSpan v startFrame cache x0 x1 paintBlockWidth).2.1 =
      min (x1 - x0) paintBlockWidth ∧
    x0 ≤ (selectSpan v startFrame cache x0 x1 paintBlockWidth).2.1 ∧
    (selectSpan v startFrame cache x0 x1 paintBlockWidth).2.2 ≤ x1 ∧
    (x1 ≤ x0 + paintBlockWidth →
      (selectSpan v startFrame cache x0 x1 paintBlockWidth).2 = (x0, x1)) ∧
    (x0 + paintBlockWidth < x1 → startFrame < 0 → x0 ≤ v.getXForFrame 0 →
      v.getXForFrame 0 + paintBlockWidth ≤ x1 →
      (selectSpan v startFrame cache x0 x1 paintBlockWidth).2.1 = v.getXForFrame 0) ∧
    (x0 + paintBlockWidth < x1 →
      ¬ (startFrame < 0 ∧ x0 ≤ v.getXForFrame 0 ∧
          v.getXForFrame 0 + paintBlockWidth ≤ x1) →
      (selectSpan v startFrame cache x0 x1 paintBlockWidth).2.1 =
        Int.tdiv (x1 + x0) 2 - Int.tdiv paintBlockWidth 2) ∧
    (selectSpan v startFrame cache x0 x1 paintBlockWidth).1.validArea =
      QRect.ofSize (selectSpan v startFrame cache x0 x1 paintBlockWidth).2.1 0
        ((selectSpan v startFrame cache x0 x1 paintBlockWidth).2.2 -
          (selectSpan v startFrame cache x0 x1 paintBlockWidth).2.1) v.height := by
  have hm := tdiv_two_cases (x1 + x0)
  have hb := tdiv_two_cases paintBlockWidth
  unfold selectSpan
  simp only [hcold, if_false]
  generalize Int.tdiv (x1 + x0) 2 = mid at hm
  generalize Int.tdiv paintBlockWidth 2 = half at hb
  generalize v.getXForFrame 0 = sfx
  split_ifs <;> dsimp only <;>
    refine ⟨by omega, by omega, by omega, ?_, ?_, ?_, ?_⟩ <;> intros <;>
    first
    | trivial
    | rfl
    | omega

/-- Witness of C30: a request of 10 columns with a block width of 4 on a view
that starts at frame 0 gives the span `[3, 7)`. -/
theorem cold_span_selection_within_request_witness :
    (selectSpan View.wide 0 ImageCache.empty 0 10 4).2 = (3, 7) ∧
    (selectSpan View.wide 0 ImageCache.empty 0 10 4).2.2 -
        (selectSpan View.wide 0 ImageCache.empty 0 10 4).2.1 = min (10 - 0) 4 ∧
    (selectSpan View.wide 0 ImageCache.empty 0 10 4).1.validArea =
      QRect.ofSize 3 0 4 10 := by
  obtain ⟨h1, -, -, -, -, -, h7⟩ := cold_span_selection_within_request View.wide 0
    ImageCache.empty 0 10 4 (by decide) (by decide)
  exact ⟨by decide, h1, by decide⟩

/-- Claim C27, the code at the failing input.  `getXBinRange` subtracts the
model start frame from the frames of the pixel column and then compares the
offsets with the unshifted model bounds: it returns true exactly when
`2 * modelStart <= F1` and `F0 <= modelEnd + modelStart`, `[F0, F1]` being
the frames of the column.  For a model of frames 44100 to 88200 and a view
that starts at frame 44100 with 64 frames per column, column 0 shows frames
44100 to 44163, all of them in the model, and the result is false. -/
theorem getXBinRange_compares_offsets_with_frames :
    (∀ (m : Model) (v : View) (x : Int),
      (getXBinRange m v x).isSome = true ↔
        (2 * (m.getStartFrame : Int) ≤ v.getFrameForX (x + 1) - 1 ∧
          v.getFrameForX x ≤ (m.getEndFrame : Int) + (m.getStartFrame : Int))) ∧
    View.late.getFrameForX 0 = 44100 ∧ View.late.getFrameForX (0 + 1) - 1 = 44163 ∧
    (Model.late.getStartFrame : Int) ≤ View.late.getFrameForX 0 ∧
    View.late.getFrameForX (0 + 1) - 1 ≤ (Model.late.getEndFrame : Int) ∧
    getXBinRange Model.late View.late 0 = none := by
  refine ⟨?_, by decide, by decide, by decide, by decide, by decide⟩
  intro m v x
  unfold getXBinRange
  dsimp only
  split_ifs with h
  · simp only [Option.isSome_none, Bool.false_eq_true, false_iff]
    omega
  · simp only [Option.isSome_some, true_iff]
    omega

/-- Claim C28, the code at the failing input.  On a new layer with a model,
`getFFTModel` builds a transform for view 1 and starts the fill timer; for
view 2 the construction fails and `FFTFillPair(0, 0)` is stored.  The state
is reachable, the timer is running and view 2 has an entry, so
`getCompletion` for view 2 goes on to `m_fftModels[v].first->getCompletion()`
through the null pointer, where `getCompletion` for view 1 returns the
completion of its transform. -/
theorem getCompletion_reads_null_transform :
    Reachable Env.sample Host.tight ColourMapper.sample Layer.halfBuilt ∧
    Layer.halfBuilt.m_updateTimer = true ∧
    mapFind Layer.halfBuilt.m_fftModels 1 = some (some ⟨513, 0, 0, 0, true⟩, 0) ∧
    mapFind Layer.halfBuilt.m_fftModels 2 = some (none, 0) ∧
    getCompletion Layer.halfBuilt 1 = some 0 ∧
    getCompletion Layer.halfBuilt 2 = none :=
  ⟨Reachable.afterGetFFTModel _ 2 View.tall
      (Reachable.afterGetFFTModel _ 1 View.wide
        (Reachable.afterSetModel _ (some Model.sample)
          (Reachable.constructed Layer.initial rfl rfl))),
    by decide, by decide, by decide, by decide, by decide⟩

/-- Claim C24, the code at the failing input.  Views 1 (frames 0 to 16383)
and 2 (frames 16384 to 32767) are cached in full and frames 20000 to 24000
change.  View 2 shows frame 20000 in column 56.  The loop reaches view 1
first, finds the range off the right of it and leaves the function by
`return`: the entry of view 2 is not looked at and column 56 stays valid.
With view 2 cached alone, the same call takes column 56 out of its valid
area. -/
theorem invalidate_range_stops_at_first_unaffected_view :
    View.next.getStartFrame ≤ 20000 ∧ 20000 ≤ View.next.getEndFrame ∧
    View.next.getFrameForX 56 ≤ 20000 ∧ 20000 < View.next.getFrameForX (56 + 1) ∧
    (∃ c, mapFind (invalidateImageCachesIn View.pair Layer.pair 20000
        24000).m_imageCaches 2 = some c ∧
      c.validArea = QRect.ofSize 0 0 256 10 ∧ c.validArea.hasColumn 56) ∧
    (∃ c, mapFind (invalidateImageCachesIn View.pair Layer.second 20000
        24000).m_imageCaches 2 = some c ∧
      c.validArea = QRect.ofSize 0 0 55 10 ∧ ¬ c.validArea.hasColumn 56) :=
  ⟨by decide, by decide, by decide, by decide,
    ⟨_, rfl, by decide, by decide⟩, ⟨_, rfl, by decide, by decide⟩⟩

theorem setModel_windowing (s : Layer) (model : Option Model) :
    sameWindowing (setModel s model) s := by
  unfold setModel
  split_ifs <;> exact ⟨rfl, rfl, rfl⟩

theorem setModel_palette (s : Layer) (model : Option Model) :
    samePalette (setModel s model) s := by
  unfold setModel
  split_ifs <;> exact ⟨rfl, rfl, rfl⟩

theorem setChannel_windowing (s : Layer) (ch : Int) :
    sameWindowing (setChannel s ch) s := by
  unfold setChannel
  split_ifs <;> exact ⟨rfl, rfl, rfl⟩

theorem setChannel_palette (s : Layer) (ch : Int) :
    samePalette (setChannel s ch) s := by
  unfold setChannel
  split_ifs <;> exact ⟨rfl, rfl, rfl⟩

theorem setWindowSize_palette (s : Layer) (ws : Nat) :
    samePalette (setWindowSize s ws) s := by
  unfold setWindowSize
  split_ifs <;> exact ⟨rfl, rfl, rfl⟩

theorem setWindowHopLevel_windowing (s : Layer) (hop : Nat) :
    sameWindowing (setWindowHopLevel s hop) s := by
  unfold setWindowHopLevel
  split_ifs <;> exact ⟨rfl, rfl, rfl⟩

theorem setWindowHopLevel_palette (s : Layer) (hop : Nat) :
    samePalette (setWindowHopLevel s hop) s := by
  unfold setWindowHopLevel
  split_ifs <;> exact ⟨rfl, rfl, rfl⟩

theorem setZeroPadLevel_palette (s : Layer) (z : Nat) :
    samePalette (setZeroPadLevel s z) s := by
  unfold setZeroPadLevel
  split_ifs <;> exact ⟨rfl, rfl, rfl⟩

theorem setWindowType_windowing (s : Layer) (w : WindowType) :
    sameWindowing (setWindowType s w) s := by
  unfold setWindowType
  split_ifs <;> exact ⟨rfl, rfl, rfl⟩

theorem setWindowType_palette (s : Layer) (w : WindowType) :
    samePalette (setWindowType s w) s := by
  unfold setWindowType
  split_ifs <;> exact ⟨rfl, rfl, rfl⟩

theorem setGain_windowing (s : Layer) (gain : ℚ) :
    sameWindowing (setGain s gain) s := by
  unfold setGain
  split_ifs <;> exact ⟨rfl, rfl, rfl⟩

theorem setGain_palette (s : Layer) (gain : ℚ) :
    samePalette (setGain s gain) s := by
  unfold setGain
  split_ifs <;> exact ⟨rfl, rfl, rfl⟩

theorem setThreshold_windowing (s : Layer) (threshold : ℚ) :
    sameWindowing (setThreshold s threshold) s := by
  unfold setThreshold
  split_ifs <;> exact ⟨rfl, rfl, rfl⟩

theorem setThreshold_palette (s : Layer) (threshold : ℚ) :
    samePalette (setThreshold s threshold) s := by
  unfold setThreshold
  split_ifs <;> exact ⟨rfl, rfl, rfl⟩

theorem setMinFrequency_windowing (s : Layer) (mf : Nat) :
    sameWindowing (setMinFrequency s mf) s := by
  unfold setMinFrequency
  split_ifs <;> exact ⟨rfl, rfl, rfl⟩

theorem setMinFrequency_palette (s : Layer) (mf : Nat) :
    samePalette (setMinFrequency s mf) s := by
  unfold setMinFrequency
  split_ifs <;> exact ⟨rfl, rfl, rfl⟩

theorem setMaxFrequency_windowing (s : Layer) (mf : Nat) :
    sameWindowing (setMaxFrequency s mf) s := by
  unfold setMaxFrequency
  split_ifs <;> exact ⟨rfl, rfl, rfl⟩

theorem setMaxFrequency_palette (s : Layer) (mf : Nat) :
    samePalette (setMaxFrequency s mf) s := by
  unfold setMaxFrequency
  split_ifs <;> exact ⟨rfl, rfl, rfl⟩

theorem setColourScale_windowing (s : Layer) (scale : ColourScale) :
    sameWindowing (setColourScale s scale) s := by
  unfold setColourScale
  split_ifs <;> exact ⟨rfl, rfl, rfl⟩

theorem setColourScale_palette (s : Layer) (scale : ColourScale) :
    samePalette (setColourScale s scale) s := by
  unfold setColourScale
  split_ifs <;> exact ⟨rfl, rfl, rfl⟩

theorem setFrequencyScale_windowing (s : Layer) (scale : FrequencyScale) :
    sameWindowing (setFrequencyScale s scale) s := by
  unfold setFrequencyScale
  split_ifs <;> exact ⟨rfl, rfl, rfl⟩

theorem setFrequencyScale_palette (s : Layer) (scale : FrequencyScale) :
    samePalette (setFrequencyScale s scale) s := by
  unfold setFrequencyScale
  split_ifs <;> exact ⟨rfl, rfl, rfl⟩

theorem setBinDisplay_windowing (s : Layer) (display : BinDisplay) :
    sameWindowing (setBinDisplay s display) s := by
  unfold setBinDisplay
  split_ifs <;> exact ⟨rfl, rfl, rfl⟩

theorem setBinDisplay_palette (s : Layer) (display : BinDisplay) :
    samePalette (setBinDisplay s display) s := by
  unfold setBinDisplay
  split_ifs <;> exact ⟨rfl, rfl, rfl⟩

theorem setNormalizeColumns_windowing (s : Layer) (n : Bool) :
    sameWindowing (setNormalizeColumns s n) s := by
  unfold setNormalizeColumns
  split_ifs <;> exact ⟨rfl, rfl, rfl⟩

theorem setNormalizeColumns_palette (s : Layer) (n : Bool) :
    samePalette (setNormalizeColumns s n) s := by
  unfold setNormalizeColumns
  split_ifs <;> exact ⟨rfl, rfl, rfl⟩

theorem setNormalizeVisibleArea_windowing (s : Layer) (n : Bool) :
    sameWindowing (setNormalizeVisibleArea s n) s := by
  unfold setNormalizeVisibleArea
  split_ifs <;> exact ⟨rfl, rfl, rfl⟩

theorem setNormalizeVisibleArea_palette (s : Layer) (n : Bool) :
    samePalette (setNormalizeVisibleArea s n) s := by
  unfold setNormalizeVisibleArea
  split_ifs <;> exact ⟨rfl, rfl, rfl⟩

theorem setColourRotation_windowing (s : Layer) (r : Int) :
    sameWindowing (setColourRotation s r) s := by
  unfold setColourRotation
  dsimp only
  split_ifs <;> exact ⟨rfl, rfl, rfl⟩

theorem initialisePalette_windowing (cm : ColourMapper) (s : Layer) :
    sameWindowing (initialisePalette cm s) s := ⟨rfl, rfl, rfl⟩

theorem setColourMap_windowing (cm : ColourMapper) (s : Layer) (map : Int) :
    sameWindowing (setColourMap cm s map) s := by
  unfold setColourMap
  split_ifs <;> exact ⟨rfl, rfl, rfl⟩

theorem setLayerDormant_windowing (s : Layer) (vid : ViewId) (dormant : Bool) :
    sameWindowing (setLayerDormant s vid dormant) s := by
  unfold setLayerDormant
  split_ifs
  · exact ⟨rfl, rfl, rfl⟩
  · dsimp only
    split <;> exact ⟨rfl, rfl, rfl⟩
  · exact ⟨rfl, rfl, rfl⟩

theorem sameWindowing_invariant (t s : Layer) (h : sameWindowing t s)
    (hinv : s.m_fftSize = s.m_windowSize * (s.m_zeroPadLevel + 1) % 2 ^ 64) :
    t.m_fftSize = t.m_windowSize * (t.m_zeroPadLevel + 1) % 2 ^ 64 := by
  obtain ⟨h1, h2, h3⟩ := h
  rw [h1, h2, h3]
  exact hinv

theorem setWindowSize_invariant (s : Layer) (ws : Nat)
    (hinv : s.m_fftSize = s.m_windowSize * (s.m_zeroPadLevel + 1) % 2 ^ 64) :
    (setWindowSize s ws).m_fftSize =
      (setWindowSize s ws).m_windowSize * ((setWindowSize s ws).m_zeroPadLevel + 1) %
        2 ^ 64 := by
  unfold setWindowSize
  split_ifs
  · exact hinv
  · rfl

theorem setZeroPadLevel_invariant (s : Layer) (z : Nat)
    (hinv : s.m_fftSize = s.m_windowSize * (s.m_zeroPadLevel + 1) % 2 ^ 64) :
    (setZeroPadLevel s z).m_fftSize =
      (setZeroPadLevel s z).m_windowSize * ((setZeroPadLevel s z).m_zeroPadLevel + 1) %
        2 ^ 64 := by
  unfold setZeroPadLevel
  split_ifs
  · exact hinv
  · rfl

theorem construct_invariant (cm : ColourMapper) (sunset : Int)
    (prefsWindowType : WindowType) (config : Configuration) :
    (construct cm sunset prefsWindowType config).m_fftSize =
      (construct cm sunset prefsWindowType config).m_windowSize *
        ((construct cm sunset prefsWindowType config).m_zeroPadLevel + 1) % 2 ^ 64 := by
  have h0 : Layer.initial.m_fftSize =
      Layer.initial.m_windowSize * (Layer.initial.m_zeroPadLevel + 1) % 2 ^ 64 := by decide
  unfold construct
  refine sameWindowing_invariant _ _ (initialisePalette_windowing cm _) ?_
  refine sameWindowing_invariant _ _ (setWindowType_windowing _ _) ?_
  cases config
  · exact sameWindowing_invariant _ _ (setMaxFrequency_windowing _ _) h0
  · dsimp only
    refine sameWindowing_invariant _ _ (setFrequencyScale_windowing _ _) ?_
    refine sameWindowing_invariant _ _ (setColourMap_windowing cm _ _) ?_
    refine sameWindowing_invariant _ _ (setColourScale_windowing _ _) ?_
    refine sameWindowing_invariant _ _ (setMinFrequency_windowing _ _) ?_
    refine sameWindowing_invariant _ _ (setMaxFrequency_windowing _ _) ?_
    refine sameWindowing_invariant _ _ (setWindowHopLevel_windowing _ _) ?_
    exact setWindowSize_invariant _ _ h0
  · dsimp only
    refine sameWindowing_invariant _ _ (setNormalizeColumns_windowing _ _) ?_
    refine sameWindowing_invariant _ _ (setBinDisplay_windowing _ _) ?_
    refine sameWindowing_invariant _ _ (setColourScale_windowing _ _) ?_
    refine sameWindowing_invariant _ _ (setFrequencyScale_windowing _ _) ?_
    refine sameWindowing_invariant _ _ (setMinFrequency_windowing _ _) ?_
    refine sameWindowing_invariant _ _ (setMaxFrequency_windowing _ _) ?_
    refine sameWindowing_invariant _ _ (setWindowHopLevel_windowing _ _) ?_
    exact setWindowSize_invariant _ _ h0

/-- Claim C25.  The nominal fft size is the window size times the zero-pad
factor (in `size_t` arithmetic): `m_fftSize == m_windowSize * (m_zeroPadLevel
+ 1)` holds after construction for every configuration, and in a layer where
it holds it still holds after `setWindowSize`, `setZeroPadLevel` and every
other setter, whatever the argument. -/
theorem fft_size_is_window_size_times_zero_pad (cm : ColourMapper) (sunset : Int)
    (prefsWindowType : WindowType) (s : Layer)
    (hinv : s.m_fftSize = s.m_windowSize * (s.m_zeroPadLevel + 1) % 2 ^ 64) :
    (∀ config : Configuration,
      (construct cm sunset prefsWindowType config).m_fftSize =
        (construct cm sunset prefsWindowType config).m_windowSize *
          ((construct cm sunset prefsWindowType config).m_zeroPadLevel + 1) % 2 ^ 64) ∧
    (∀ ws, (setWindowSize s ws).m_fftSize =
      (setWindowSize s ws).m_windowSize * ((setWindowSize s ws).m_zeroPadLevel + 1) % 2 ^ 64) ∧
    (∀ z, (setZeroPadLevel s z).m_fftSize =
      (setZeroPadLevel s z).m_windowSize * ((setZeroPadLevel s z).m_zeroPadLevel + 1) %
        2 ^ 64) ∧
    (∀ t : Layer,
      ((∃ model, t = setModel s model) ∨ (∃ ch, t = setChannel s ch) ∨
        (∃ hop, t = setWindowHopLevel s hop) ∨ (∃ w, t = setWindowType s w) ∨
        (∃ gain, t = setGain s gain) ∨ (∃ threshold, t = setThreshold s threshold) ∨
        (∃ mf, t = setMinFrequency s mf) ∨ (∃ mf, t = setMaxFrequency s mf) ∨
        (∃ r, t = setColourRotation s r) ∨ (∃ scale, t = setColourScale s scale) ∨
        (∃ map, t = setColourMap cm s map) ∨ (∃ scale, t = setFrequencyScale s scale) ∨
        (∃ display, t = setBinDisplay s display) ∨ (∃ n, t = setNormalizeColumns s n) ∨
        (∃ n, t = setNormalizeVisibleArea s n) ∨
        (∃ vid dormant, t = setLayerDormant s vid dormant)) →
      t.m_fftSize = t.m_windowSize * (t.m_zeroPadLevel + 1) % 2 ^ 64) := by
  refine ⟨construct_invariant cm sunset prefsWindowType,
    fun ws => setWindowSize_invariant s ws hinv,
    fun z => setZeroPadLevel_invariant s z hinv, ?_⟩
  intro t ht
  rcases ht with ⟨model, rfl⟩ | ⟨ch, rfl⟩ | ⟨hop, rfl⟩ | ⟨w, rfl⟩ | ⟨gain, rfl⟩ |
    ⟨threshold, rfl⟩ | ⟨mf, rfl⟩ | ⟨mf, rfl⟩ | ⟨r, rfl⟩ | ⟨scale, rfl⟩ | ⟨map, rfl⟩ |
    ⟨scale, rfl⟩ | ⟨display, rfl⟩ | ⟨n, rfl⟩ | ⟨n, rfl⟩ | ⟨vid, dormant, rfl⟩
  · exact sameWindowing_invariant _ _ (setModel_windowing _ _) hinv
  · exact sameWindowing_invariant _ _ (setChannel_windowing _ _) hinv
  · exact sameWindowing_invariant _ _ (setWindowHopLevel_windowing _ _) hinv
  · exact sameWindowing_invariant _ _ (setWindowType_windowing _ _) hinv
  · exact sameWindowing_invariant _ _ (setGain_windowing _ _) hinv
  · exact sameWindowing_invariant _ _ (setThreshold_windowing _ _) hinv
  · exact sameWindowing_invariant _ _ (setMinFrequency_windowing _ _) hinv
  · exact sameWindowing_invariant _ _ (setMaxFrequency_windowing _ _) hinv
  · exact sameWindowing_invariant _ _ (setColourRotation_windowing _ _) hinv
  · exact sameWindowing_invariant _ _ (setColourScale_windowing _ _) hinv
  · exact sameWindowing_invariant _ _ (setColourMap_windowing cm _ _) hinv
  · exact sameWindowing_invariant _ _ (setFrequencyScale_windowing _ _) hinv
  · exact sameWindowing_invariant _ _ (setBinDisplay_windowing _ _) hinv
  · exact sameWindowing_invariant _ _ (setNormalizeColumns_windowing _ _) hinv
  · exact sameWindowing_invariant _ _ (setNormalizeVisibleArea_windowing _ _) hinv
  · exact sameWindowing_invariant _ _ (setLayerDormant_windowing _ _ _) hinv

/-- Witness of C25: the members as the initialiser list leaves them (window
size 1024, zero-pad level 0, fft size 1024), and `setZeroPadLevel(3)` on
them. -/
theorem fft_size_is_window_size_times_zero_pad_witness :
    Layer.initial.m_fftSize = 1024 ∧
    (setZeroPadLevel Layer.initial 3).m_fftSize = 4096 ∧
    (setZeroPadLevel Layer.initial 3).m_fftSize =
      (setZeroPadLevel Layer.initial 3).m_windowSize *
        ((setZeroPadLevel Layer.initial 3).m_zeroPadLevel + 1) % 2 ^ 64 :=
  ⟨rfl, by decide,
    (fft_size_is_window_size_times_zero_pad ColourMapper.sample 5 3 Layer.initial
      (by decide)).2.2.1 3⟩

theorem wrapTarget_unique (a b : Int) (h : (a - b) % 255 = 0) :
    lowerTarget (raiseTarget a) = lowerTarget (raiseTarget b) := by
  obtain ⟨a1, a2, a3⟩ := wrapTarget_spec a
  obtain ⟨b1, b2, b3⟩ := wrapTarget_spec b
  omega

theorem wrapTarget_id (a : Int) (h1 : 1 ≤ a) (h2 : a ≤ 255) :
    lowerTarget (raiseTarget a) = a := by
  obtain ⟨a1, a2, a3⟩ := wrapTarget_spec a
  omega

theorem paletteSlot_spec (p : Nat) (r : Int) :
    1 ≤ (((p : Int) - 1 - r) % 255 + 1).toNat ∧
      (((p : Int) - 1 - r) % 255 + 1).toNat < 256 ∧
      (Int.ofNat (((p : Int) - 1 - r) % 255 + 1).toNat - ((p : Int) - r)) % 255 = 0 := by
  simp only [Int.ofNat_eq_coe]
  omega

theorem initialisePalette_spec (cm : ColourMapper) (s : Layer) :
    (initialisePalette cm s).m_colourRotation = s.m_colourRotation ∧
    (initialisePalette cm s).m_colourMap = s.m_colourMap ∧
    (initialisePalette cm s).m_palette 0 =
      (if s.m_colourMap = cm.blackOnWhite then Qt.white else Qt.black) ∧
    ∀ p : Nat, 1 ≤ p → p ≤ 255 →
      (initialisePalette cm s).m_palette
          (((p : Int) - 1 - s.m_colourRotation) % 255 + 1).toNat =
        cm.map s.m_colourMap p := by
  refine ⟨rfl, rfl, ?_, ?_⟩
  · unfold initialisePalette
    dsimp only
    rw [rotatePalette_entry, if_neg (by omega), if_neg (by omega)]
    exact Function.update_same _ _ _
  · intro p hp1 hp2
    obtain ⟨k1, k2, k3⟩ := paletteSlot_spec p s.m_colourRotation
    unfold initialisePalette
    dsimp only
    rw [rotatePalette_entry, if_pos ⟨k1, k2⟩]
    have hw : lowerTarget (raiseTarget
        (Int.ofNat (((p : Int) - 1 - s.m_colourRotation) % 255 + 1).toNat -
          (0 - s.m_colourRotation))) = (p : Int) := by
      rw [wrapTarget_unique _ (p : Int) (by omega)]
      exact wrapTarget_id _ (by omega) (by omega)
    rw [hw, Int.toNat_ofNat, if_pos ⟨hp1, by omega⟩]

theorem setColourRotation_spec (cm : ColourMapper) (s : Layer) (r : Int)
    (hzero : s.m_palette 0 =
      (if s.m_colourMap = cm.blackOnWhite then Qt.white else Qt.black))
    (hbase : ∀ p : Nat, 1 ≤ p → p ≤ 255 →
      s.m_palette (((p : Int) - 1 - s.m_colourRotation) % 255 + 1).toNat =
        cm.map s.m_colourMap p)
    (hrot : 0 ≤ s.m_colourRotation ∧ s.m_colourRotation ≤ 256) :
    (0 ≤ (setColourRotation s r).m_colourRotation ∧
      (setColourRotation s r).m_colourRotation ≤ 256) ∧
    (setColourRotation s r).m_colourMap = s.m_colourMap ∧
    (setColourRotation s r).m_palette 0 =
      (if s.m_colourMap = cm.blackOnWhite then Qt.white else Qt.black) ∧
    ∀ p : Nat, 1 ≤ p → p ≤ 255 →
      (setColourRotation s r).m_palette
          (((p : Int) - 1 - (setColourRotation s r).m_colourRotation) % 255 + 1).toNat =
        cm.map s.m_colourMap p := by
  unfold setColourRotation
  dsimp only
  have hsame : (invalidateImageCaches s).m_colourRotation = s.m_colourRotation := rfl
  have hpal : (invalidateImageCaches s).m_palette = s.m_palette := rfl
  rw [hsame, hpal]
  generalize hr2 : (if (if r < 0 then 0 else r) > 256 then 256 else if r < 0 then 0 else r) = r2
  have hr2b : 0 ≤ r2 ∧ r2 ≤ 256 := by
    rw [← hr2]
    split_ifs <;> omega
  by_cases hd : r2 - s.m_colourRotation ≠ 0
  · rw [if_pos hd]
    dsimp only
    refine ⟨hr2b, rfl, ?_, ?_⟩
    · rw [rotatePalette_entry, if_neg (by omega)]
      exact hzero
    · intro p hp1 hp2
      obtain ⟨k1, k2, k3⟩ := paletteSlot_spec p r2
      obtain ⟨j1, j2, j3⟩ := paletteSlot_spec p s.m_colourRotation
      rw [rotatePalette_entry, if_pos ⟨k1, k2⟩]
      have hw : lowerTarget (raiseTarget
          (Int.ofNat (((p : Int) - 1 - r2) % 255 + 1).toNat -
            -(r2 - s.m_colourRotation))) =
          Int.ofNat (((p : Int) - 1 - s.m_colourRotation) % 255 + 1).toNat := by
        rw [wrapTarget_unique _
          (Int.ofNat (((p : Int) - 1 - s.m_colourRotation) % 255 + 1).toNat) (by omega)]
        exact wrapTarget_id _ (by simp only [Int.ofNat_eq_coe]; omega)
          (by simp only [Int.ofNat_eq_coe]; omega)
      rw [hw]
      exact hbase p hp1 hp2
  · rw [if_neg hd]
    refine ⟨hrot, rfl, hzero, hbase⟩

theorem samePalette_rotation (t s : Layer) (h : samePalette t s)
    (h0 : s.m_colourRotation = 0) : t.m_colourRotation = 0 := h.1.trans h0

theorem setColourMap_rotation (cm : ColourMapper) (s : Layer) (map : Int)
    (h0 : s.m_colourRotation = 0) : (setColourMap cm s map).m_colourRotation = 0 := by
  unfold setColourMap
  split_ifs
  · exact h0
  · exact h0

theorem construct_rotation (cm : ColourMapper) (sunset : Int)
    (prefsWindowType : WindowType) (config : Configuration) :
    ∃ s, construct cm sunset prefsWindowType config = initialisePalette cm s ∧
      s.m_colourRotation = 0 := by
  unfold construct
  refine ⟨_, rfl, ?_⟩
  refine samePalette_rotation _ _ (setWindowType_palette _ _) ?_
  cases config
  · exact samePalette_rotation _ _ (setMaxFrequency_palette _ _) rfl
  · dsimp only
    refine samePalette_rotation _ _ (setFrequencyScale_palette _ _) ?_
    refine setColourMap_rotation cm _ _ ?_
    refine samePalette_rotation _ _ (setColourScale_palette _ _) ?_
    refine samePalette_rotation _ _ (setMinFrequency_palette _ _) ?_
    refine samePalette_rotation _ _ (setMaxFrequency_palette _ _) ?_
    refine samePalette_rotation _ _ (setWindowHopLevel_palette _ _) ?_
    exact samePalette_rotation _ _ (setWindowSize_palette _ _) rfl
  · dsimp only
    refine samePalette_rotation _ _ (setNormalizeColumns_palette _ _) ?_
    refine samePalette_rotation _ _ (setBinDisplay_palette _ _) ?_
    refine samePalette_rotation _ _ (setColourScale_palette _ _) ?_
    refine samePalette_rotation _ _ (setFrequencyScale_palette _ _) ?_
    refine samePalette_rotation _ _ (setMinFrequency_palette _ _) ?_
    refine samePalette_rotation _ _ (setMaxFrequency_palette _ _) ?_
    refine samePalette_rotation _ _ (setWindowHopLevel_palette _ _) ?_
    exact samePalette_rotation _ _ (setWindowSize_palette _ _) rfl

theorem setColourMap_spec (cm : ColourMapper) (s : Layer) (map : Int)
    (hinv : (0 ≤ s.m_colourRotation ∧ s.m_colourRotation ≤ 256) ∧
      s.m_palette 0 = (if s.m_colourMap = cm.blackOnWhite then Qt.white else Qt.black) ∧
      ∀ p : Nat, 1 ≤ p → p ≤ 255 →
        s.m_palette (((p : Int) - 1 - s.m_colourRotation) % 255 + 1).toNat =
          cm.map s.m_colourMap p) :
    (0 ≤ (setColourMap cm s map).m_colourRotation ∧
      (setColourMap cm s map).m_colourRotation ≤ 256) ∧
    (setColourMap cm s map).m_palette 0 =
      (if (setColourMap cm s map).m_colourMap = cm.blackOnWhite then Qt.white
        else Qt.black) ∧
    ∀ p : Nat, 1 ≤ p → p ≤ 255 →
      (setColourMap cm s map).m_palette
          (((p : Int) - 1 - (setColourMap cm s map).m_colourRotation) % 255 + 1).toNat =
        cm.map (setColourMap cm s map).m_colourMap p := by
  unfold setColourMap
  by_cases h : s.m_colourMap = map
  · rw [if_pos h]
    exact hinv
  · rw [if_neg h]
    obtain ⟨-, -, h3, h4⟩ := initialisePalette_spec cm
      { invalidateImageCaches s with m_colourMap := map }
    exact ⟨hinv.1, h3, h4⟩

/-- Claim C26.  In every state reached from a newly constructed layer through
`setColourMap` and `setColourRotation`, the colour rotation lies in
`[0, 256]`, entry 0 of the palette is the no-value colour of the colour map
(white for black-on-white, black otherwise) and, for every p in 1..255, the
base colour `mapper.map(p)` of the colour map is stored at index
`((p - 1 - m_colourRotation) mod 255) + 1`. -/
theorem palette_is_base_table_rotated (cm : ColourMapper) (sunset : Int)
    (prefsWindowType : WindowType) (s : Layer)
    (hreach : PaletteReachable cm sunset prefsWindowType s) :
    (0 ≤ s.m_colourRotation ∧ s.m_colourRotation ≤ 256) ∧
    s.m_palette 0 = (if s.m_colourMap = cm.blackOnWhite then Qt.white else Qt.black) ∧
    ∀ p : Nat, 1 ≤ p → p ≤ 255 →
      s.m_palette (((p : Int) - 1 - s.m_colourRotation) % 255 + 1).toNat =
        cm.map s.m_colourMap p := by
  induction hreach with
  | constructed config =>
    obtain ⟨s0, hs0, hrot⟩ := construct_rotation cm sunset prefsWindowType config
    rw [hs0]
    obtain ⟨h1, h2, h3, h4⟩ := initialisePalette_spec cm s0
    rw [h1, h2]
    exact ⟨by omega, h3, h4⟩
  | afterSetColourMap s map _ ih => exact setColourMap_spec cm s map ih
  | afterSetColourRotation s r _ ih =>
    obtain ⟨h1, h2, h3, h4⟩ := setColourRotation_spec cm s r ih.2.1 ih.2.2 ih.1
    rw [h2]
    exact ⟨h1, h3, h4⟩

/-- Witness of C26: a melodic-range layer after `setColourRotation(255)` and
`setColourMap(2)`. -/
theorem palette_is_base_table_rotated_witness :
    (setColourMap ColourMapper.sample
        (setColourRotation (construct ColourMapper.sample 5 3
          Configuration.MelodicRange) 255) 2).m_colourRotation = 255 ∧
    (setColourMap ColourMapper.sample
        (setColourRotation (construct ColourMapper.sample 5 3
          Configuration.MelodicRange) 255) 2).m_colourMap = 2 ∧
    ((0 ≤ (setColourMap ColourMapper.sample
        (setColourRotation (construct ColourMapper.sample 5 3
          Configuration.MelodicRange) 255) 2).m_colourRotation ∧
      (setColourMap ColourMapper.sample
        (setColourRotation (construct ColourMapper.sample 5 3
          Configuration.MelodicRange) 255) 2).m_colourRotation ≤ 256) ∧
    (setColourMap ColourMapper.sample
        (setColourRotation (construct ColourMapper.sample 5 3
          Configuration.MelodicRange) 255) 2).m_palette 0 =
      (if (setColourMap ColourMapper.sample
          (setColourRotation (construct ColourMapper.sample 5 3
            Configuration.MelodicRange) 255) 2).m_colourMap =
          ColourMapper.sample.blackOnWhite then Qt.white else Qt.black) ∧
    ∀ p : Nat, 1 ≤ p → p ≤ 255 →
      (setColourMap ColourMapper.sample
          (setColourRotation (construct ColourMapper.sample 5 3
            Configuration.MelodicRange) 255) 2).m_palette
          (((p : Int) - 1 - (setColourMap ColourMapper.sample
            (setColourRotation (construct ColourMapper.sample 5 3
              Configuration.MelodicRange) 255) 2).m_colourRotation) % 255 + 1).toNat =
        ColourMapper.sample.map (setColourMap ColourMapper.sample
          (setColourRotation (construct ColourMapper.sample 5 3
            Configuration.MelodicRange) 255) 2).m_colourMap p) :=
  ⟨by decide, by decide,
    palette_is_base_table_rotated ColourMapper.sample 5 3 _
      (PaletteReachable.afterSetColourMap _ 2
        (PaletteReachable.afterSetColourRotation _ 255
          (PaletteReachable.constructed Configuration.MelodicRange)))⟩

/-- Claim C29.  For every frame that is not negative (and, being an `int`, is
below `2 ^ 64`) and every window increment `r > 0`, `snapToFeatureFrame`
returns true, sets the resolution to `r` and sets the frame to a multiple of
`r`: for `SnapLeft` the largest multiple that is at most the frame, for
`SnapRight` the smallest multiple above the frame, and for `SnapNearest` and
`SnapNeighbouring` the nearer of those two, the left one on a tie. -/
theorem snapToFeatureFrame_snaps_to_grid (r : Nat) (frame : Int) (snap : SnapType)
    (hframe : 0 ≤ frame) (hr : 0 < r) (hint : frame < 2 ^ 64) :
    (snapToFeatureFrame r frame snap).1 = true ∧
    (snapToFeatureFrame r frame snap).2.2 = r ∧
    (∃ k : Int, (snapToFeatureFrame r frame snap).2.1 = k * r) ∧
    (snap = SnapType.SnapLeft →
      (snapToFeatureFrame r frame snap).2.1 ≤ frame ∧
      frame < (snapToFeatureFrame r frame snap).2.1 + r) ∧
    (snap = SnapType.SnapRight →
      frame < (snapToFeatureFrame r frame snap).2.1 ∧
      (snapToFeatureFrame r frame snap).2.1 - r ≤ frame) ∧
    ((snap = SnapType.SnapNearest ∨ snap = SnapType.SnapNeighbouring) →
      ((snapToFeatureFrame r frame snap).2.1 =
          (snapToFeatureFrame r frame SnapType.SnapLeft).2.1 ∨
        (snapToFeatureFrame r frame snap).2.1 =
          (snapToFeatureFrame r frame SnapType.SnapRight).2.1) ∧
      |frame - (snapToFeatureFrame r frame snap).2.1| ≤
        |frame - (snapToFeatureFrame r frame SnapType.SnapLeft).2.1| ∧
      |frame - (snapToFeatureFrame r frame snap).2.1| ≤
        |frame - (snapToFeatureFrame r frame SnapType.SnapRight).2.1| ∧
      (frame - (snapToFeatureFrame r frame SnapType.SnapLeft).2.1 =
          (snapToFeatureFrame r frame SnapType.SnapRight).2.1 - frame →
        (snapToFeatureFrame r frame snap).2.1 =
          (snapToFeatureFrame r frame SnapType.SnapLeft).2.1)) := by
  have hsz : toSizeT frame = frame.toNat := by
    unfold toSizeT
    rw [Int.emod_eq_of_lt hframe hint]
  obtain ⟨n, rfl⟩ := Int.eq_ofNat_of_zero_le hframe
  have hq1 : n / r * r ≤ n := Nat.div_mul_le_self n r
  have hq2 : n < n / r * r + r := by
    have := Nat.lt_div_mul_add hr (a := n)
    omega
  have hleft : toSizeT ((n / r * r : Nat) : Int) = n / r * r := by
    unfold toSizeT
    have h1 : ((n / r * r : Nat) : Int) ≤ (n : Int) := by exact_mod_cast hq1
    rw [Int.emod_eq_of_lt (Int.ofNat_nonneg _) (by omega)]
    exact Int.toNat_ofNat _
  simp only [snapToFeatureFrame, hsz, Int.toNat_ofNat, hleft]
  generalize hl : n / r * r = l at hq1 hq2
  have hmul1 : ∃ k : Int, (l : Int) = k * r := ⟨((n / r : Nat) : Int), by rw [← hl]; push_cast; rfl⟩
  have hmul2 : ∃ k : Int, ((l + r : Nat) : Int) = k * r :=
    ⟨((n / r + 1 : Nat) : Int), by rw [← hl]; push_cast; ring⟩
  refine ⟨by trivial, by trivial, ?_, ?_, ?_, ?_⟩
  · cases snap
    · exact hmul1
    · exact hmul2
    · dsimp only
      split_ifs
      · exact hmul2
      · exact hmul1
    · dsimp only
      split_ifs
      · exact hmul2
      · exact hmul1
  · rintro rfl
    dsimp only
    omega
  · rintro rfl
    dsimp only
    push_cast
    omega
  · clear hmul1 hmul2
    have hl1 : (l : Int) ≤ n := by exact_mod_cast hq1
    have hl2 : (n : Int) < l + r := by exact_mod_cast hq2
    have ha1 : |(n : Int) - l| = n - l := abs_of_nonneg (by omega)
    have ha2 : |(n : Int) - (l + r)| = l + r - n := by
      rw [abs_of_neg (by omega)]
      omega
    have hnear : ((if (n : Int) - l > l + r - n then (l : Int) + r else l) = l ∨
          (if (n : Int) - l > l + r - n then (l : Int) + r else l) = l + r) ∧
        |(n : Int) - (if (n : Int) - l > l + r - n then (l : Int) + r else l)| ≤
          |(n : Int) - l| ∧
        |(n : Int) - (if (n : Int) - l > l + r - n then (l : Int) + r else l)| ≤
          |(n : Int) - (l + r)| ∧
        ((n : Int) - l = l + r - n →
          (if (n : Int) - l > l + r - n then (l : Int) + r else l) = l) := by
      by_cases hc : (n : Int) - l > l + r - n
      · rw [if_pos hc, ha1, ha2]
        exact ⟨Or.inr rfl, by omega, le_refl _, fun h => by omega⟩
      · rw [if_neg hc, ha1, ha2]
        exact ⟨Or.inl rfl, le_refl _, by omega, fun _ => rfl⟩
    rintro (rfl | rfl)
    · dsimp only
      push_cast
      exact hnear
    · dsimp only
      push_cast
      exact hnear

/-- Witness of C29: frame 1300 on a grid of 512 is snapped to 1024 by
`SnapLeft`, to 1536 by `SnapRight` and to 1536 by `SnapNearest`. -/
theorem snapToFeatureFrame_snaps_to_grid_witness :
    snapToFeatureFrame 512 1300 SnapType.SnapLeft = (true, 1024, 512) ∧
    snapToFeatureFrame 512 1300 SnapType.SnapRight = (true, 1536, 512) ∧
    snapToFeatureFrame 512 1300 SnapType.SnapNearest = (true, 1536, 512) ∧
    (snapToFeatureFrame 512 1300 SnapType.SnapNearest).2.2 = 512 :=
  ⟨by decide, by decide, by decide,
    (snapToFeatureFrame_snaps_to_grid 512 1300 SnapType.SnapNearest (by decide)
      (by decide) (by decide)).2.1⟩

/-- Claim C22.  A fill-timer tick on a layer with a model takes the entries of
`m_fftModels` in turn, and for one whose transform has fill extent `fill` and
whose recorded fill, read as a `size_t`, is `lastFill`: if `fill < lastFill`
every image cache loses its valid area and the recorded fill becomes `fill`;
if `lastFill < fill` and `fill` is below the end frame of the model, exactly
`invalidateImageCaches(lastFill, fill)` is applied and the recorded fill
becomes `fill`; if `fill == lastFill` and `fill` is below the end frame,
neither the layer nor the recorded fill changes. -/
theorem fill_timer_round (views : ViewId → View) (m : Model) (s : Layer) (t : FFTModel)
    (recorded : Int) (vid : ViewId) (rest : ViewMap FFTFillPair) (allDone : Bool) :
    fillRounds views m ((vid, (some t, recorded)) :: rest) s allDone =
      ((vid, (some t, (fillRound views m s t recorded).2)) ::
          (fillRounds views m rest (fillRound views m s t recorded).1
            (if (fillRound views m s t recorded).2 ≥ 0 then false else allDone)).1,
        (fillRounds views m rest (fillRound views m s t recorded).1
            (if (fillRound views m s t recorded).2 ≥ 0 then false else allDone)).2) ∧
    (t.getFillExtent < toSizeT recorded →
      (fillRound views m s t recorded).1 = invalidateImageCaches s ∧
      (∀ p ∈ (fillRound views m s t recorded).1.m_imageCaches,
        p.2.validArea = QRect.null) ∧
      (fillRound views m s t recorded).2 = t.getFillExtent) ∧
    (toSizeT recorded < t.getFillExtent → t.getFillExtent < m.getEndFrame →
      (fillRound views m s t recorded).1 =
        invalidateImageCachesIn views s (toSizeT recorded) t.getFillExtent ∧
      (fillRound views m s t recorded).2 = t.getFillExtent) ∧
    (t.getFillExtent = toSizeT recorded → t.getFillExtent < m.getEndFrame →
      (fillRound views m s t recorded).1 = s ∧
      (fillRound views m s t recorded).2 = recorded) := by
  refine ⟨rfl, ?_, ?_, ?_⟩
  · intro h
    have h1 : ¬ t.getFillExtent ≥ toSizeT recorded := by omega
    have h2 : fillRound views m s t recorded =
        (invalidateImageCaches s, (t.getFillExtent : Int)) := by
      unfold fillRound
      dsimp only
      rw [if_neg h1]
    rw [h2]
    exact ⟨rfl, invalidateImageCaches_null s, rfl⟩
  · intro h hend
    have h1 : t.getFillExtent ≥ toSizeT recorded := by omega
    have h2 : ¬ (t.getFillExtent ≥ m.getEndFrame ∧ toSizeT recorded > 0) := by omega
    have h3 : t.getFillExtent > toSizeT recorded := h
    have h4 : fillRound views m s t recorded =
        (invalidateImageCachesIn views s (toSizeT recorded) t.getFillExtent,
          (t.getFillExtent : Int)) := by
      unfold fillRound
      dsimp only
      rw [if_pos h1, if_neg h2, if_pos h3]
    rw [h4]
    exact ⟨rfl, rfl⟩
  · intro h hend
    have h1 : t.getFillExtent ≥ toSizeT recorded := by omega
    have h2 : ¬ (t.getFillExtent ≥ m.getEndFrame ∧ toSizeT recorded > 0) := by omega
    have h3 : ¬ t.getFillExtent > toSizeT recorded := by omega
    have h4 : fillRound views m s t recorded = (s, recorded) := by
      unfold fillRound
      dsimp only
      rw [if_pos h1, if_neg h2, if_neg h3]
    rw [h4]
    exact ⟨rfl, rfl⟩

/-- Witness of C22: the wide view cached in full, a model of 100000 frames
and a transform filled to frame 4096, with 8192, 2048 and 4096 recorded. -/
theorem fill_timer_round_witness :
    (fillRound (fun _ => View.wide) Model.sample Layer.wide ⟨513, 196, 4096, 40, true⟩
      8192).2 = 4096 ∧
    (fillRound (fun _ => View.wide) Model.sample Layer.wide ⟨513, 196, 4096, 40, true⟩
        2048).1 = invalidateImageCachesIn (fun _ => View.wide) Layer.wide 2048 4096 ∧
    (fillRound (fun _ => View.wide) Model.sample Layer.wide ⟨513, 196, 4096, 40, true⟩
      4096).2 = 4096 :=
  ⟨((fill_timer_round (fun _ => View.wide) Model.sample Layer.wide
      ⟨513, 196, 4096, 40, true⟩ 8192 1 [] true).2.1 (by decide)).2.2,
    ((fill_timer_round (fun _ => View.wide) Model.sample Layer.wide
      ⟨513, 196, 4096, 40, true⟩ 2048 1 [] true).2.2.1 (by decide) (by decide)).1,
    ((fill_timer_round (fun _ => View.wide) Model.sample Layer.wide
      ⟨513, 196, 4096, 40, true⟩ 4096 1 [] true).2.2.2 (by decide) (by decide)).2⟩

theorem truncQ_nonneg (q : ℚ) (h : 0 ≤ q) : 0 ≤ truncQ q := by
  unfold truncQ
  exact Int.tdiv_nonneg (Rat.num_nonneg.mpr h) (Int.ofNat_nonneg _)

theorem decibelIndex_pos (num : Numerics) (min ratio floor : ℚ) :
    1 ≤ decibelIndex num min ratio floor := by
  have key : ∀ x : ℚ,
      0 ≤ (if (if x < 0 then 0 else x) > 1 then 1 else if x < 0 then 0 else x) := by
    intro x
    split_ifs <;> linarith
  unfold decibelIndex
  dsimp only
  exact Int.le_add_of_nonneg_left (truncQ_nonneg _ (mul_nonneg (key _) (by norm_num)))

theorem displayRange_ordered (num : Numerics) (s : Layer) (vid : ViewId)
    (hrange : s.m_normalizeVisibleArea = true →
      num.getMin (mapIndex MagnitudeRange.unset s.m_viewMags vid).1
        ≤ num.getMax (mapIndex MagnitudeRange.unset s.m_viewMags vid).1) :
    (displayRange num s vid).1 < (displayRange num s vid).2 ∧
    (displayRange num s vid).1 ≤
      (if s.m_normalizeVisibleArea
        then num.getMin (mapIndex MagnitudeRange.unset s.m_viewMags vid).1 else 0) := by
  unfold displayRange
  dsimp only
  cases hn : s.m_normalizeVisibleArea
  · simp only [Bool.false_eq_true, if_false]
    split_ifs <;> constructor <;> norm_num at *
  · have h := hrange hn
    simp only [if_true]
    split_ifs with h1 h2 h3 <;> constructor <;>
      first
      | linarith
      | (rcases lt_or_eq_of_le h with h4 | h4 <;> first | linarith | (exfalso; simp_all))

/-- Claim C21.  The index `getDisplayValue` returns lies in [0, 255] for every
input and every colour scale; on the dB and dB-squared scales it is at least
1 for every input, and on the linear scale it is at least 1 for every input
at or above the normalisation minimum, taken after or before the adjustment
of a degenerate range, provided the view's magnitude range has its minimum at
or below its maximum when it is the one used. -/
theorem getDisplayValue_reserves_index_zero (num : Numerics) (s : Layer) (vid : ViewId)
    (input : ℚ)
    (hrange : s.m_normalizeVisibleArea = true →
      num.getMin (mapIndex MagnitudeRange.unset s.m_viewMags vid).1
        ≤ num.getMax (mapIndex MagnitudeRange.unset s.m_viewMags vid).1) :
    (0 ≤ (getDisplayValue num s vid input).1 ∧ (getDisplayValue num s vid input).1 ≤ 255) ∧
    (s.m_colourScale = ColourScale.dBColourScale ∨
        s.m_colourScale = ColourScale.dBSquaredColourScale →
      1 ≤ (getDisplayValue num s vid input).1) ∧
    (s.m_colourScale = ColourScale.LinearColourScale →
      (displayRange num s vid).1 ≤ input → 1 ≤ (getDisplayValue num s vid input).1) ∧
    (s.m_colourScale = ColourScale.LinearColourScale →
      (if s.m_normalizeVisibleArea
        then num.getMin (mapIndex MagnitudeRange.unset s.m_viewMags vid).1 else 0) ≤ input →
      1 ≤ (getDisplayValue num s vid input).1) := by
  have hord := displayRange_ordered num s vid hrange
  have hlin : s.m_colourScale = ColourScale.LinearColourScale →
      (displayRange num s vid).1 ≤ input → 1 ≤ (getDisplayValue num s vid input).1 := by
    intro hs hin
    have h0 : 0 ≤ truncQ (((input - (displayRange num s vid).1) /
        ((displayRange num s vid).2 - (displayRange num s vid).1)) * 255) := by
      apply truncQ_nonneg
      apply mul_nonneg _ (by norm_num)
      apply div_nonneg <;> linarith [hord.1]
    unfold getDisplayValue
    simp only [hs]
    split_ifs <;> omega
  refine ⟨?_, ?_, hlin, ?_⟩
  · unfold getDisplayValue
    dsimp only
    split_ifs <;> omega
  · have h1 := decibelIndex_pos num (displayRange num s vid).1
      ((input - (displayRange num s vid).1) /
        ((displayRange num s vid).2 - (displayRange num s vid).1)) (displayRange num s vid).1
    have h2 := decibelIndex_pos num (displayRange num s vid).1
      (((input - (displayRange num s vid).1) * (input - (displayRange num s vid).1)) /
        (((displayRange num s vid).2 - (displayRange num s vid).1) *
          ((displayRange num s vid).2 - (displayRange num s vid).1)))
      ((displayRange num s vid).1 * (displayRange num s vid).1)
    rintro (hs | hs)
    · unfold getDisplayValue
      simp only [hs]
      split_ifs <;> omega
    · unfold getDisplayValue
      simp only [hs]
      split_ifs <;> omega
  · intro hs hin
    exact hlin hs (le_trans hord.2 hin)

/-- Witness of C21: on the linear scale with the range (3, 9) over `UINT_MAX`
for view 1, the middle of the range maps to 128, its minimum to 1, an input
below it to 0 and the input 1 to 255. -/
theorem getDisplayValue_reserves_index_zero_witness :
    (Layer.linear.m_normalizeVisibleArea = true →
      Numerics.sample.getMin (mapIndex MagnitudeRange.unset Layer.linear.m_viewMags 1).1
        ≤ Numerics.sample.getMax (mapIndex MagnitudeRange.unset Layer.linear.m_viewMags 1).1) ∧
    Layer.linear.m_colourScale = ColourScale.LinearColourScale ∧
    (displayRange Numerics.sample Layer.linear 1).1 ≤ 6 / 4294967295 ∧
    (getDisplayValue Numerics.sample Layer.linear 1 (6 / 4294967295)).1 = 128 ∧
    (getDisplayValue Numerics.sample Layer.linear 1 (3 / 4294967295)).1 = 1 ∧
    (getDisplayValue Numerics.sample Layer.linear 1 (2 / 4294967295)).1 = 0 ∧
    (getDisplayValue Numerics.sample Layer.linear 1 1).1 = 255 ∧
    1 ≤ (getDisplayValue Numerics.sample Layer.linear 1 (6 / 4294967295)).1 :=
  ⟨fun _ => by decide!, rfl, by decide!, by decide!, by decide!, by decide!, by decide!,
    (getDisplayValue_reserves_index_zero Numerics.sample Layer.linear 1 (6 / 4294967295)
      (fun _ => by decide!)).2.2.1 rfl (by decide!)⟩

end SpectrogramLayer

namespace SVFileReader

theorem mainSeen_nil (main : Event → Bool) : ¬ mainSeen main [] := by
  rintro ⟨e, he, _⟩
  cases he

theorem mainSeen_cons (main : Event → Bool) (e : Event) (l : List Event) :
    mainSeen main (e :: l) ↔ main e = true ∨ mainSeen main l := by
  unfold mainSeen
  constructor
  · rintro ⟨x, hx, hm⟩
    rcases List.mem_cons.mp hx with rfl | hx
    · exact Or.inl hm
    · exact Or.inr ⟨x, hx, hm⟩
  · rintro (hm | ⟨x, hx, hm⟩)
    · exact ⟨e, List.mem_cons_self _ _, hm⟩
    · exact ⟨x, List.mem_cons_of_mem _ hx, hm⟩

theorem dataPattern_nil (q : QStrings) (main : Event → Bool) : ¬ dataPattern q main [] := by
  rintro ⟨e2, e3, _, _, hs⟩
  cases hs

theorem dataPattern_mainSeen (q : QStrings) (main : Event → Bool) (l : List Event)
    (h : dataPattern q main l) : mainSeen main l := by
  obtain ⟨e2, e3, _, h3, hs⟩ := h
  exact ⟨e3, hs.subset (by simp), h3⟩

theorem dataPattern_cons (q : QStrings) (main : Event → Bool) (e : Event) (l : List Event) :
    dataPattern q main (e :: l) ↔
      (isStartOf q "data" e = true ∧ mainSeen main l) ∨ dataPattern q main l := by
  constructor
  · rintro ⟨e2, e3, h2, h3, hs⟩
    rcases List.sublist_cons_iff.mp hs with hs | ⟨r, hr, hs⟩
    · exact Or.inr ⟨e2, e3, h2, h3, hs⟩
    · simp only [List.cons.injEq] at hr
      obtain ⟨rfl, rfl⟩ := hr
      exact Or.inl ⟨h2, e3, List.singleton_sublist.mp hs, h3⟩
  · rintro (⟨h2, e3, he3, h3⟩ | ⟨e2, e3, h2, h3, hs⟩)
    · exact ⟨e, e3, h2, h3, List.cons_sublist_cons.mpr (List.singleton_sublist.mpr he3)⟩
    · exact ⟨e2, e3, h2, h3, hs.cons e⟩

theorem sessionPattern_nil (q : QStrings) (main : Event → Bool) :
    ¬ sessionPattern q main [] := by
  rintro ⟨e1, e2, e3, _, _, _, hs⟩
  cases hs

theorem sessionPattern_dataPattern (q : QStrings) (main : Event → Bool) (l : List Event)
    (h : sessionPattern q main l) : dataPattern q main l := by
  obtain ⟨e1, e2, e3, _, h2, h3, hs⟩ := h
  exact ⟨e2, e3, h2, h3, (List.sublist_cons_self e1 _).trans hs⟩

theorem sessionPattern_cons (q : QStrings) (main : Event → Bool) (e : Event)
    (l : List Event) :
    sessionPattern q main (e :: l) ↔
      (isStartOf q "sv" e = true ∧ dataPattern q main l) ∨ sessionPattern q main l := by
  constructor
  · rintro ⟨e1, e2, e3, h1, h2, h3, hs⟩
    rcases List.sublist_cons_iff.mp hs with hs | ⟨r, hr, hs⟩
    · exact Or.inr ⟨e1, e2, e3, h1, h2, h3, hs⟩
    · simp only [List.cons.injEq] at hr
      obtain ⟨rfl, rfl⟩ := hr
      exact Or.inl ⟨h1, e2, e3, h2, h3, hs⟩
  · rintro (⟨h1, e2, e3, h2, h3, hs⟩ | ⟨e1, e2, e3, h1, h2, h3, hs⟩)
    · exact ⟨e, e2, e3, h1, h2, h3, List.cons_sublist_cons.mpr hs⟩
    · exact ⟨e1, e2, e3, h1, h2, h3, hs.cons e⟩

theorem svSeen_cons (q : QStrings) (e : Event) (l : List Event) :
    svSeen q (e :: l) ↔ isStartOf q "sv" e = true ∨ svSeen q l :=
  mainSeen_cons (isStartOf q "sv") e l

theorem parse_inData (q : QStrings) (ev : List Event) :
    (SVFileIdentifier.parse q ⟨true, true, FileType.SVLayerFile⟩ ev).m_type
        = FileType.SVSessionFile ↔
      mainSeen (isTrimmedMainModelStart q)
        (SVFileIdentifier.handled q ⟨true, true, FileType.SVLayerFile⟩ ev) := by
  induction ev with
  | nil => simp [SVFileIdentifier.parse, SVFileIdentifier.handled, mainSeen_nil]
  | cons e rest ih =>
    cases e with
    | startElement qName atts =>
      simp only [SVFileIdentifier.parse, SVFileIdentifier.handled, SVFileIdentifier.handle,
        SVFileIdentifier.startElement]
      split_ifs <;> simp_all [mainSeen_cons, mainSeen_nil, isTrimmedMainModelStart]
    | endElement qName =>
      simp only [SVFileIdentifier.parse, SVFileIdentifier.handled, SVFileIdentifier.handle,
        SVFileIdentifier.endElement]
      split_ifs <;> simp_all [mainSeen_cons, mainSeen_nil, isTrimmedMainModelStart]

theorem parse_inSv (q : QStrings) (ev : List Event) :
    (SVFileIdentifier.parse q ⟨true, false, FileType.SVLayerFile⟩ ev).m_type
        = FileType.SVSessionFile ↔
      dataPattern q (isTrimmedMainModelStart q)
        (SVFileIdentifier.handled q ⟨true, false, FileType.SVLayerFile⟩ ev) := by
  induction ev with
  | nil => simp [SVFileIdentifier.parse, SVFileIdentifier.handled, dataPattern_nil]
  | cons e rest ih =>
    have hdm := dataPattern_mainSeen q (isTrimmedMainModelStart q)
      (SVFileIdentifier.handled q ⟨true, true, FileType.SVLayerFile⟩ rest)
    have hc := parse_inData q rest
    cases e with
    | startElement qName atts =>
      simp only [SVFileIdentifier.parse, SVFileIdentifier.handled, SVFileIdentifier.handle,
        SVFileIdentifier.startElement]
      split_ifs <;>
        simp_all [dataPattern_cons, dataPattern_nil, mainSeen_nil, isStartOf]
    | endElement qName =>
      simp only [SVFileIdentifier.parse, SVFileIdentifier.handled, SVFileIdentifier.handle,
        SVFileIdentifier.endElement]
      split_ifs <;>
        simp_all [dataPattern_cons, dataPattern_nil, mainSeen_nil, isStartOf]

theorem parse_outside (q : QStrings) (ev : List Event) :
    (SVFileIdentifier.parse q SVFileIdentifier.initial ev).m_type
        = FileType.SVSessionFile ↔
      sessionPattern q (isTrimmedMainModelStart q)
        (SVFileIdentifier.handled q SVFileIdentifier.initial ev) := by
  unfold SVFileIdentifier.initial
  induction ev with
  | nil => simp [SVFileIdentifier.parse, SVFileIdentifier.handled, sessionPattern_nil]
  | cons e rest ih =>
    have hdm := sessionPattern_dataPattern q (isTrimmedMainModelStart q)
      (SVFileIdentifier.handled q ⟨true, false, FileType.SVLayerFile⟩ rest)
    have hc := parse_inSv q rest
    cases e with
    | startElement qName atts =>
      simp only [SVFileIdentifier.parse, SVFileIdentifier.handled, SVFileIdentifier.handle,
        SVFileIdentifier.startElement]
      split_ifs <;>
        simp_all [sessionPattern_cons, sessionPattern_nil, dataPattern_nil, isStartOf]
    | endElement qName =>
      simp only [SVFileIdentifier.parse, SVFileIdentifier.handled, SVFileIdentifier.handle,
        SVFileIdentifier.endElement]
      split_ifs <;>
        simp_all [sessionPattern_cons, sessionPattern_nil, dataPattern_nil, isStartOf]

theorem handle_type_known (q : QStrings) (h : SVFileIdentifier) (e : Event)
    (hk : h.m_type ≠ FileType.UnknownFileType) :
    (SVFileIdentifier.handle q h e).2.m_type ≠ FileType.UnknownFileType := by
  cases e with
  | startElement qName atts =>
    simp only [SVFileIdentifier.handle, SVFileIdentifier.startElement]
    split_ifs <;> simp_all
  | endElement qName =>
    simp only [SVFileIdentifier.handle, SVFileIdentifier.endElement]
    split_ifs <;> simp_all

theorem parse_type_known (q : QStrings) (ev : List Event) (h : SVFileIdentifier)
    (hk : h.m_type ≠ FileType.UnknownFileType) :
    (SVFileIdentifier.parse q h ev).m_type ≠ FileType.UnknownFileType := by
  induction ev generalizing h with
  | nil => exact hk
  | cons e rest ih =>
    simp only [SVFileIdentifier.parse]
    split_ifs
    · exact ih _ (handle_type_known q h e hk)
    · exact handle_type_known q h e hk

theorem parse_unknown (q : QStrings) (ev : List Event) :
    (SVFileIdentifier.parse q SVFileIdentifier.initial ev).m_type
        = FileType.UnknownFileType ↔
      ¬ svSeen q (SVFileIdentifier.handled q SVFileIdentifier.initial ev) := by
  unfold SVFileIdentifier.initial
  induction ev with
  | nil => simp [SVFileIdentifier.parse, SVFileIdentifier.handled, svSeen]
  | cons e rest ih =>
    have hk := parse_type_known q rest ⟨true, false, FileType.SVLayerFile⟩ (by simp)
    cases e with
    | startElement qName atts =>
      simp only [SVFileIdentifier.parse, SVFileIdentifier.handled, SVFileIdentifier.handle,
        SVFileIdentifier.startElement]
      split_ifs <;> simp_all [svSeen_cons, isStartOf]
    | endElement qName =>
      simp only [SVFileIdentifier.parse, SVFileIdentifier.handled, SVFileIdentifier.handle,
        SVFileIdentifier.endElement]
      split_ifs <;> simp_all [svSeen_cons, isStartOf]

theorem handled_initial_segment (q : QStrings) (ev : List Event) (h : SVFileIdentifier) :
    SVFileIdentifier.handled q h ev <+: ev := by
  induction ev generalizing h with
  | nil => exact List.prefix_refl _
  | cons e rest ih =>
    simp only [SVFileIdentifier.handled]
    split_ifs
    · exact (List.prefix_cons_inj e).mpr (ih _)
    · exact ⟨rest, rfl⟩

theorem sessionPattern_svSeen (q : QStrings) (main : Event → Bool) (l : List Event)
    (h : sessionPattern q main l) : svSeen q l := by
  obtain ⟨e1, e2, e3, h1, _, _, hs⟩ := h
  exact ⟨e1, hs.subset (by simp), h1⟩

/-- Claim C23, counterexample.  A model element whose mainModel attribute is
" true ", inside a data element inside an sv element, makes the file a
session file, although no model start element with mainModel="true" is among
the events: the identifier compares the attribute value after trimming it. -/
theorem identifyXmlFile_accepts_padded_main_model :
    identifyXmlFile QStrings.ascii paddedSession = FileType.SVSessionFile ∧
    SVFileIdentifier.handled QStrings.ascii SVFileIdentifier.initial paddedSession
      = paddedSession ∧
    ¬ sessionPattern QStrings.ascii (isMainModelStart QStrings.ascii)
      (SVFileIdentifier.handled QStrings.ascii SVFileIdentifier.initial paddedSession) := by
  refine ⟨by decide, by decide, ?_⟩
  rintro ⟨e1, e2, e3, _, _, h3, hs⟩
  have hmem : e3 ∈ SVFileIdentifier.handled QStrings.ascii SVFileIdentifier.initial
      paddedSession := hs.subset (by simp)
  have hall : ∀ e ∈ SVFileIdentifier.handled QStrings.ascii SVFileIdentifier.initial
      paddedSession, isMainModelStart QStrings.ascii e = false := by decide
  rw [hall e3 hmem] at h3
  cases h3

/-- Claim C23, amended.  With the events handled before parsing stops (a
prefix of the events of the document), and the mainModel attribute compared
after trimming: the file is a session file exactly when among them a model
start element with mainModel "true" comes after a data start element that
comes after an sv start element, names compared in lower case; it is a layer
file exactly when an sv start element is among them and that pattern is not;
and it is of unknown type exactly when no sv start element is among them. -/
theorem identifyXmlFile_classifies (q : QStrings) (events : List Event) :
    SVFileIdentifier.handled q SVFileIdentifier.initial events <+: events ∧
    (identifyXmlFile q events = FileType.SVSessionFile ↔
      sessionPattern q (isTrimmedMainModelStart q)
        (SVFileIdentifier.handled q SVFileIdentifier.initial events)) ∧
    (identifyXmlFile q events = FileType.SVLayerFile ↔
      svSeen q (SVFileIdentifier.handled q SVFileIdentifier.initial events) ∧
      ¬ sessionPattern q (isTrimmedMainModelStart q)
        (SVFileIdentifier.handled q SVFileIdentifier.initial events)) ∧
    (identifyXmlFile q events = FileType.UnknownFileType ↔
      ¬ svSeen q (SVFileIdentifier.handled q SVFileIdentifier.initial events)) := by
  have h1 := parse_outside q events
  have h2 := parse_unknown q events
  have h3 := sessionPattern_svSeen q (isTrimmedMainModelStart q)
    (SVFileIdentifier.handled q SVFileIdentifier.initial events)
  refine ⟨handled_initial_segment q events _, h1, ?_, h2⟩
  unfold identifyXmlFile SVFileIdentifier.getType
  constructor
  · intro hl
    refine ⟨?_, ?_⟩
    · by_contra hns
      rw [h2.mpr hns] at hl
      cases hl
    · intro hp
      rw [h1.mpr hp] at hl
      cases hl
  · rintro ⟨hs, hp⟩
    cases ht : (SVFileIdentifier.parse q SVFileIdentifier.initial events).m_type with
    | SVSessionFile => exact absurd (h1.mp ht) hp
    | SVLayerFile => rfl
    | UnknownFileType => exact absurd hs (h2.mp ht)

/-- Witness of the amended C23: a session file written in upper case is
identified at its model element, where parsing stops; a file whose only main
model follows the end of the first data element is a layer file, parsing
having stopped at that end; and a file with the padded attribute value is a
session file. -/
theorem identifyXmlFile_classifies_witness :
    identifyXmlFile QStrings.ascii upperCaseSession = FileType.SVSessionFile ∧
    SVFileIdentifier.handled QStrings.ascii SVFileIdentifier.initial upperCaseSession
      = upperCaseSession.take 3 ∧
    identifyXmlFile QStrings.ascii layerOnly = FileType.SVLayerFile ∧
    SVFileIdentifier.handled QStrings.ascii SVFileIdentifier.initial layerOnly
      = layerOnly.take 5 ∧
    identifyXmlFile QStrings.ascii [] = FileType.UnknownFileType ∧
    sessionPattern QStrings.ascii (isTrimmedMainModelStart QStrings.ascii)
      (SVFileIdentifier.handled QStrings.ascii SVFileIdentifier.initial paddedSession) :=
  ⟨by decide, by decide, by decide, by decide, by decide,
    (identifyXmlFile_classifies QStrings.ascii paddedSession).2.1.mp (by decide)⟩

end SVFileReader
